import Mathlib

/-!
# TIPC node management (net/tipc/node.c)

A shallow embedding of the peer-node control plane of net/tipc/node.c:
the contact state machine, the link slot manager, the packet admission
filter and the per-packet state check, the node registry with its reference
counts, the release of the node lock with its deferred side effects, the
keepalive timer, and the operations that resolve a node by lookup
(connection records, link names, sending), followed by theorems about them.

C integers of type int are modelled by Int, and unsigned fixed-width
integers by Nat reduced modulo a power of two.
-/

namespace Tipc

/-! ## Node FSM states and events (node.c, lines 45-67) -/

abbrev SELF_DOWN_PEER_DOWN : Int := 0xdd
abbrev SELF_UP_PEER_UP : Int := 0xaa
abbrev SELF_DOWN_PEER_LEAVING : Int := 0xd1
abbrev SELF_UP_PEER_COMING : Int := 0xac
abbrev SELF_COMING_PEER_UP : Int := 0xca
abbrev SELF_LEAVING_PEER_DOWN : Int := 0x1d
abbrev NODE_FAILINGOVER : Int := 0xf0
abbrev NODE_SYNCHING : Int := 0xcc

abbrev SELF_ESTABL_CONTACT_EVT : Int := 0xece
abbrev SELF_LOST_CONTACT_EVT : Int := 0x1ce
abbrev PEER_ESTABL_CONTACT_EVT : Int := 0x9ece
abbrev PEER_LOST_CONTACT_EVT : Int := 0x91ce
abbrev NODE_FAILOVER_BEGIN_EVT : Int := 0xfbe
abbrev NODE_FAILOVER_END_EVT : Int := 0xfee
abbrev NODE_SYNCH_BEGIN_EVT : Int := 0xcbe
abbrev NODE_SYNCH_END_EVT : Int := 0xcee

/-- The eight values of the state enumeration. -/
def fsm_states : List Int :=
  [SELF_DOWN_PEER_DOWN, SELF_UP_PEER_UP, SELF_DOWN_PEER_LEAVING, SELF_UP_PEER_COMING,
   SELF_COMING_PEER_UP, SELF_LEAVING_PEER_DOWN, NODE_FAILINGOVER, NODE_SYNCHING]

/-- The eight values of the event enumeration. -/
def fsm_events : List Int :=
  [SELF_ESTABL_CONTACT_EVT, SELF_LOST_CONTACT_EVT, PEER_ESTABL_CONTACT_EVT,
   PEER_LOST_CONTACT_EVT, NODE_FAILOVER_BEGIN_EVT, NODE_FAILOVER_END_EVT,
   NODE_SYNCH_BEGIN_EVT, NODE_SYNCH_END_EVT]

/-- Outcome of the two nested switch statements of tipc_node_fsm_evt: either the
value assigned to the local variable state before the final store, or one of
the two error exits. -/
inductive fsm_outcome where
  | next (state : Int)
  | illegal_evt
  | unknown_state
  deriving DecidableEq, Repr

/-- The switch over (state, evt) of tipc_node_fsm_evt (node.c, lines 522-684).
An event that only hits a bare break yields next with the old state; the
events under the goto, and the default label, yield illegal_evt. -/
def tipc_node_fsm_switch (state evt : Int) : fsm_outcome :=
  if state = SELF_DOWN_PEER_DOWN then
    if evt = SELF_ESTABL_CONTACT_EVT then .next SELF_UP_PEER_COMING
    else if evt = PEER_ESTABL_CONTACT_EVT then .next SELF_COMING_PEER_UP
    else if evt = SELF_LOST_CONTACT_EVT ∨ evt = PEER_LOST_CONTACT_EVT then .next state
    else .illegal_evt
  else if state = SELF_UP_PEER_UP then
    if evt = SELF_LOST_CONTACT_EVT then .next SELF_DOWN_PEER_LEAVING
    else if evt = PEER_LOST_CONTACT_EVT then .next SELF_LEAVING_PEER_DOWN
    else if evt = NODE_SYNCH_BEGIN_EVT then .next NODE_SYNCHING
    else if evt = NODE_FAILOVER_BEGIN_EVT then .next NODE_FAILINGOVER
    else if evt = SELF_ESTABL_CONTACT_EVT ∨ evt = PEER_ESTABL_CONTACT_EVT ∨
        evt = NODE_SYNCH_END_EVT ∨ evt = NODE_FAILOVER_END_EVT then .next state
    else .illegal_evt
  else if state = SELF_DOWN_PEER_LEAVING then
    if evt = PEER_LOST_CONTACT_EVT then .next SELF_DOWN_PEER_DOWN
    else if evt = SELF_ESTABL_CONTACT_EVT ∨ evt = PEER_ESTABL_CONTACT_EVT ∨
        evt = SELF_LOST_CONTACT_EVT then .next state
    else .illegal_evt
  else if state = SELF_UP_PEER_COMING then
    if evt = PEER_ESTABL_CONTACT_EVT then .next SELF_UP_PEER_UP
    else if evt = SELF_LOST_CONTACT_EVT then .next SELF_DOWN_PEER_LEAVING
    else if evt = SELF_ESTABL_CONTACT_EVT ∨ evt = PEER_LOST_CONTACT_EVT then .next state
    else .illegal_evt
  else if state = SELF_COMING_PEER_UP then
    if evt = SELF_ESTABL_CONTACT_EVT then .next SELF_UP_PEER_UP
    else if evt = PEER_LOST_CONTACT_EVT then .next SELF_LEAVING_PEER_DOWN
    else if evt = SELF_LOST_CONTACT_EVT ∨ evt = PEER_ESTABL_CONTACT_EVT then .next state
    else .illegal_evt
  else if state = SELF_LEAVING_PEER_DOWN then
    if evt = SELF_LOST_CONTACT_EVT then .next SELF_DOWN_PEER_DOWN
    else if evt = SELF_ESTABL_CONTACT_EVT ∨ evt = PEER_ESTABL_CONTACT_EVT ∨
        evt = PEER_LOST_CONTACT_EVT then .next state
    else .illegal_evt
  else if state = NODE_FAILINGOVER then
    if evt = SELF_LOST_CONTACT_EVT then .next SELF_DOWN_PEER_LEAVING
    else if evt = PEER_LOST_CONTACT_EVT then .next SELF_LEAVING_PEER_DOWN
    else if evt = NODE_FAILOVER_END_EVT then .next SELF_UP_PEER_UP
    else if evt = NODE_FAILOVER_BEGIN_EVT ∨ evt = SELF_ESTABL_CONTACT_EVT ∨
        evt = PEER_ESTABL_CONTACT_EVT then .next state
    else .illegal_evt
  else if state = NODE_SYNCHING then
    if evt = SELF_LOST_CONTACT_EVT then .next SELF_DOWN_PEER_LEAVING
    else if evt = PEER_LOST_CONTACT_EVT then .next SELF_LEAVING_PEER_DOWN
    else if evt = NODE_SYNCH_END_EVT then .next SELF_UP_PEER_UP
    else if evt = NODE_FAILOVER_BEGIN_EVT then .next NODE_FAILINGOVER
    else if evt = NODE_SYNCH_BEGIN_EVT ∨ evt = SELF_ESTABL_CONTACT_EVT ∨
        evt = PEER_ESTABL_CONTACT_EVT then .next state
    else .illegal_evt
  else .unknown_state

/-! ## Data model -/

/-- Modelled from the spec: the link execution mode (normal / blocked / tunnel);
the enumeration is declared in link.h, which is not among the sources. -/
inductive link_exec_mode where
  | TIPC_LINK_OPEN
  | TIPC_LINK_BLOCKED
  | TIPC_LINK_TUNNEL
  deriving DecidableEq, Repr

/-- Modelled from the spec: the part of struct tipc_link (link.h, not among the
sources) that node.c reads or writes. The field up stands for the result of
tipc_link_is_up, and inputq_len for skb_queue_len of its input queue.
Buffers and queues internal to the link layer are not tracked. -/
structure tipc_link where
  bearer_id : Nat
  peer_bearer_id : Nat
  priority : Nat
  up : Bool
  exec_mode : link_exec_mode
  rcv_nxt : Nat
  mtu : Nat
  tolerance : Nat
  abort_limit : Nat
  inputq_len : Nat
  deriving DecidableEq, Repr

/-- One entry of the per-bearer table n->links[]: the optional link and the mtu
reported to users. The media address and the input queue head are not tracked. -/
structure tipc_link_entry where
  link : Option tipc_link
  mtu : Nat
  deriving DecidableEq, Repr

/-- Modelled from the spec: the header fields of a packet that node.c inspects
through the accessors of msg.h (not among the sources); wrapped_seqno is the
sequence number of the message returned by msg_get_wrapped. -/
structure tipc_msg where
  user : Nat
  mtyp : Nat
  seqno : Nat
  msgcnt : Nat
  wrapped_seqno : Nat
  peer_node_is_up : Bool
  peer_link_is_up : Bool
  deriving DecidableEq, Repr

/-- A connection record (struct tipc_sock_conn, node.c lines 76-81). -/
structure tipc_sock_conn where
  port : Nat
  peer_port : Nat
  peer_node : Nat
  deriving DecidableEq, Repr

/-- A message built by tipc_msg_create as node_lost_contact calls it; the fields
are the last five arguments of that call, in the order they are passed. -/
structure tipc_conn_abort_msg where
  dnode : Nat
  onode : Nat
  dport : Nat
  oport : Nat
  errcode : Nat
  deriving DecidableEq, Repr

/-- The part of n->bclink that node.c itself writes. The acknowledge counter is
owned by the broadcast-link subsystem and is not tracked. -/
structure tipc_node_bclink where
  recv_permitted : Bool
  oos_state : Nat
  deferdq_len : Nat
  reasm_buf : Bool
  deriving DecidableEq, Repr

/-- What the node sees of its surroundings through n->net: the own address and
the outcomes of the coming buffer allocations (true for success; an exhausted
list means success). -/
structure tipc_net_env where
  own_addr : Nat
  skb_alloc : List Bool
  deriving DecidableEq, Repr

/-- A line written to the kernel log by pr_err or pr_warn. -/
inductive klog_entry where
  | illegal_fsm_evt (evt state : Int)
  | unknown_fsm_state (state : Int)
  | third_link (addr : Nat)
  | resetting_links (addr : Nat)
  deriving DecidableEq, Repr

/-- The per-peer node object (struct tipc_node of node.h, not among the sources,
reconstructed from the uses in node.c). The registry linkage and the
publication list are not part of this record; lock counts how often the
spin lock of the node is held (1 while locked, 0 when free), timer_pending
says whether the keepalive timer is armed, and klog collects the log lines
the node operations emit. -/
structure tipc_node where
  addr : Nat
  net : tipc_net_env
  kref : Nat
  state : Int
  active_links : Int × Int
  links : List tipc_link_entry
  action_flags : Nat
  bclink : tipc_node_bclink
  working_links : Int
  link_cnt : Int
  sync_point : Nat
  link_id : Nat
  keepalive_intv : Nat
  conn_sks : List tipc_sock_conn
  inputq : List tipc_conn_abort_msg
  klog : List klog_entry
  lock : Int
  timer_pending : Bool
  deriving DecidableEq, Repr

/-! ## Constants declared in headers that are not among the sources -/

/-- Modelled from the spec: the invalid-slot sentinel, meaning no link in that
role (bearer.h defines it as -1). -/
abbrev INVALID_BEARER_ID : Int := -1

/-- Modelled from the spec: pending notification flags, one bit each (node.h). -/
abbrev TIPC_MSG_EVT : Nat := 1
abbrev TIPC_NOTIFY_NODE_DOWN : Nat := 1 <<< 3
abbrev TIPC_NOTIFY_NODE_UP : Nat := 1 <<< 4
abbrev TIPC_WAKEUP_BCAST_USERS : Nat := 1 <<< 5
abbrev TIPC_NOTIFY_LINK_UP : Nat := 1 <<< 6
abbrev TIPC_NOTIFY_LINK_DOWN : Nat := 1 <<< 7
abbrev TIPC_NAMED_MSG_EVT : Nat := 1 <<< 8
abbrev TIPC_BCAST_MSG_EVT : Nat := 1 <<< 9
abbrev TIPC_BCAST_RESET : Nat := 1 <<< 10

/-- Modelled from the spec: the size of the internal message header that
tipc_node_link_up leaves room for (msg.h). -/
abbrev INT_H_SIZE : Nat := 40

/-- Modelled from the spec: message users and tunnel message types (msg.h). -/
abbrev TUNNEL_PROTOCOL : Nat := 6
abbrev LINK_PROTOCOL : Nat := 7
abbrev SYNCH_MSG : Nat := 0
abbrev FAILOVER_MSG : Nat := 1

/-- Modelled from the spec: the error code carried by the notification sent to a
connected socket when its peer node is lost (uapi tipc.h). -/
abbrev TIPC_ERR_NO_NODE : Nat := 3

abbrev U16_MAX : Nat := 65535
abbrev U32_MAX : Nat := 4294967295

/-! ## Link-layer and header accessors used by node.c -/

/-- Modelled from the spec: link.is_up(), the up/down predicate of the link layer. -/
def tipc_link_is_up (l : tipc_link) : Bool := l.up

/-- Modelled from the spec: link.reset(); the link layer takes the link out of
the up state. Its effect on link-internal queues and counters is not tracked. -/
def tipc_link_reset (l : tipc_link) : tipc_link := { l with up := false }

/-- Modelled from the spec: reduction to the 16-bit sequence number space. -/
def mod (x : Int) : Nat := (x % 65536).toNat

/-- Modelled from the spec: modular less-or-equal over the 16-bit space, the
distance from left to right being below half the space (link.h). -/
def less_eq (left right : Nat) : Bool := mod ((right : Int) - left) < 32768

/-- Modelled from the spec: the more relation over the 16-bit space (link.h). -/
def more (left right : Nat) : Bool := !less_eq left right

/-- Modelled from the spec: the less relation over the 16-bit space (link.h). -/
def less (left right : Nat) : Bool := less_eq left right && (mod right != mod left)

def msg_user (hdr : tipc_msg) : Nat := hdr.user
def msg_type (hdr : tipc_msg) : Nat := hdr.mtyp
def msg_seqno (hdr : tipc_msg) : Nat := hdr.seqno % 65536
def msg_wrapped_seqno (hdr : tipc_msg) : Nat := hdr.wrapped_seqno % 65536
def msg_msgcnt (hdr : tipc_msg) : Nat := hdr.msgcnt % 65536
def msg_peer_node_is_up (hdr : tipc_msg) : Bool := hdr.peer_node_is_up
def msg_peer_link_is_up (hdr : tipc_msg) : Bool := hdr.peer_link_is_up

/-! ## Node operations -/

/-- The link attached to bearer i, that is n->links[i].link; none stands for NULL
(an index past the table reads as NULL). -/
def node_link (n : tipc_node) (i : Nat) : Option tipc_link :=
  match n.links[i]? with
  | some e => e.link
  | none => none

/-- Store l as the link object of bearer i: a write through the pointer
n->links[i].link. -/
def node_set_link (n : tipc_node) (i : Nat) (l : tipc_link) : tipc_node :=
  match n.links[i]? with
  | some e => { n with links := n.links.set i { e with link := some l } }
  | none => n

/-- Modelled from the spec: node_active_link of node.h (not among the sources):
the link in active slot sel & 1, or NULL when the slot holds the sentinel. -/
def node_active_link (n : tipc_node) (sel : Nat) : Option tipc_link :=
  let bearer_id := if sel % 2 = 0 then n.active_links.1 else n.active_links.2
  if bearer_id = INVALID_BEARER_ID then none else node_link n bearer_id.toNat

/-- tipc_node_is_up (node.c, lines 419-422). -/
def tipc_node_is_up (n : tipc_node) : Bool := n.active_links.1 != INVALID_BEARER_ID

/-- tipc_node_fsm_evt (node.c, lines 518-690): the state is stored only when the
switch is left through its end; the illegal_evt exit logs and returns. -/
def tipc_node_fsm_evt (n : tipc_node) (evt : Int) : tipc_node :=
  match tipc_node_fsm_switch n.state evt with
  | .next state => { n with state := state }
  | .unknown_state =>
    { n with state := n.state, klog := n.klog ++ [.unknown_fsm_state n.state] }
  | .illegal_evt => { n with klog := n.klog ++ [.illegal_fsm_evt evt n.state] }

/-- tipc_node_filter_pkt (node.c, lines 692-708), returning the verdict together
with the node it was handed. -/
def tipc_node_filter_pkt (n : tipc_node) (hdr : tipc_msg) : Bool × tipc_node :=
  let state := n.state
  if state = SELF_UP_PEER_UP then (true, n)
  else if state = SELF_LEAVING_PEER_DOWN then (false, n)
  else if state = SELF_DOWN_PEER_LEAVING ∧ msg_peer_node_is_up hdr then (false, n)
  else (true, n)

/-- node_established_contact (node.c, lines 710-717). The calls into the
broadcast link (acknowledge counter, destination set) are outside the model. -/
def node_established_contact (n_ptr : tipc_node) : tipc_node :=
  let n_ptr := tipc_node_fsm_evt n_ptr SELF_ESTABL_CONTACT_EVT
  let n_ptr := { n_ptr with action_flags := n_ptr.action_flags ||| TIPC_NOTIFY_NODE_UP }
  { n_ptr with bclink := { n_ptr.bclink with oos_state := 0 } }

/-- The loop over the connection list at the end of node_lost_contact (node.c,
lines 762-774): one TIPC_ERR_NO_NODE message per record when its buffer can
be allocated, and the record is unlinked in every case. -/
def node_lost_contact_conns : List tipc_sock_conn → tipc_node → tipc_node
  | [], n_ptr => n_ptr
  | conn :: rest, n_ptr =>
    let skb_ok := n_ptr.net.skb_alloc.headD true
    let n_ptr := { n_ptr with net := { n_ptr.net with skb_alloc := n_ptr.net.skb_alloc.tail } }
    let n_ptr :=
      if skb_ok then
        { n_ptr with
          inputq := n_ptr.inputq ++
            [{ dnode := n_ptr.net.own_addr, onode := conn.peer_node, dport := conn.port,
               oport := conn.peer_port, errcode := TIPC_ERR_NO_NODE }],
          action_flags := n_ptr.action_flags ||| TIPC_MSG_EVT }
      else n_ptr
    node_lost_contact_conns rest { n_ptr with conn_sks := rest }

/-- node_lost_contact (node.c, lines 719-775). -/
def node_lost_contact (n_ptr : tipc_node) : tipc_node :=
  let n_ptr :=
    if n_ptr.bclink.recv_permitted then
      { n_ptr with bclink := { n_ptr.bclink with
          deferdq_len := 0, reasm_buf := false, recv_permitted := false } }
    else n_ptr
  let n_ptr := { n_ptr with links := n_ptr.links.map fun e =>
    { e with link := e.link.map fun l_ptr => { l_ptr with exec_mode := .TIPC_LINK_OPEN } } }
  let n_ptr := tipc_node_fsm_evt n_ptr SELF_LOST_CONTACT_EVT
  let n_ptr := { n_ptr with action_flags := n_ptr.action_flags ||| TIPC_NOTIFY_NODE_DOWN }
  node_lost_contact_conns n_ptr.conn_sks n_ptr

/-- Apply f to the link object of bearer i: a write through a link pointer that
was read from n->links[i].link. -/
def node_update_link (n : tipc_node) (i : Nat) (f : tipc_link → tipc_link) : tipc_node :=
  match node_link n i with
  | some l => node_set_link n i (f l)
  | none => n

/-- The node object that tipc_node_create allocates and initialises (node.c,
lines 150-177): zeroed memory, then the explicit stores. max_bearers is
MAX_BEARERS, the size of the link table (bearer.h, not among the sources). -/
def tipc_node_alloc (max_bearers : Nat) (net : tipc_net_env) (addr : Nat) : tipc_node :=
  { addr := addr
    net := net
    kref := 2
    state := SELF_DOWN_PEER_LEAVING
    active_links := (INVALID_BEARER_ID, INVALID_BEARER_ID)
    links := List.replicate max_bearers { link := none, mtu := 0 }
    action_flags := 0
    bclink := { recv_permitted := false, oos_state := 0, deferdq_len := 0, reasm_buf := false }
    working_links := 0
    link_cnt := 0
    sync_point := 0
    link_id := 0
    keepalive_intv := U32_MAX
    conn_sks := []
    inputq := []
    klog := []
    lock := 0
    timer_pending := false }

/-- tipc_node_attach_link (node.c, lines 497-501); none when the bearer identity
of the link lies outside the table. -/
def tipc_node_attach_link (n_ptr : tipc_node) (l_ptr : tipc_link) : Option tipc_node :=
  match n_ptr.links[l_ptr.bearer_id]? with
  | none => none
  | some e =>
    some { n_ptr with
      links := n_ptr.links.set l_ptr.bearer_id { e with link := some l_ptr },
      link_cnt := n_ptr.link_cnt + 1 }

/-- tipc_node_link_up (node.c, lines 309-355). The result is none when the
function dereferences a NULL link pointer. The destination bookkeeping of
the bearer and the tunnel packets that tipc_link_tnl_prepare queues on xmitq
are outside the model. -/
def tipc_node_link_up (n : tipc_node) (bearer_id : Nat) : Option tipc_node :=
  let ol := node_active_link n 0
  if n.working_links > 1 then
    some { n with klog := n.klog ++ [.third_link n.addr] }
  else
    match node_link n bearer_id with
    | none => none
    | some nl =>
      let n := { n with
        working_links := n.working_links + 1,
        action_flags := n.action_flags ||| TIPC_NOTIFY_LINK_UP,
        link_id := (nl.peer_bearer_id <<< 16 ||| bearer_id) % 2 ^ 32 }
      let mtu := (((nl.mtu : Int) - INT_H_SIZE) % 2 ^ 32).toNat
      let n := { n with links := n.links.modify (fun e => { e with mtu := mtu }) bearer_id }
      match ol with
      | none =>
        let n := { n with active_links := ((bearer_id : Int), (bearer_id : Int)) }
        let n := node_set_link n bearer_id { nl with exec_mode := .TIPC_LINK_OPEN }
        some (node_established_contact n)
      | some ol =>
        if nl.priority > ol.priority then
          some { n with active_links := ((bearer_id : Int), (bearer_id : Int)) }
        else if nl.priority = ol.priority then
          some { n with active_links := ((bearer_id : Int), n.active_links.2) }
        else
          some n

/-- The selection loop of tipc_node_link_down (node.c, lines 387-402), run over
the entries from index i on; the accumulator is (highest, slot0, slot1). The
pointer test _l == l is the test i = bearer_id, a link object being attached
to one entry only. -/
def link_down_select (bearer_id : Nat) :
    List tipc_link_entry → Nat → Nat × Int × Int → Nat × Int × Int
  | [], _, acc => acc
  | e :: es, i, (highest, slot0, slot1) =>
    match e.link with
    | none => link_down_select bearer_id es (i + 1) (highest, slot0, slot1)
    | some l' =>
      if !tipc_link_is_up l' then
        link_down_select bearer_id es (i + 1) (highest, slot0, slot1)
      else if i = bearer_id then
        link_down_select bearer_id es (i + 1) (highest, slot0, slot1)
      else if l'.priority < highest then
        link_down_select bearer_id es (i + 1) (highest, slot0, slot1)
      else if l'.priority > highest then
        link_down_select bearer_id es (i + 1) (l'.priority, (i : Int), (i : Int))
      else
        link_down_select bearer_id es (i + 1) (highest, slot0, (i : Int))

/-- tipc_node_link_down (node.c, lines 360-417). The result is none when the
function dereferences a NULL link pointer. -/
def tipc_node_link_down (n : tipc_node) (bearer_id : Nat) : Option tipc_node :=
  match node_link n bearer_id with
  | none => some n
  | some l =>
    if !tipc_link_is_up l then some n
    else
      let n := { n with
        working_links := n.working_links - 1,
        action_flags := n.action_flags ||| TIPC_NOTIFY_LINK_DOWN,
        link_id := (l.peer_bearer_id <<< 16 ||| bearer_id) % 2 ^ 32 }
      let sel := link_down_select bearer_id n.links 0
        (0, INVALID_BEARER_ID, INVALID_BEARER_ID)
      let n := { n with active_links := (sel.2.1, sel.2.2) }
      if !tipc_node_is_up n then
        let n := node_set_link n bearer_id (tipc_link_reset l)
        some (node_lost_contact n)
      else
        match node_active_link n 0 with
        | none => none
        | some tnl =>
          let n := tipc_node_fsm_evt n NODE_FAILOVER_BEGIN_EVT
          let n := { n with sync_point := mod ((tnl.rcv_nxt : Int) + (U16_MAX / 2 - 1)) }
          some (node_set_link n bearer_id (tipc_link_reset l))

/-- The search for a parallel link in tipc_node_check_state (node.c, lines
1014-1020): the first bearer other than bearer_id that carries a link. -/
def find_parallel_link (bearer_id : Nat) : List tipc_link_entry → Nat → Option Nat
  | [], _ => none
  | e :: es, i =>
    if i ≠ bearer_id ∧ e.link.isSome then some i
    else find_parallel_link bearer_id es (i + 1)

/-- The block of tipc_node_check_state that initiates or updates failover mode
(node.c, lines 1041-1051); pl is the bearer index of the parallel link. The
result is none when the nested tipc_node_link_down faults. -/
def check_state_failover (n : tipc_node) (hdr : tipc_msg) (pl : Option Nat) :
    Option tipc_node :=
  if msg_user hdr = TUNNEL_PROTOCOL ∧ msg_type hdr = FAILOVER_MSG then
    let syncpt := mod ((msg_seqno hdr : Int) + msg_msgcnt hdr - 1)
    let down : Option tipc_node :=
      match pl.bind fun i => (node_link n i).map fun q => (i, q) with
      | some (i, q) =>
        if tipc_link_is_up q then
          (tipc_node_link_down n q.bearer_id).map fun n =>
            node_update_link n i fun q => { q with exec_mode := .TIPC_LINK_BLOCKED }
        else some n
      | none => some n
    down.map fun n =>
      if less syncpt n.sync_point then { n with sync_point := syncpt } else n
  else some n

/-- The block of tipc_node_check_state that initiates or updates synch mode
(node.c, lines 1061-1071). -/
def check_state_synch (n : tipc_node) (hdr : tipc_msg) (bearer_id : Nat) : tipc_node :=
  if msg_user hdr = TUNNEL_PROTOCOL ∧ msg_type hdr = SYNCH_MSG then
    let syncpt := mod ((msg_wrapped_seqno hdr : Int) + msg_msgcnt hdr - 1)
    let n :=
      if n.state = SELF_UP_PEER_UP then
        tipc_node_fsm_evt { n with sync_point := syncpt } NODE_SYNCH_BEGIN_EVT
      else n
    let n := node_update_link n bearer_id fun q => { q with exec_mode := .TIPC_LINK_TUNNEL }
    if less syncpt n.sync_point then { n with sync_point := syncpt } else n
  else n

/-- The last block of tipc_node_check_state, which opens the tunnel link when
the parallel link has reached the synch point (node.c, lines 1073-1088). -/
def check_state_open_tunnel (n : tipc_node) (hdr : tipc_msg) (bearer_id : Nat)
    (pl : Option Nat) : Bool × tipc_node :=
  if n.state = NODE_SYNCHING ∧
      (node_link n bearer_id).map (·.exec_mode) = some .TIPC_LINK_TUNNEL then
    let dlv_nxt := (pl.bind (node_link n)).map fun q =>
      mod ((q.rcv_nxt % 65536 : Nat) - (q.inputq_len : Int))
    if pl = none ∨ dlv_nxt.any (more · n.sync_point) then
      let n := tipc_node_fsm_evt n NODE_SYNCH_END_EVT
      let n := node_update_link n bearer_id fun q => { q with exec_mode := .TIPC_LINK_OPEN }
      (true, n)
    else if msg_user hdr = TUNNEL_PROTOCOL ∧ msg_type hdr = SYNCH_MSG then (true, n)
    else if msg_user hdr = LINK_PROTOCOL then (true, n)
    else (false, n)
  else (true, n)

/-- tipc_node_check_state (node.c, lines 990-1089). The links l and pl are
pointers in the source; here they are the bearer indices bearer_id and pl, and
every read through them looks at the current node. -/
def tipc_node_check_state (n : tipc_node) (hdr : tipc_msg) (bearer_id : Nat) :
    Option (Bool × tipc_node) :=
  let usr := msg_user hdr
  let oseqno := msg_seqno hdr
  let state := n.state
  match node_link n bearer_id with
  | none => some (false, n)
  | some l =>
    let rcv_nxt := l.rcv_nxt % 65536
    if state = SELF_UP_PEER_UP ∧ usr ≠ TUNNEL_PROTOCOL then some (true, n)
    else
      let pl := find_parallel_link bearer_id n.links 0
      if state = SELF_UP_PEER_COMING ∧ !tipc_link_is_up l then some (true, n)
      else if state = SELF_UP_PEER_COMING ∧ !msg_peer_link_is_up hdr then some (true, n)
      else
        let n := if state = SELF_UP_PEER_COMING then
          tipc_node_fsm_evt n PEER_ESTABL_CONTACT_EVT else n
        if state = SELF_DOWN_PEER_LEAVING ∧ msg_peer_node_is_up hdr then some (false, n)
        else
          let n := if state = SELF_DOWN_PEER_LEAVING then
            tipc_node_fsm_evt n PEER_LOST_CONTACT_EVT else n
          if less oseqno rcv_nxt then some (true, n)
          else
            match check_state_failover n hdr pl with
            | none => none
            | some n =>
              if n.state = NODE_FAILINGOVER ∧ more rcv_nxt n.sync_point then
                let n := tipc_node_fsm_evt n NODE_FAILOVER_END_EVT
                let n := match pl with
                  | some i => node_update_link n i fun q => { q with exec_mode := .TIPC_LINK_OPEN }
                  | none => n
                some (true, n)
              else
                some (check_state_open_tunnel (check_state_synch n hdr bearer_id)
                  hdr bearer_id pl)

/-! ## Runs of node operations -/

/-- The events that drive a node: a link is created and attached; the link layer
brings the link of a bearer up and reports it (TIPC_LINK_UP_EVT, handled by
tipc_node_link_up); a link is reported lost (tipc_node_link_down); a packet
is checked on arrival (tipc_node_check_state); the link layer advances the
receive counters of a link. -/
inductive node_event where
  | attach (l : tipc_link)
  | link_up (bearer_id : Nat)
  | link_down (bearer_id : Nat)
  | check_state (hdr : tipc_msg) (bearer_id : Nat)
  | link_progress (bearer_id rcv_nxt inputq_len : Nat)
  deriving DecidableEq, Repr

/-- One event applied to a node; none when the event cannot be carried out. -/
def exec_event (n : tipc_node) : node_event → Option tipc_node
  | .attach l => tipc_node_attach_link n l
  | .link_up bearer_id =>
    match node_link n bearer_id with
    | none => none
    | some l => tipc_node_link_up (node_set_link n bearer_id { l with up := true }) bearer_id
  | .link_down bearer_id => tipc_node_link_down n bearer_id
  | .check_state hdr bearer_id => (tipc_node_check_state n hdr bearer_id).map (·.2)
  | .link_progress bearer_id rcv_nxt inputq_len =>
    match node_link n bearer_id with
    | none => none
    | some l =>
      some (node_set_link n bearer_id { l with rcv_nxt := rcv_nxt, inputq_len := inputq_len })

/-- A list of events applied in order. -/
def exec_events (n : tipc_node) : List node_event → Option tipc_node
  | [] => some n
  | ev :: evs =>
    match exec_event n ev with
    | none => none
    | some n' => exec_events n' evs

/-! ## The transition table of the specification and sample inputs -/

/-- The state-changing transitions listed in section 4.2 of the specification,
as (state, event, next state). -/
def spec_fsm_transitions : List (Int × Int × Int) :=
  [(SELF_DOWN_PEER_DOWN, SELF_ESTABL_CONTACT_EVT, SELF_UP_PEER_COMING),
   (SELF_DOWN_PEER_DOWN, PEER_ESTABL_CONTACT_EVT, SELF_COMING_PEER_UP),
   (SELF_UP_PEER_UP, SELF_LOST_CONTACT_EVT, SELF_DOWN_PEER_LEAVING),
   (SELF_UP_PEER_UP, PEER_LOST_CONTACT_EVT, SELF_LEAVING_PEER_DOWN),
   (SELF_UP_PEER_UP, NODE_SYNCH_BEGIN_EVT, NODE_SYNCHING),
   (SELF_UP_PEER_UP, NODE_FAILOVER_BEGIN_EVT, NODE_FAILINGOVER),
   (SELF_UP_PEER_COMING, PEER_ESTABL_CONTACT_EVT, SELF_UP_PEER_UP),
   (SELF_UP_PEER_COMING, SELF_LOST_CONTACT_EVT, SELF_DOWN_PEER_LEAVING),
   (SELF_COMING_PEER_UP, SELF_ESTABL_CONTACT_EVT, SELF_UP_PEER_UP),
   (SELF_COMING_PEER_UP, PEER_LOST_CONTACT_EVT, SELF_LEAVING_PEER_DOWN),
   (SELF_DOWN_PEER_LEAVING, PEER_LOST_CONTACT_EVT, SELF_DOWN_PEER_DOWN),
   (SELF_LEAVING_PEER_DOWN, SELF_LOST_CONTACT_EVT, SELF_DOWN_PEER_DOWN),
   (NODE_FAILINGOVER, NODE_FAILOVER_END_EVT, SELF_UP_PEER_UP),
   (NODE_FAILINGOVER, SELF_LOST_CONTACT_EVT, SELF_DOWN_PEER_LEAVING),
   (NODE_FAILINGOVER, PEER_LOST_CONTACT_EVT, SELF_LEAVING_PEER_DOWN),
   (NODE_SYNCHING, NODE_SYNCH_END_EVT, SELF_UP_PEER_UP),
   (NODE_SYNCHING, NODE_FAILOVER_BEGIN_EVT, NODE_FAILINGOVER),
   (NODE_SYNCHING, SELF_LOST_CONTACT_EVT, SELF_DOWN_PEER_LEAVING),
   (NODE_SYNCHING, PEER_LOST_CONTACT_EVT, SELF_LEAVING_PEER_DOWN)]

/-- The two entries that section 4.2 lists as no-ops: the lost-contact events in
SELF_DOWN_PEER_DOWN. -/
def spec_fsm_noops : List (Int × Int × Int) :=
  [(SELF_DOWN_PEER_DOWN, SELF_LOST_CONTACT_EVT, SELF_DOWN_PEER_DOWN),
   (SELF_DOWN_PEER_DOWN, PEER_LOST_CONTACT_EVT, SELF_DOWN_PEER_DOWN)]

/-- Every (state, event, next state) entry of the table of section 4.2. -/
def spec_fsm_table : List (Int × Int × Int) := spec_fsm_transitions ++ spec_fsm_noops

/-- A link as the link layer creates it: not up, in open mode. -/
def sample_link (bearer_id priority : Nat) : tipc_link :=
  { bearer_id := bearer_id, peer_bearer_id := bearer_id, priority := priority, up := false,
    exec_mode := .TIPC_LINK_OPEN, rcv_nxt := 1, mtu := 1500, tolerance := 1500,
    abort_limit := 0, inputq_len := 0 }

/-- A newly created node for peer 0x100042 with a table of three bearers. -/
def sample_node : tipc_node :=
  tipc_node_alloc 3 { own_addr := 0x100001, skb_alloc := [] } 0x100042

/-- A data packet header with the given sequence number and peer flags. -/
def sample_hdr (seqno : Nat) (peer_node_is_up peer_link_is_up : Bool) : tipc_msg :=
  { user := 0, mtyp := 0, seqno := seqno, msgcnt := 0, wrapped_seqno := 0,
    peer_node_is_up := peer_node_is_up, peer_link_is_up := peer_link_is_up }

/-- A node in steady state whose bearers 0 and 1 carry links of priorities p0
and p1, both up as far as the link layer is concerned; the link of bearer 0
holds both active slots and is the only one counted as working. -/
def two_link_node (p0 p1 : Nat) : tipc_node :=
  { sample_node with
    state := SELF_UP_PEER_UP,
    active_links := (0, 0),
    working_links := 1,
    link_cnt := 2,
    links := [{ link := some { sample_link 0 p0 with up := true }, mtu := 1460 },
              { link := some { sample_link 1 p1 with up := true }, mtu := 0 },
              { link := none, mtu := 0 }] }

/-- The events that took a newly created node with one link on bearer 0 to the
steady state: the first link-up is swallowed in SELF_DOWN_PEER_LEAVING, the
peer is seen to have lost contact, the link goes down and comes up again, and
a packet then shows that the peer has the link up. -/
def sample_establish_events : List node_event :=
  [.attach (sample_link 0 3), .link_up 0, .check_state (sample_hdr 1 false true) 0,
   .link_down 0, .link_up 0, .check_state (sample_hdr 1 false true) 0]

/-- The node reached from sample_node by sample_establish_events. -/
def sample_established : tipc_node :=
  (exec_events sample_node sample_establish_events).getD sample_node

/-! ## Invariants -/

/-- The states in which this node holds contact with the peer over a link. -/
def contact_up (state : Int) : Prop :=
  state = SELF_UP_PEER_COMING ∨ state = SELF_UP_PEER_UP ∨ state = NODE_FAILINGOVER ∨
    state = NODE_SYNCHING

instance contact_up_decidable (state : Int) : Decidable (contact_up state) := by
  unfold contact_up
  infer_instance

/-- Agreement of FSM state and slot validity: in a state with contact, active
slot 0 is valid. -/
def state_slot_agree (n : tipc_node) : Prop :=
  contact_up n.state → n.active_links.1 ≠ INVALID_BEARER_ID

/-- Bearer j of the table L carries an up link of priority q and is not the
bearer b that is being taken down. -/
def select_candidate (L : List tipc_link_entry) (b j q : Nat) : Prop :=
  ∃ e l, L[j]? = some e ∧ e.link = some l ∧ l.up = true ∧ j ≠ b ∧ l.priority = q

/-- What the selection loop of tipc_node_link_down has established after the
bearers below i. -/
def select_inv (L : List tipc_link_entry) (b i : Nat) (acc : Nat × Int × Int) : Prop :=
  (∀ j q, j < i → select_candidate L b j q → q ≤ acc.1) ∧
  (acc.2.1 ≠ INVALID_BEARER_ID → ∃ j : Nat, acc.2.1 = (j : Int) ∧ select_candidate L b j acc.1) ∧
  (acc.2.2 ≠ INVALID_BEARER_ID → ∃ j : Nat, acc.2.2 = (j : Int) ∧ select_candidate L b j acc.1) ∧
  (acc.2.1 = INVALID_BEARER_ID → acc.1 = 0)

/-- Bearer j of node n carries an up link of priority q. -/
def link_up_with (n : tipc_node) (j q : Nat) : Prop :=
  ∃ l, node_link n j = some l ∧ l.up = true ∧ l.priority = q

/-- Every valid active slot references an up link whose priority is maximal
among the up links, and slot 0 is invalid only if no up link has a positive
priority. -/
def slots_best (n : tipc_node) : Prop :=
  (∀ s : Int, (s = n.active_links.1 ∨ s = n.active_links.2) → s ≠ INVALID_BEARER_ID →
    ∃ k p : Nat, s = (k : Int) ∧ link_up_with n k p ∧ ∀ j q, link_up_with n j q → q ≤ p) ∧
  (n.active_links.1 = INVALID_BEARER_ID → ∀ j q, link_up_with n j q → q = 0)

/-- No active slot references a link while a link of strictly higher priority
is up. -/
def slots_prefer_high (n : tipc_node) : Prop :=
  ∀ (s : Int) (k : Nat) (ls : tipc_link), (s = n.active_links.1 ∨ s = n.active_links.2) →
    s = (k : Int) → node_link n k = some ls →
    ∀ j l, node_link n j = some l → l.up = true → l.priority ≤ ls.priority

/-- The event is a link-up or a link-down event on one of the first nb bearers. -/
def is_link_event (nb : Nat) : node_event → Bool
  | .link_up b => decide (b < nb)
  | .link_down b => decide (b < nb)
  | _ => false

/-- No link-up event of the run arrives while two links are already counted as
working, that is, none is turned away by the guard at the head of
tipc_node_link_up. -/
def no_rejected_link_up : tipc_node → List node_event → Bool
  | _, [] => true
  | n, ev :: evs =>
    (match ev with
      | .link_up _ => decide (n.working_links ≤ 1)
      | _ => true) &&
    (match exec_event n ev with
      | some n' => no_rejected_link_up n' evs
      | none => true)

/-- A newly created node with a table of three bearers to which the links l0,
l1 and l2 have been attached. -/
def three_link_node (net : tipc_net_env) (addr : Nat) (l0 l1 l2 : tipc_link) : tipc_node :=
  { tipc_node_alloc 3 net addr with
    links := [{ link := some l0, mtu := 0 }, { link := some l1, mtu := 0 },
              { link := some l2, mtu := 0 }],
    link_cnt := 3 }

/-- A node that is failing over to the link of bearer 0: the link of bearer 1
has been reset and blocked, and the given sync point is in force. -/
def failingover_node (sync_point : Nat) : tipc_node :=
  { sample_node with
    state := NODE_FAILINGOVER,
    active_links := (0, 0),
    working_links := 1,
    link_cnt := 2,
    sync_point := sync_point,
    links := [{ link := some { sample_link 0 5 with up := true }, mtu := 1460 },
              { link := some { sample_link 1 5 with exec_mode := .TIPC_LINK_BLOCKED },
                mtu := 1460 },
              { link := none, mtu := 0 }] }

/-- A tunnel packet header of the given type with outer sequence number seqno,
carrying a wrapped message with sequence number wrapped_seqno and announcing
msgcnt packets. -/
def sample_tunnel_hdr (mtyp seqno wrapped_seqno msgcnt : Nat) : tipc_msg :=
  { user := TUNNEL_PROTOCOL, mtyp := mtyp, seqno := seqno, msgcnt := msgcnt,
    wrapped_seqno := wrapped_seqno, peer_node_is_up := true, peer_link_is_up := true }

/-- The sync point that tipc_node_check_state compares against in its last
block: a TUNNEL_PROTOCOL/SYNCH_MSG packet first lowers the sync point of the
node to wrapped seqno + msgcnt - 1 when that is less (node.c lines 1063 and
1069-1070); any other packet leaves it as it was. -/
def synch_updated_sync_point (sync_point : Nat) (hdr : tipc_msg) : Nat :=
  if msg_user hdr = TUNNEL_PROTOCOL ∧ msg_type hdr = SYNCH_MSG ∧
      less (mod ((msg_wrapped_seqno hdr : Int) + msg_msgcnt hdr - 1)) sync_point then
    mod ((msg_wrapped_seqno hdr : Int) + msg_msgcnt hdr - 1)
  else sync_point

/-- The events that take a newly created node with links of priority 5 on
bearers 0 and 1 into NODE_SYNCHING: contact is established over bearer 0, the
link of bearer 1 comes up and has delivered up to sequence number 50, and a
SYNCH_MSG tunnel packet on bearer 0 announces the sync point 100. -/
def sample_synching_events : List node_event :=
  [.attach (sample_link 0 5), .attach (sample_link 1 5), .link_up 0,
   .check_state (sample_hdr 1 false true) 0, .link_down 0, .link_up 0,
   .check_state (sample_hdr 1 false true) 0, .link_up 1, .link_progress 1 50 0,
   .check_state (sample_tunnel_hdr SYNCH_MSG 1 100 1) 0]

/-- The node reached from sample_node by sample_synching_events. -/
def sample_synching : tipc_node :=
  (exec_events sample_node sample_synching_events).getD sample_node

/-- The lesser of two sequence numbers under the 16-bit modular less relation:
a when less(a, b), else b. -/
def min_less (a b : Nat) : Nat := if less a b then a else b

/-- The link of bearer j with its execution mode blanked out: what stays the
same when only execution modes are switched. -/
def link_core (n : tipc_node) (j : Nat) : Option tipc_link :=
  (node_link n j).map fun q => { q with exec_mode := .TIPC_LINK_OPEN }

/-- The states in which the node has full contact with its peer; in these
NODE_FAILOVER_BEGIN is a legal event. -/
def full_contact (state : Int) : Prop :=
  state = SELF_UP_PEER_UP ∨ state = NODE_SYNCHING ∨ state = NODE_FAILINGOVER

instance full_contact_decidable (state : Int) : Decidable (full_contact state) := by
  unfold full_contact
  infer_instance

/-- The link held by entry j of a link table; none past its end. -/
def links_at (L : List tipc_link_entry) (j : Nat) : Option tipc_link :=
  match L[j]? with
  | some e => e.link
  | none => none


/-- The pairs of a state and an event outside the table of section 4.2 for which
tipc_node_fsm_evt is expected to report an illegal event: a failover or synch
event in one of the five states without full contact, a synch event in
NODE_FAILINGOVER, and the end of a failover in NODE_SYNCHING. -/
def spec_fsm_illegal_pairs : List (Int × Int) :=
  ([SELF_DOWN_PEER_DOWN, SELF_DOWN_PEER_LEAVING, SELF_UP_PEER_COMING, SELF_COMING_PEER_UP,
    SELF_LEAVING_PEER_DOWN].flatMap fun S =>
    [NODE_FAILOVER_BEGIN_EVT, NODE_FAILOVER_END_EVT, NODE_SYNCH_BEGIN_EVT,
     NODE_SYNCH_END_EVT].map fun E => (S, E)) ++
  [(NODE_FAILINGOVER, NODE_SYNCH_BEGIN_EVT), (NODE_FAILINGOVER, NODE_SYNCH_END_EVT),
   (NODE_SYNCHING, NODE_FAILOVER_END_EVT)]

/-! ## The node registry -/

/-- A line written to the kernel log by the registry operations. -/
inductive net_klog_entry where
  | node_creation_failed
  | connecting_sock_failed (dnode : Nat)
  deriving DecidableEq, Repr

/-- The per-namespace data of TIPC that node.c works on (struct tipc_net of
core.h, not among the sources, reconstructed from the uses in node.c). A node
pointer is an index into nodes, which holds the node objects in the order
they were allocated; node_htable is the array of hash chains (its length is
NODE_HTABLE_SIZE) and node_list the address-ordered list, both of node
pointers. The predicate in_own_cluster_exact of addr.h and the constant
MAX_BEARERS of bearer.h are taken as parameters; env is what a node sees
through n->net; kzalloc_ok holds the outcomes of the coming node allocations
(true for success; an exhausted list means success). The registry lock is
not tracked. -/
structure tipc_net where
  env : tipc_net_env
  in_own_cluster_exact : Nat → Bool
  max_bearers : Nat
  node_htable : List (List Nat)
  node_list : List Nat
  nodes : List tipc_node
  kzalloc_ok : List Bool
  klog : List net_klog_entry

/-- tipc_hashfn (node.c, lines 95-98); node_htable_size is NODE_HTABLE_SIZE. -/
def tipc_hashfn (node_htable_size addr : Nat) : Nat := addr &&& (node_htable_size - 1)

/-- tipc_node_get (node.c, lines 112-115). -/
def tipc_node_get (node : tipc_node) : tipc_node := { node with kref := node.kref + 1 }

/-- The walk along one hash chain in tipc_node_find (node.c, lines 129-136):
the first node of the chain whose address is addr. A pointer that refers to
no node object is passed over. -/
def node_htable_lookup (nodes : List tipc_node) (addr : Nat) : List Nat → Option Nat
  | [] => none
  | p :: ps =>
    match nodes[p]? with
    | some node => if node.addr = addr then some p else node_htable_lookup nodes addr ps
    | none => node_htable_lookup nodes addr ps

/-- tipc_node_find (node.c, lines 120-139): the pointer found, if any, and the
registry afterwards (the node found holds one more reference). -/
def tipc_node_find (tn : tipc_net) (addr : Nat) : Option Nat × tipc_net :=
  if !tn.in_own_cluster_exact addr then (none, tn)
  else
    match node_htable_lookup tn.nodes addr
        (tn.node_htable.getD (tipc_hashfn tn.node_htable.length addr) []) with
    | some p => (some p, { tn with nodes := tn.nodes.modify tipc_node_get p })
    | none => (none, tn)

/-- The search for the insertion point in tipc_node_create and the call of
list_add_tail_rcu (node.c, lines 166-170): the new pointer p goes before the
first node whose address is greater than addr, or to the tail. -/
def node_list_insert (nodes : List tipc_node) (p addr : Nat) : List Nat → List Nat
  | [] => [p]
  | t :: ts =>
    match nodes[t]? with
    | some temp_node =>
      if addr < temp_node.addr then p :: t :: ts
      else t :: node_list_insert nodes p addr ts
    | none => t :: node_list_insert nodes p addr ts

/-- tipc_node_create (node.c, lines 141-181): the pointer returned (none for
NULL) and the registry afterwards. -/
def tipc_node_create (tn : tipc_net) (addr : Nat) : Option Nat × tipc_net :=
  match tipc_node_find tn addr with
  | (some p, tn) => (some p, tn)
  | (none, tn) =>
    let ok := tn.kzalloc_ok.headD true
    let tn := { tn with kzalloc_ok := tn.kzalloc_ok.tail }
    if !ok then (none, { tn with klog := tn.klog ++ [.node_creation_failed] })
    else
      let p := tn.nodes.length
      let n_ptr := tipc_node_alloc tn.max_bearers tn.env addr
      (some p, { tn with
        nodes := tn.nodes ++ [n_ptr],
        node_htable := tn.node_htable.modify (fun chain => p :: chain)
          (tipc_hashfn tn.node_htable.length addr),
        node_list := node_list_insert tn.nodes p addr tn.node_list })

/-- The pointer p refers to a node object whose address is addr. -/
def node_has_addr (nodes : List tipc_node) (addr p : Nat) : Bool :=
  match nodes[p]? with
  | some node => node.addr == addr
  | none => false

/-- A registry without nodes, with a hash table of node_htable_size chains. -/
def empty_registry (env : tipc_net_env) (in_own_cluster_exact : Nat → Bool)
    (max_bearers node_htable_size : Nat) (kzalloc_ok : List Bool) : tipc_net :=
  { env := env, in_own_cluster_exact := in_own_cluster_exact, max_bearers := max_bearers,
    node_htable := List.replicate node_htable_size [], node_list := [], nodes := [],
    kzalloc_ok := kzalloc_ok, klog := [] }

/-- A run of calls of tipc_node_create, one per address of the list. -/
def exec_creates (tn : tipc_net) : List Nat → tipc_net
  | [] => tn
  | addr :: addrs => exec_creates (tipc_node_create tn addr).2 addrs

/-- A registry for own address 1.1.1 with three bearers and sixteen hash
chains, in which an address is in the own cluster when it agrees with the own
address above the twelve node bits. -/
def sample_registry : tipc_net :=
  empty_registry { own_addr := 0x1001001, skb_alloc := [] }
    (fun addr => (addr ^^^ 0x1001001) >>> 12 == 0) 3 16 []

/-- The number of nodes with address addr on the node list. -/
def node_list_count (tn : tipc_net) (addr : Nat) : Nat :=
  tn.node_list.countP (node_has_addr tn.nodes addr)

/-- The number of nodes with address addr on the chains of the hash table. -/
def node_htable_count (tn : tipc_net) (addr : Nat) : Nat :=
  (tn.node_htable.map fun chain => chain.countP (node_has_addr tn.nodes addr)).sum

/-- The registry as tipc_node_create leaves it when it has allocated a node for
addr and linked it into the hash table and the node list. -/
def registry_add (tn : tipc_net) (addr : Nat) : tipc_net :=
  { tn with
    kzalloc_ok := tn.kzalloc_ok.tail,
    nodes := tn.nodes ++ [tipc_node_alloc tn.max_bearers tn.env addr],
    node_htable := tn.node_htable.modify (fun chain => tn.nodes.length :: chain)
      (tipc_hashfn tn.node_htable.length addr),
    node_list := node_list_insert tn.nodes tn.nodes.length addr tn.node_list }

/-- The hash table has a chain, every pointer on the node list and on the hash
chains refers to a node object, and an address of the own cluster is carried
by at most one node of the list, which is then on the hash chain of that
address and on no other. -/
def registry_wf (tn : tipc_net) : Prop :=
  0 < tn.node_htable.length ∧
  (∀ p ∈ tn.node_list, p < tn.nodes.length) ∧
  (∀ chain ∈ tn.node_htable, ∀ p ∈ chain, p < tn.nodes.length) ∧
  (∀ addr, tn.in_own_cluster_exact addr = true →
    node_list_count tn addr ≤ 1 ∧
    node_htable_count tn addr = node_list_count tn addr ∧
    (tn.node_htable.getD (tipc_hashfn tn.node_htable.length addr) []).countP
      (node_has_addr tn.nodes addr) = node_list_count tn addr)

/-- The addresses of the nodes along the node list. -/
def registry_addrs (tn : tipc_net) : List Nat :=
  tn.node_list.filterMap fun p => (tn.nodes[p]?).map (·.addr)

/-- The node list is in ascending order of address. -/
def node_list_sorted (tn : tipc_net) : Prop := (registry_addrs tn).Pairwise (· ≤ ·)

instance node_list_sorted_decidable (tn : tipc_net) : Decidable (node_list_sorted tn) := by
  unfold node_list_sorted
  infer_instance

/-! ## Release of the node lock and deferred side effects -/

/-- A call into another subsystem that tipc_node_unlock makes after it has
released the lock, named after the function called, with the arguments that
are taken from the node. -/
inductive node_effect where
  | tipc_publ_notify (addr : Nat)
  | tipc_bclink_wakeup_users
  | tipc_named_node_up (addr : Nat)
  | tipc_nametbl_publish (addr link_id : Nat)
  | tipc_nametbl_withdraw (addr link_id : Nat)
  | tipc_sk_rcv
  | tipc_named_rcv
  | tipc_bclink_input
  | tipc_node_reset_links (addr : Nat)
  deriving DecidableEq, Repr

/-- The flags that tipc_node_unlock clears before it dispatches (node.c, lines
834-838). -/
abbrev unlock_flag_mask : Nat :=
  TIPC_MSG_EVT ||| TIPC_NOTIFY_NODE_DOWN ||| TIPC_NOTIFY_NODE_UP ||| TIPC_NOTIFY_LINK_DOWN |||
    TIPC_NOTIFY_LINK_UP ||| TIPC_WAKEUP_BCAST_USERS ||| TIPC_BCAST_MSG_EVT |||
    TIPC_NAMED_MSG_EVT ||| TIPC_BCAST_RESET

/-- The loop of tipc_node_reset_links (node.c, lines 489-493) over the bearers
of the list: every bearer that carries a link is handed to
tipc_node_link_down. -/
def reset_links_loop (n : tipc_node) : List Nat → Option tipc_node
  | [] => some n
  | i :: rest =>
    match node_link n i with
    | none => reset_links_loop n rest
    | some _ =>
      match tipc_node_link_down n i with
      | none => none
      | some n' => reset_links_loop n' rest

/-- tipc_node_reset_links (node.c, lines 479-495); unlock stands for the call of
tipc_node_unlock at its end. MAX_BEARERS is the length of the link table. -/
def tipc_node_reset_links (unlock : tipc_node → Option (List node_effect × tipc_node))
    (n : tipc_node) : Option (List node_effect × tipc_node) :=
  let n := { n with lock := n.lock + 1 }
  let n := { n with klog := n.klog ++ [.resetting_links n.addr] }
  match reset_links_loop n (List.range n.links.length) with
  | none => none
  | some n => unlock n

/-- The body of tipc_node_unlock (node.c, lines 811-870): the calls made after
the lock is released, in the order they are made, and the node afterwards;
reset_links stands for the call of tipc_node_reset_links at its end. What
the subsystems called do with the queues is outside the model. -/
def tipc_node_unlock_body
    (reset_links : tipc_node → Option (List node_effect × tipc_node))
    (node : tipc_node) : Option (List node_effect × tipc_node) :=
  let addr := node.addr
  let flags := node.action_flags
  let link_id := node.link_id
  if flags = 0 ∨ flags = TIPC_MSG_EVT then
    let node := { node with action_flags := 0, lock := node.lock - 1 }
    some (if flags = TIPC_MSG_EVT then [.tipc_sk_rcv] else [], node)
  else
    let node := { node with
      action_flags := node.action_flags &&& (U32_MAX ^^^ unlock_flag_mask),
      lock := node.lock - 1 }
    let calls : List node_effect :=
      (if flags &&& TIPC_NOTIFY_NODE_DOWN ≠ 0 then [.tipc_publ_notify addr] else []) ++
      (if flags &&& TIPC_WAKEUP_BCAST_USERS ≠ 0 then [.tipc_bclink_wakeup_users] else []) ++
      (if flags &&& TIPC_NOTIFY_NODE_UP ≠ 0 then [.tipc_named_node_up addr] else []) ++
      (if flags &&& TIPC_NOTIFY_LINK_UP ≠ 0 then [.tipc_nametbl_publish addr link_id]
        else []) ++
      (if flags &&& TIPC_NOTIFY_LINK_DOWN ≠ 0 then [.tipc_nametbl_withdraw addr link_id]
        else []) ++
      (if flags &&& TIPC_MSG_EVT ≠ 0 then [.tipc_sk_rcv] else []) ++
      (if flags &&& TIPC_NAMED_MSG_EVT ≠ 0 then [.tipc_named_rcv] else []) ++
      (if flags &&& TIPC_BCAST_MSG_EVT ≠ 0 then [.tipc_bclink_input] else [])
    if flags &&& TIPC_BCAST_RESET ≠ 0 then
      (reset_links node).map fun r =>
        (calls ++ node_effect.tipc_node_reset_links addr :: r.1, r.2)
    else some (calls, node)

/-- tipc_node_unlock (node.c, lines 811-870). The function and
tipc_node_reset_links call each other; fuel bounds the depth of that nesting
(with fuel 0 the call of tipc_node_reset_links is not carried out), and the
result is none when the fuel is used up or when a link operation faults. -/
def tipc_node_unlock (fuel : Nat) : tipc_node → Option (List node_effect × tipc_node) :=
  Nat.iterate (fun unlock => tipc_node_unlock_body (tipc_node_reset_links unlock)) fuel
    (tipc_node_unlock_body fun _ => none)

/-- The nine deferred side effects in the order that section 5 of the
specification fixes, each with the flag that requests it: node-down notify,
wakeup of broadcast users, node-up notify, link-up publish, link-down
withdraw, message delivery, named-message delivery, broadcast delivery, link
reset. -/
def spec_unlock_table (addr link_id : Nat) : List (Nat × node_effect) :=
  [(TIPC_NOTIFY_NODE_DOWN, .tipc_publ_notify addr),
   (TIPC_WAKEUP_BCAST_USERS, .tipc_bclink_wakeup_users),
   (TIPC_NOTIFY_NODE_UP, .tipc_named_node_up addr),
   (TIPC_NOTIFY_LINK_UP, .tipc_nametbl_publish addr link_id),
   (TIPC_NOTIFY_LINK_DOWN, .tipc_nametbl_withdraw addr link_id),
   (TIPC_MSG_EVT, .tipc_sk_rcv),
   (TIPC_NAMED_MSG_EVT, .tipc_named_rcv),
   (TIPC_BCAST_MSG_EVT, .tipc_bclink_input),
   (TIPC_BCAST_RESET, .tipc_node_reset_links addr)]

/-- The side effects of the table whose flag is set in flags, in table order. -/
def spec_unlock_effects (flags addr link_id : Nat) : List node_effect :=
  (spec_unlock_table addr link_id).filterMap fun be =>
    if flags &&& be.1 ≠ 0 then some be.2 else none

/-- The nine flags of the table. -/
def spec_unlock_flags : List Nat := (spec_unlock_table 0 0).map (·.1)

/-! ## The keepalive timer -/

/-- tipc_node_calculate_timer (node.c, lines 183-195) for the link of bearer
bearer_id. The conversions msecs_to_jiffies and jiffies_to_msecs (jiffies.h,
not among the sources) are taken as parameters. The result is none when the
bearer carries no link or when the division at the end divides by zero. -/
def tipc_node_calculate_timer (msecs_to_jiffies jiffies_to_msecs : Nat → Nat)
    (n : tipc_node) (bearer_id : Nat) : Option tipc_node :=
  match node_link n bearer_id with
  | none => none
  | some l =>
    let tol := l.tolerance
    let intv := if tol / 4 > 500 then 500 else tol / 4
    let keepalive_intv := msecs_to_jiffies intv
    let n := if keepalive_intv < n.keepalive_intv then
      { n with keepalive_intv := keepalive_intv } else n
    if jiffies_to_msecs n.keepalive_intv = 0 then none
    else
      some (node_set_link n bearer_id
        { l with abort_limit := l.tolerance / jiffies_to_msecs n.keepalive_intv })

/-- The body of the loop of tipc_node_timeout for one bearer (node.c, lines
286-297): the calls dispatched by the unlock, and the node afterwards;
link_timeout_down says for each bearer whether tipc_link_timeout reports
TIPC_LINK_DOWN_EVT for its link. What tipc_link_timeout does inside the link
and the packets handed to the bearer are outside the model. -/
def node_timeout_step (msecs_to_jiffies jiffies_to_msecs : Nat → Nat) (fuel : Nat)
    (link_timeout_down : Nat → Bool) (bearer_id : Nat) (n : tipc_node) :
    Option (List node_effect × tipc_node) :=
  let n := { n with lock := n.lock + 1 }
  let locked : Option tipc_node :=
    match node_link n bearer_id with
    | none => some n
    | some _ =>
      match tipc_node_calculate_timer msecs_to_jiffies jiffies_to_msecs n bearer_id with
      | none => none
      | some n =>
        if link_timeout_down bearer_id then tipc_node_link_down n bearer_id else some n
  match locked with
  | none => none
  | some n => tipc_node_unlock fuel n

/-- The loop of tipc_node_timeout (node.c, lines 285-298) over the bearers of
the list; the result collects the calls dispatched by the unlocks. -/
def node_timeout_loop (msecs_to_jiffies jiffies_to_msecs : Nat → Nat) (fuel : Nat)
    (link_timeout_down : Nat → Bool) :
    List Nat → tipc_node → Option (List node_effect × tipc_node)
  | [], n => some ([], n)
  | bearer_id :: rest, n =>
    match node_timeout_step msecs_to_jiffies jiffies_to_msecs fuel link_timeout_down
        bearer_id n with
    | none => none
    | some r =>
      (node_timeout_loop msecs_to_jiffies jiffies_to_msecs fuel link_timeout_down rest
        r.2).map fun r' => (r.1 ++ r'.1, r'.2)

/-- tipc_node_timeout (node.c, lines 274-302). mod_timer arms the timer and
reports whether it was armed before; a reference is taken when it was not, and
the reference of the expired timer is dropped at the end (the release of the
node when the count reaches zero belongs to the registry and is not part of
this model). -/
def tipc_node_timeout (msecs_to_jiffies jiffies_to_msecs : Nat → Nat) (fuel : Nat)
    (link_timeout_down : Nat → Bool) (n : tipc_node) :
    Option (List node_effect × tipc_node) :=
  match node_timeout_loop msecs_to_jiffies jiffies_to_msecs fuel link_timeout_down
      (List.range n.links.length) n with
  | none => none
  | some r =>
    let n := r.2
    let was_pending := n.timer_pending
    let n := { n with timer_pending := true }
    let n := if !was_pending then tipc_node_get n else n
    some (r.1, { n with kref := n.kref - 1 })

/-- The keepalive interval that section 4.6 of the specification prescribes: the
minimum, over the links that occupy a bearer slot, of tolerance / 4 capped at
500 ms, converted to jiffies; none when the node has no link. -/
def spec_keepalive_intv (msecs_to_jiffies : Nat → Nat) (n : tipc_node) : Option Nat :=
  ((n.links.filterMap (·.link)).map fun l =>
    msecs_to_jiffies (min (l.tolerance / 4) 500)).min?

/-- A node in steady state with two up links of tolerance 1500 ms whose
keepalive interval stands at 10, as a link of tolerance 40 ms left it; abort0
and abort1 are the abort limits of the two links. -/
def timer_sample_node (abort0 abort1 : Nat) : tipc_node :=
  { two_link_node 5 5 with
    working_links := 2,
    keepalive_intv := 10,
    links := [{ link := some { sample_link 0 5 with up := true, abort_limit := abort0 },
                mtu := 1460 },
              { link := some { sample_link 1 5 with up := true, abort_limit := abort1 },
                mtu := 0 },
              { link := none, mtu := 0 }] }

/-! ## The states a run can reach -/

/-- The six states other than SELF_COMING_PEER_UP and SELF_LEAVING_PEER_DOWN. -/
def run_states : List Int :=
  [SELF_DOWN_PEER_LEAVING, SELF_DOWN_PEER_DOWN, SELF_UP_PEER_COMING, SELF_UP_PEER_UP,
   NODE_FAILINGOVER, NODE_SYNCHING]

/-- The events that the node operations issue without looking at the state:
the two self events from link up and link down, and the failover and synch
events. -/
def run_events : List Int :=
  [SELF_ESTABL_CONTACT_EVT, SELF_LOST_CONTACT_EVT, NODE_FAILOVER_BEGIN_EVT,
   NODE_FAILOVER_END_EVT, NODE_SYNCH_BEGIN_EVT, NODE_SYNCH_END_EVT]

/-- The state of the node is one of run_states. -/
def in_run_states (n : tipc_node) : Prop := n.state ∈ run_states

instance in_run_states_decidable (n : tipc_node) : Decidable (in_run_states n) := by
  unfold in_run_states
  infer_instance

/-! ## Operations that resolve a node by lookup -/

/-- Modelled from the spec: the error number EHOSTUNREACH of errno.h (not among
the sources). -/
abbrev EHOSTUNREACH : Int := 113

/-- Modelled from the spec: the error number EINVAL of errno.h (not among the
sources). -/
abbrev EINVAL : Int := 22

/-- Modelled from the spec: the error number ENOBUFS of errno.h (not among the
sources). -/
abbrev ENOBUFS : Int := 105

/-- Modelled from the spec: ELINKCONG, which the TIPC headers (not among the
sources) define as EAGAIN. -/
abbrev ELINKCONG : Int := 11

/-- tipc_node_delete (node.c, lines 197-202): the node leaves the node list and
its hash chain. The memory is released after the grace period; in the model
the object stays in the heap, out of reach. -/
def tipc_node_delete (tn : tipc_net) (p : Nat) : tipc_net :=
  { tn with
    node_list := tn.node_list.erase p,
    node_htable := tn.node_htable.map fun chain => chain.erase p }

/-- tipc_node_put (node.c, lines 107-110): kref_put drops one reference and
calls tipc_node_kref_release, that is tipc_node_delete, when the count reaches
zero. -/
def tipc_node_put (tn : tipc_net) (p : Nat) : tipc_net :=
  match tn.nodes[p]? with
  | none => tn
  | some node =>
    let tn := { tn with nodes := tn.nodes.set p { node with kref := node.kref - 1 } }
    if node.kref - 1 = 0 then tipc_node_delete tn p else tn

/-- tipc_node_add_conn (node.c, lines 218-247): the value returned, the calls
dispatched by the unlock, and the registry afterwards. The predicate
in_own_node of addr.h (not among the sources) is taken as a parameter;
kmalloc_ok is the outcome of the allocation of the record. The result is none
when the unlock does not come back within fuel. -/
def tipc_node_add_conn (in_own_node : Nat → Bool) (kmalloc_ok : Bool) (fuel : Nat)
    (tn : tipc_net) (dnode port peer_port : Nat) :
    Option (Int × List node_effect × tipc_net) :=
  if in_own_node dnode then some (0, [], tn)
  else
    match tipc_node_find tn dnode with
    | (none, tn) =>
      some (-EHOSTUNREACH, [], { tn with klog := tn.klog ++ [.connecting_sock_failed dnode] })
    | (some p, tn) =>
      if !kmalloc_ok then some (-EHOSTUNREACH, [], tipc_node_put tn p)
      else
        match tn.nodes[p]? with
        | none => none
        | some node =>
          let conn : tipc_sock_conn := { peer_node := dnode, port := port, peer_port := peer_port }
          let node := { node with lock := node.lock + 1 }
          let node := { node with conn_sks := node.conn_sks ++ [conn] }
          match tipc_node_unlock fuel node with
          | none => none
          | some (calls, node) =>
            some (0, calls, tipc_node_put { tn with nodes := tn.nodes.set p node } p)

/-- tipc_node_remove_conn (node.c, lines 249-270): the calls dispatched by the
unlock and the registry afterwards. -/
def tipc_node_remove_conn (in_own_node : Nat → Bool) (fuel : Nat) (tn : tipc_net)
    (dnode port : Nat) : Option (List node_effect × tipc_net) :=
  if in_own_node dnode then some ([], tn)
  else
    match tipc_node_find tn dnode with
    | (none, tn) => some ([], tn)
    | (some p, tn) =>
      match tn.nodes[p]? with
      | none => none
      | some node =>
        let node := { node with lock := node.lock + 1 }
        let node := { node with conn_sks := node.conn_sks.filter fun conn => port != conn.port }
        match tipc_node_unlock fuel node with
        | none => none
        | some (calls, node) =>
          some (calls, tipc_node_put { tn with nodes := tn.nodes.set p node } p)

/-- tipc_node_get_linkname (node.c, lines 786-809): the value returned, the link
whose name is copied to the output buffer, the calls dispatched by the unlock,
and the registry afterwards. MAX_BEARERS is tn.max_bearers. For a bearer_id
of MAX_BEARERS or more the function jumps to the label exit, which lies before
the unlock, without having taken the lock. -/
def tipc_node_get_linkname (fuel : Nat) (tn : tipc_net) (bearer_id addr : Nat) :
    Option (Int × Option tipc_link × List node_effect × tipc_net) :=
  match tipc_node_find tn addr with
  | (none, tn) => some (-EINVAL, none, [], tn)
  | (some p, tn) =>
    match tn.nodes[p]? with
    | none => none
    | some node =>
      let locked : tipc_node × Int × Option tipc_link :=
        if bearer_id ≥ tn.max_bearers then (node, -EINVAL, none)
        else
          let node := { node with lock := node.lock + 1 }
          match node_link node bearer_id with
          | some link => (node, 0, some link)
          | none => (node, -EINVAL, none)
      match tipc_node_unlock fuel locked.1 with
      | none => none
      | some (calls, node) =>
        some (locked.2.1, locked.2.2, calls,
          tipc_node_put { tn with nodes := tn.nodes.set p node } p)

/-- tipc_node_select_link (node.c, lines 906-918): none when the slot sel & 1
holds a negative value (NULL is returned and bearer_id is not written);
otherwise the value written to bearer_id and the link pointer of that bearer.
The media address is outside the model. -/
def tipc_node_select_link (n : tipc_node) (sel : Int) : Option (Nat × Option tipc_link) :=
  let id := if sel % 2 = 0 then n.active_links.1 else n.active_links.2
  if id < 0 then none else some (id.toNat, node_link n id.toNat)

/-- The part of tipc_node_xmit that runs under the node lock (node.c, lines
943-947): the value of rc, the value of bearer_id (none while it has not been
written) and the node afterwards. The result of tipc_link_xmit (link.c, not
among the sources) for the selected link is taken as a parameter; what
tipc_link_xmit does inside the link is outside the model. The result is none
when bearer_id is read without having been written. -/
def node_xmit_locked (tipc_link_xmit : tipc_link → Int) (n : tipc_node) (selector : Int) :
    Option (Int × Option Nat × tipc_node) :=
  let sl := tipc_node_select_link n selector
  let bearer_id : Option Nat := sl.map (·.1)
  let rc : Int :=
    match sl.bind (·.2) with
    | some l => tipc_link_xmit l
    | none => -EHOSTUNREACH
  if rc = -ENOBUFS then
    match bearer_id with
    | some b => (tipc_node_link_down n b).map fun n => (rc, bearer_id, n)
    | none => none
  else some (rc, bearer_id, n)

/-- tipc_node_xmit (node.c, lines 929-960): the value returned, the bearer to
which the packets of xmitq are handed by tipc_bearer_xmit (none when that call
is not made), the calls dispatched by the unlock followed by the call of
tipc_sk_rcv for a message to the own node, and the registry afterwards. The
predicate in_own_node of addr.h is taken as a parameter. The result is none
when the unlock does not come back within fuel, or when bearer_id is read
without having been written. -/
def tipc_node_xmit (in_own_node : Nat → Bool) (tipc_link_xmit : tipc_link → Int)
    (fuel : Nat) (tn : tipc_net) (dnode : Nat) (selector : Int) :
    Option (Int × Option Nat × List node_effect × tipc_net) :=
  let sent : Option (Int × Option Nat × List node_effect × tipc_net) :=
    match tipc_node_find tn dnode with
    | (none, tn) => some (-EHOSTUNREACH, none, [], tn)
    | (some p, tn) =>
      match tn.nodes[p]? with
      | none => none
      | some n =>
        match node_xmit_locked tipc_link_xmit { n with lock := n.lock + 1 } selector with
        | none => none
        | some (rc, bearer_id, n) =>
          match tipc_node_unlock fuel n with
          | none => none
          | some (calls, n) =>
            some (rc, bearer_id, calls,
              tipc_node_put { tn with nodes := tn.nodes.set p n } p)
  match sent with
  | none => none
  | some (rc, bearer_id, calls, tn) =>
    if rc = 0 then
      match bearer_id with
      | some bearer_id => some (0, some bearer_id, calls, tn)
      | none => none
    else if in_own_node dnode then some (0, none, calls ++ [.tipc_sk_rcv], tn)
    else some (rc, none, calls, tn)

/-- The reference counts of the node objects, in heap order. -/
def registry_krefs (tn : tipc_net) : List Nat := tn.nodes.map (·.kref)

/-- The registry sample_registry after the nodes 1.1.2 and 1.1.3 have been
created. -/
def two_node_registry : tipc_net := exec_creates sample_registry [0x1001002, 0x1001003]

/-- The predicate in_own_node for the own address of sample_registry. -/
def sample_in_own_node (addr : Nat) : Bool := addr == 0x1001001 || addr == 0

/-- The registry sample_registry with the one node 1.1.2, in steady state with
two up links of priority 5 on bearers 0 and 1. -/
def linked_registry : tipc_net :=
  { exec_creates sample_registry [0x1001002] with
    nodes := [{ two_link_node 5 5 with
      addr := 0x1001002, net := { own_addr := 0x1001001, skb_alloc := [] },
      working_links := 2 }] }

theorem fsm_evt_state (n : tipc_node) (evt : Int) :
    (tipc_node_fsm_evt n evt).state =
      match tipc_node_fsm_switch n.state evt with
      | .next state => state
      | _ => n.state := by
  unfold tipc_node_fsm_evt
  split <;> simp_all

theorem fsm_evt_active_links (n : tipc_node) (evt : Int) :
    (tipc_node_fsm_evt n evt).active_links = n.active_links := by
  unfold tipc_node_fsm_evt
  split <;> rfl

theorem fsm_evt_links (n : tipc_node) (evt : Int) :
    (tipc_node_fsm_evt n evt).links = n.links := by
  unfold tipc_node_fsm_evt
  split <;> rfl

theorem fsm_switch_table :
    ∀ t ∈ spec_fsm_table, tipc_node_fsm_switch t.1 t.2.1 = .next t.2.2 := by
  decide

/-- C1: for every (state, event, next state) entry of the transition table of
section 4.2, tipc_node_fsm_evt applied with that event to a node in that state
leaves the node in the listed next state. -/
theorem fsm_evt_follows_table (n : tipc_node) (t : Int × Int × Int)
    (ht : t ∈ spec_fsm_table) (hs : n.state = t.1) :
    (tipc_node_fsm_evt n t.2.1).state = t.2.2 := by
  rw [fsm_evt_state, hs, fsm_switch_table t ht]

theorem fsm_evt_follows_table_witness :
    (tipc_node_fsm_evt { sample_node with state := NODE_SYNCHING }
      NODE_FAILOVER_BEGIN_EVT).state = NODE_FAILINGOVER :=
  fsm_evt_follows_table { sample_node with state := NODE_SYNCHING }
    (NODE_SYNCHING, NODE_FAILOVER_BEGIN_EVT, NODE_FAILINGOVER) (by decide) rfl

theorem fsm_switch_unlisted :
    ∀ S ∈ fsm_states, ∀ E ∈ fsm_events,
      (∀ t ∈ spec_fsm_transitions, ¬(t.1 = S ∧ t.2.1 = E)) →
      (match tipc_node_fsm_switch S E with
        | .next state => state
        | _ => S) = S := by
  decide

/-- C2: for each of the 8 states S and each of the 8 events E such that (S, E)
is not listed as a transition in section 4.2, tipc_node_fsm_evt leaves the
state of the node equal to S. The pairs the table lists as no-ops are counted
here among the unlisted ones, so the statement covers both readings. -/
theorem fsm_evt_unlisted_keeps_state (n : tipc_node) (S E : Int)
    (hS : S ∈ fsm_states) (hE : E ∈ fsm_events)
    (hun : ∀ t ∈ spec_fsm_transitions, ¬(t.1 = S ∧ t.2.1 = E))
    (hs : n.state = S) :
    (tipc_node_fsm_evt n E).state = S := by
  rw [fsm_evt_state, hs]
  exact fsm_switch_unlisted S hS E hE hun

theorem fsm_evt_unlisted_keeps_state_witness :
    (tipc_node_fsm_evt { sample_node with state := SELF_UP_PEER_UP }
      NODE_FAILOVER_END_EVT).state = SELF_UP_PEER_UP :=
  fsm_evt_unlisted_keeps_state { sample_node with state := SELF_UP_PEER_UP }
    SELF_UP_PEER_UP NODE_FAILOVER_END_EVT (by decide) (by decide) (by decide) rfl

/-! ## The packet admission filter -/

/-- C9 as stated fails: a node in SELF_DOWN_PEER_LEAVING rejects a packet that
asserts that the peer node is up. -/
theorem filter_pkt_leaving_rejects_peer_up :
    sample_node.state = SELF_DOWN_PEER_LEAVING ∧
    msg_peer_node_is_up (sample_hdr 1 true true) = true ∧
    (tipc_node_filter_pkt sample_node (sample_hdr 1 true true)).1 = false := by
  decide

/-- C9, amended: for every node in SELF_DOWN_PEER_LEAVING and every packet
header, tipc_node_filter_pkt admits the packet if and only if the packet does
not assert that the peer node is up. -/
theorem filter_pkt_leaving_iff (n : tipc_node) (hdr : tipc_msg)
    (hs : n.state = SELF_DOWN_PEER_LEAVING) :
    (tipc_node_filter_pkt n hdr).1 = true ↔ msg_peer_node_is_up hdr = false := by
  unfold tipc_node_filter_pkt
  simp only [hs]
  cases h : msg_peer_node_is_up hdr <;> simp

theorem filter_pkt_leaving_iff_witness :
    (tipc_node_filter_pkt sample_node (sample_hdr 1 false true)).1 = true ↔
      msg_peer_node_is_up (sample_hdr 1 false true) = false :=
  filter_pkt_leaving_iff sample_node (sample_hdr 1 false true) rfl

/-- C10: tipc_node_filter_pkt returns true for every packet when the node state
is SELF_UP_PEER_UP, false for every packet when the state is
SELF_LEAVING_PEER_DOWN, and in every case hands back the node unchanged. -/
theorem filter_pkt_fast_paths (n : tipc_node) (hdr : tipc_msg) :
    (n.state = SELF_UP_PEER_UP → (tipc_node_filter_pkt n hdr).1 = true) ∧
    (n.state = SELF_LEAVING_PEER_DOWN → (tipc_node_filter_pkt n hdr).1 = false) ∧
    (tipc_node_filter_pkt n hdr).2 = n := by
  unfold tipc_node_filter_pkt
  refine ⟨fun h => by simp [h], fun h => by simp [h], ?_⟩
  dsimp only
  split_ifs <;> rfl

theorem filter_pkt_fast_paths_witness :
    (tipc_node_filter_pkt (two_link_node 5 5) (sample_hdr 1 false false)).1 = true ∧
    (tipc_node_filter_pkt { sample_node with state := SELF_LEAVING_PEER_DOWN }
      (sample_hdr 1 true true)).1 = false ∧
    (tipc_node_filter_pkt sample_node (sample_hdr 1 true true)).2 = sample_node :=
  ⟨(filter_pkt_fast_paths (two_link_node 5 5) (sample_hdr 1 false false)).1 rfl,
   (filter_pkt_fast_paths { sample_node with state := SELF_LEAVING_PEER_DOWN }
      (sample_hdr 1 true true)).2.1 rfl,
   (filter_pkt_fast_paths sample_node (sample_hdr 1 true true)).2.2⟩

/-! ## The link slot manager: link up -/

/-- C3 as stated fails: when a second link of equal priority comes up, the new
link (bearer 1) takes slot 0 and the old link (bearer 0) keeps slot 1. -/
theorem link_up_equal_priority_example :
    (two_link_node 5 5).working_links = 1 ∧
    (node_active_link (two_link_node 5 5) 0).map (·.priority) = some 5 ∧
    (node_link (two_link_node 5 5) 1).map (·.priority) = some 5 ∧
    (tipc_node_link_up (two_link_node 5 5) 1).map (·.active_links) = some (1, 0) := by
  decide

/-- C3, amended: on link-up of a second link nl on bearer B (slot 0 occupied by
link ol, fewer than 2 working links), tipc_node_link_up returns and assigns the
slots by priority: if nl has strictly higher priority than ol it takes both
slots; if equal, nl takes slot 0 only and slot 1 is left as it was; if lower,
neither slot changes. -/
theorem link_up_second_link_slots (n : tipc_node) (bearer_id : Nat) (nl ol : tipc_link)
    (hw : n.working_links < 2) (hnl : node_link n bearer_id = some nl)
    (hol : node_active_link n 0 = some ol) :
    ∃ n', tipc_node_link_up n bearer_id = some n' ∧
      (nl.priority > ol.priority →
        n'.active_links = ((bearer_id : Int), (bearer_id : Int))) ∧
      (nl.priority = ol.priority →
        n'.active_links = ((bearer_id : Int), n.active_links.2)) ∧
      (nl.priority < ol.priority → n'.active_links = n.active_links) := by
  have hw' : ¬ n.working_links > 1 := by omega
  unfold tipc_node_link_up
  simp only [hw', hnl, hol, if_false]
  by_cases h1 : nl.priority > ol.priority
  · rw [if_pos h1]
    refine ⟨_, rfl, fun _ => rfl, fun h => ?_, fun h => ?_⟩ <;> omega
  · by_cases h2 : nl.priority = ol.priority
    · rw [if_neg h1, if_pos h2]
      refine ⟨_, rfl, fun h => ?_, fun _ => rfl, fun h => ?_⟩ <;> omega
    · rw [if_neg h1, if_neg h2]
      refine ⟨_, rfl, fun h => ?_, fun h => ?_, fun _ => rfl⟩ <;> omega

theorem link_up_second_link_slots_witness :
    ∃ n', tipc_node_link_up (two_link_node 5 5) 1 = some n' ∧
      ((sample_link 1 5).priority > (sample_link 0 5).priority →
        n'.active_links = (((1 : Nat) : Int), ((1 : Nat) : Int))) ∧
      ((sample_link 1 5).priority = (sample_link 0 5).priority →
        n'.active_links = (((1 : Nat) : Int), (two_link_node 5 5).active_links.2)) ∧
      ((sample_link 1 5).priority < (sample_link 0 5).priority →
        n'.active_links = (two_link_node 5 5).active_links) :=
  link_up_second_link_slots (two_link_node 5 5) 1 { sample_link 1 5 with up := true }
    { sample_link 0 5 with up := true } (by decide) (by decide) (by decide)

/-! ## The link slot manager: link down with a surviving link of priority 0 -/

/-- C4, evaluated: bearers 0 and 1 carry links of priorities 10 and 0, both
brought up; when the link of bearer 0 is lost the link of bearer 1 is still
up, yet slot 0 ends up invalid, the node is not up, and the contact-lost path
is taken (TIPC_NOTIFY_NODE_DOWN raised, no failover). The components of the
result are: bearer 1 up before, bearer 1 up after, tipc_node_is_up after, the
node-down flag, the state before and after, and the sync point after. -/
theorem link_down_survivor_priority_zero_not_up :
    (exec_events sample_node
      [.attach (sample_link 0 10), .attach (sample_link 1 0), .link_up 0, .link_up 1,
       .check_state (sample_hdr 1 false true) 0, .link_down 0, .link_up 0,
       .check_state (sample_hdr 1 false true) 0]).bind
      (fun n => (tipc_node_link_down n 0).map fun n' =>
        ((node_link n 1).map (·.up), (node_link n' 1).map (·.up), tipc_node_is_up n',
         n'.action_flags &&& TIPC_NOTIFY_NODE_DOWN, n.state, n'.state, n'.sync_point)) =
      some (some true, some true, false, TIPC_NOTIFY_NODE_DOWN, SELF_UP_PEER_UP,
        SELF_DOWN_PEER_LEAVING, 0) := by
  rfl

/-- C5, evaluated: bearers 0 and 2 carry links of priorities 7 and 0, both up;
after the link of bearer 0 is lost, the link of bearer 2 is the only up link,
so it alone has the maximum priority, but only slot 1 references it and slot 0
holds INVALID_BEARER_ID. -/
theorem link_down_single_survivor_priority_zero_slots :
    (exec_events sample_node
      [.attach (sample_link 0 7), .attach (sample_link 2 0), .link_up 2, .link_up 0]).bind
      (fun n => (tipc_node_link_down n 0).map fun n' =>
        (n'.links.map fun e => e.link.map fun l => (l.up, l.priority), n'.active_links)) =
      some ([some (false, 7), none, some (true, 0)], (INVALID_BEARER_ID, 2)) := by
  decide

/-- C7, evaluated: from a newly created node, attaching links of priorities 5
and 0 to bearers 0 and 1, bringing both up and then losing the link of bearer
0 leads to a state in which slot 0 is INVALID_BEARER_ID and slot 1 is bearer
1: exactly one of the two slots is invalid. -/
theorem reachable_one_slot_invalid :
    (exec_events sample_node
      [.attach (sample_link 0 5), .attach (sample_link 1 0), .link_up 0, .link_up 1,
       .link_down 0]).map (·.active_links) = some (INVALID_BEARER_ID, 1) := by
  decide

/-! ## Agreement of FSM state and slot validity -/

theorem fsm_switch_unknown (s e : Int) (hs : s ∉ fsm_states) :
    tipc_node_fsm_switch s e = .unknown_state := by
  simp only [fsm_states, List.mem_cons, List.mem_singleton, List.not_mem_nil, not_or,
    or_false] at hs
  obtain ⟨h1, h2, h3, h4, h5, h6, h7, h8⟩ := hs
  unfold tipc_node_fsm_switch
  rw [if_neg h1, if_neg h2, if_neg h3, if_neg h4, if_neg h5, if_neg h6, if_neg h7, if_neg h8]

theorem fsm_switch_illegal (s e : Int) (hs : s ∈ fsm_states) (he : e ∉ fsm_events) :
    tipc_node_fsm_switch s e = .illegal_evt := by
  simp only [fsm_events, List.mem_cons, List.mem_singleton, List.not_mem_nil, not_or,
    or_false] at he
  obtain ⟨e1, e2, e3, e4, e5, e6, e7, e8⟩ := he
  simp only [fsm_states, List.mem_cons, List.mem_singleton, List.not_mem_nil, or_false] at hs
  rcases hs with rfl | rfl | rfl | rfl | rfl | rfl | rfl | rfl <;>
    simp [tipc_node_fsm_switch, e1, e2, e3, e4, e5, e6, e7, e8]

theorem contact_up_mem_states (s : Int) (h : contact_up s) : s ∈ fsm_states := by
  unfold contact_up at h
  rcases h with rfl | rfl | rfl | rfl <;> decide

theorem fsm_switch_contact_up_known :
    ∀ s ∈ fsm_states, ∀ e ∈ fsm_events, e ≠ SELF_ESTABL_CONTACT_EVT →
      contact_up (match tipc_node_fsm_switch s e with
        | .next s' => s'
        | _ => s) → contact_up s := by
  decide

theorem fsm_switch_contact_up (s e : Int) (he : e ≠ SELF_ESTABL_CONTACT_EVT) :
    contact_up (match tipc_node_fsm_switch s e with
      | .next s' => s'
      | _ => s) → contact_up s := by
  by_cases hs : s ∈ fsm_states
  · by_cases hev : e ∈ fsm_events
    · exact fsm_switch_contact_up_known s hs e hev he
    · rw [fsm_switch_illegal s e hs hev]
      exact id
  · rw [fsm_switch_unknown s e hs]
    exact id

theorem fsm_switch_lost_contact_known :
    ∀ s ∈ fsm_states,
      ¬ contact_up (match tipc_node_fsm_switch s SELF_LOST_CONTACT_EVT with
        | .next s' => s'
        | _ => s) := by
  decide

theorem fsm_switch_lost_contact (s : Int) :
    ¬ contact_up (match tipc_node_fsm_switch s SELF_LOST_CONTACT_EVT with
      | .next s' => s'
      | _ => s) := by
  by_cases hs : s ∈ fsm_states
  · exact fsm_switch_lost_contact_known s hs
  · rw [fsm_switch_unknown s _ hs]
    exact fun h => hs (contact_up_mem_states s h)

theorem fsm_evt_agree (n : tipc_node) (e : Int) (he : e ≠ SELF_ESTABL_CONTACT_EVT)
    (h : state_slot_agree n) : state_slot_agree (tipc_node_fsm_evt n e) := by
  intro hc
  rw [fsm_evt_active_links]
  rw [fsm_evt_state] at hc
  exact h (fsm_switch_contact_up n.state e he hc)

theorem fsm_evt_lost_contact_not_up (n : tipc_node) :
    ¬ contact_up (tipc_node_fsm_evt n SELF_LOST_CONTACT_EVT).state := by
  rw [fsm_evt_state]
  exact fsm_switch_lost_contact n.state

theorem agree_of_eq (n n' : tipc_node) (hs : n'.state = n.state)
    (ha : n'.active_links = n.active_links) (h : state_slot_agree n) :
    state_slot_agree n' := by
  unfold state_slot_agree at *
  rw [hs, ha]
  exact h

theorem agree_of_valid (n : tipc_node) (h : n.active_links.1 ≠ INVALID_BEARER_ID) :
    state_slot_agree n := fun _ => h

theorem node_set_link_state (n : tipc_node) (i : Nat) (l : tipc_link) :
    (node_set_link n i l).state = n.state := by
  unfold node_set_link
  split <;> rfl

theorem node_set_link_active_links (n : tipc_node) (i : Nat) (l : tipc_link) :
    (node_set_link n i l).active_links = n.active_links := by
  unfold node_set_link
  split <;> rfl

theorem node_update_link_state (n : tipc_node) (i : Nat) (f : tipc_link → tipc_link) :
    (node_update_link n i f).state = n.state := by
  unfold node_update_link
  split
  · exact node_set_link_state _ _ _
  · rfl

theorem node_update_link_active_links (n : tipc_node) (i : Nat) (f : tipc_link → tipc_link) :
    (node_update_link n i f).active_links = n.active_links := by
  unfold node_update_link
  split
  · exact node_set_link_active_links _ _ _
  · rfl

theorem lost_contact_conns_state (conns : List tipc_sock_conn) (n : tipc_node) :
    (node_lost_contact_conns conns n).state = n.state ∧
    (node_lost_contact_conns conns n).active_links = n.active_links ∧
    (node_lost_contact_conns conns n).links = n.links := by
  induction conns generalizing n with
  | nil => exact ⟨rfl, rfl, rfl⟩
  | cons c cs ih =>
    unfold node_lost_contact_conns
    dsimp only
    split_ifs
    · obtain ⟨h1, h2, h3⟩ := ih
        { n with
          net := { n.net with skb_alloc := n.net.skb_alloc.tail },
          inputq := n.inputq ++
            [{ dnode := n.net.own_addr, onode := c.peer_node, dport := c.port,
               oport := c.peer_port, errcode := TIPC_ERR_NO_NODE }],
          action_flags := n.action_flags ||| TIPC_MSG_EVT,
          conn_sks := cs }
      exact ⟨h1, h2, h3⟩
    · obtain ⟨h1, h2, h3⟩ := ih
        { n with
          net := { n.net with skb_alloc := n.net.skb_alloc.tail },
          conn_sks := cs }
      exact ⟨h1, h2, h3⟩

theorem node_lost_contact_not_up (n : tipc_node) :
    ¬ contact_up (node_lost_contact n).state := by
  unfold node_lost_contact
  dsimp only
  rw [(lost_contact_conns_state _ _).1]
  exact fsm_evt_lost_contact_not_up _

theorem node_lost_contact_active_links (n : tipc_node) :
    (node_lost_contact n).active_links = n.active_links := by
  unfold node_lost_contact
  dsimp only
  rw [(lost_contact_conns_state _ _).2.1, fsm_evt_active_links]
  split_ifs <;> rfl

theorem link_down_agree (n n' : tipc_node) (bearer_id : Nat) (h : state_slot_agree n)
    (hd : tipc_node_link_down n bearer_id = some n') : state_slot_agree n' := by
  unfold tipc_node_link_down at hd
  split at hd
  · cases hd
    exact h
  · dsimp only at hd
    split_ifs at hd with hup hnu
    · cases hd
      exact h
    · cases hd
      exact fun hc => absurd hc (node_lost_contact_not_up _)
    · split at hd
      · cases hd
      · cases hd
        apply agree_of_valid
        rw [node_set_link_active_links]
        dsimp only
        rw [fsm_evt_active_links]
        dsimp only
        simpa [tipc_node_is_up] using hnu

theorem link_up_agree (n n' : tipc_node) (bearer_id : Nat) (h : state_slot_agree n)
    (hu : tipc_node_link_up n bearer_id = some n') : state_slot_agree n' := by
  unfold tipc_node_link_up at hu
  dsimp only at hu
  split_ifs at hu with hw
  · cases hu
    exact h
  · split at hu
    · cases hu
    · split at hu
      · cases hu
        apply agree_of_valid
        unfold node_established_contact
        dsimp only
        rw [fsm_evt_active_links, node_set_link_active_links]
        show ((bearer_id : Int)) ≠ INVALID_BEARER_ID
        unfold INVALID_BEARER_ID
        omega
      · rename_i ol hol
        have hv : n.active_links.1 ≠ INVALID_BEARER_ID := by
          intro hc
          simp [node_active_link, hc] at hol
        split_ifs at hu <;> cases hu <;> apply agree_of_valid
        · show ((bearer_id : Int)) ≠ INVALID_BEARER_ID
          unfold INVALID_BEARER_ID
          omega
        · show ((bearer_id : Int)) ≠ INVALID_BEARER_ID
          unfold INVALID_BEARER_ID
          omega
        · exact hv

theorem agree_update_link (n : tipc_node) (i : Nat) (f : tipc_link → tipc_link)
    (h : state_slot_agree n) : state_slot_agree (node_update_link n i f) :=
  agree_of_eq n _ (node_update_link_state n i f) (node_update_link_active_links n i f) h

theorem agree_sync_point (n : tipc_node) (x : Nat) (h : state_slot_agree n) :
    state_slot_agree { n with sync_point := x } := h

theorem check_state_failover_agree (n n' : tipc_node) (hdr : tipc_msg) (pl : Option Nat)
    (h : state_slot_agree n) (hf : check_state_failover n hdr pl = some n') :
    state_slot_agree n' := by
  unfold check_state_failover at hf
  dsimp only at hf
  split_ifs at hf with hc
  · obtain ⟨nd, hnd, rfl⟩ := Option.map_eq_some'.mp hf
    have hd : state_slot_agree nd := by
      split at hnd
      · split_ifs at hnd
        · obtain ⟨n1, hn1, rfl⟩ := Option.map_eq_some'.mp hnd
          exact agree_update_link _ _ _ (link_down_agree _ _ _ h hn1)
        · cases hnd
          exact h
      · cases hnd
        exact h
    split_ifs
    · exact agree_sync_point _ _ hd
    · exact hd
  · cases hf
    exact h

theorem check_state_synch_agree (n : tipc_node) (hdr : tipc_msg) (bearer_id : Nat)
    (h : state_slot_agree n) : state_slot_agree (check_state_synch n hdr bearer_id) := by
  unfold check_state_synch
  dsimp only
  split_ifs
  · exact agree_sync_point _ _ (agree_update_link _ _ _ (fsm_evt_agree _ _ (by decide) (agree_sync_point _ _ h)))
  · exact agree_update_link _ _ _ (fsm_evt_agree _ _ (by decide) (agree_sync_point _ _ h))
  · exact agree_sync_point _ _ (agree_update_link _ _ _ h)
  · exact agree_update_link _ _ _ h
  · exact h

theorem check_state_open_tunnel_agree (n : tipc_node) (hdr : tipc_msg) (bearer_id : Nat)
    (pl : Option Nat) (h : state_slot_agree n) :
    state_slot_agree (check_state_open_tunnel n hdr bearer_id pl).2 := by
  unfold check_state_open_tunnel
  dsimp only
  split_ifs
  · exact agree_update_link _ _ _ (fsm_evt_agree _ _ (by decide) h)
  all_goals exact h

theorem check_state_agree (n n' : tipc_node) (hdr : tipc_msg) (bearer_id : Nat) (r : Bool)
    (h : state_slot_agree n) (hc : tipc_node_check_state n hdr bearer_id = some (r, n')) :
    state_slot_agree n' := by
  have hA := fsm_evt_agree n PEER_ESTABL_CONTACT_EVT (by decide) h
  have hB := fsm_evt_agree n PEER_LOST_CONTACT_EVT (by decide) h
  have hC := fsm_evt_agree _ PEER_LOST_CONTACT_EVT (by decide) hA
  unfold tipc_node_check_state at hc
  dsimp only at hc
  split at hc
  · cases hc
    exact h
  · split_ifs at hc
    all_goals first
      | (cases hc; first | exact h | exact hA | exact hB | exact hC)
      | skip
    all_goals
      split at hc
      · cases hc
      · rename_i nf hnf
        have hf : state_slot_agree nf := by
          first
            | exact check_state_failover_agree _ _ _ _ h hnf
            | exact check_state_failover_agree _ _ _ _ hA hnf
            | exact check_state_failover_agree _ _ _ _ hB hnf
            | exact check_state_failover_agree _ _ _ _ hC hnf
        split_ifs at hc
        · cases hc
          split
          · exact agree_update_link _ _ _ (fsm_evt_agree _ _ (by decide) hf)
          · exact fsm_evt_agree _ _ (by decide) hf
        · have h3 := Option.some.inj hc
          have h4 : n' = (check_state_open_tunnel (check_state_synch nf hdr bearer_id) hdr
              bearer_id (find_parallel_link bearer_id n.links 0)).2 := by rw [h3]
          rw [h4]
          exact check_state_open_tunnel_agree _ _ _ _ (check_state_synch_agree _ _ _ hf)

theorem exec_event_agree (n n' : tipc_node) (ev : node_event) (h : state_slot_agree n)
    (he : exec_event n ev = some n') : state_slot_agree n' := by
  cases ev with
  | attach l =>
    simp only [exec_event, tipc_node_attach_link] at he
    split at he
    · cases he
    · cases he
      exact h
  | link_up b =>
    simp only [exec_event] at he
    split at he
    · cases he
    · exact link_up_agree _ _ _
        (agree_of_eq n _ (node_set_link_state _ _ _) (node_set_link_active_links _ _ _) h) he
  | link_down b => exact link_down_agree _ _ _ h he
  | check_state hdr b =>
    simp only [exec_event] at he
    obtain ⟨⟨r, n1⟩, hc, rfl⟩ := Option.map_eq_some'.mp he
    exact check_state_agree _ _ _ _ _ h hc
  | link_progress b rcv_nxt inputq_len =>
    simp only [exec_event] at he
    split at he
    · cases he
    · cases he
      exact agree_of_eq n _ (node_set_link_state _ _ _) (node_set_link_active_links _ _ _) h

theorem exec_events_agree (evs : List node_event) (n n' : tipc_node)
    (h : state_slot_agree n) (he : exec_events n evs = some n') : state_slot_agree n' := by
  induction evs generalizing n with
  | nil =>
    cases he
    exact h
  | cons ev evs ih =>
    simp only [exec_events] at he
    split at he
    · cases he
    · rename_i n1 h1
      exact ih n1 (exec_event_agree n n1 ev h h1) he

theorem node_alloc_agree (max_bearers : Nat) (net : tipc_net_env) (addr : Nat) :
    state_slot_agree (tipc_node_alloc max_bearers net addr) := by
  intro hc
  have hd : ¬ contact_up SELF_DOWN_PEER_LEAVING := by decide
  exact absurd hc hd

theorem agree_up_up (n : tipc_node) (h : state_slot_agree n)
    (hs : n.state = SELF_UP_PEER_UP) : tipc_node_is_up n = true := by
  have hv := h (Or.inr (Or.inl hs))
  simpa [tipc_node_is_up] using hv

/-- C8: in every node state reachable from a newly created node by link
attachment, link-up, link-down, tipc_node_check_state and receive progress of
the link layer, state SELF_UP_PEER_UP implies that active slot 0 is valid
(tipc_node_is_up); and every further operation that leaves slot 0 invalid also
leaves the FSM in a state other than SELF_UP_PEER_UP. -/
theorem up_up_implies_slot_valid (max_bearers : Nat) (net : tipc_net_env) (addr : Nat)
    (evs : List node_event) (n : tipc_node)
    (hr : exec_events (tipc_node_alloc max_bearers net addr) evs = some n) :
    (n.state = SELF_UP_PEER_UP → tipc_node_is_up n = true) ∧
    ∀ ev n', exec_event n ev = some n' → tipc_node_is_up n' = false →
      n'.state ≠ SELF_UP_PEER_UP := by
  have hn := exec_events_agree evs _ n (node_alloc_agree max_bearers net addr) hr
  refine ⟨agree_up_up n hn, fun ev n' he hdown hs => ?_⟩
  have hup := agree_up_up n' (exec_event_agree n n' ev hn he) hs
  rw [hdown] at hup
  cases hup

theorem up_up_implies_slot_valid_witness :
    sample_established.state = SELF_UP_PEER_UP ∧
    tipc_node_is_up sample_established = true ∧
    ((exec_event sample_established (.link_down 0)).map fun n' =>
      (tipc_node_is_up n', n'.state)) = some (false, SELF_DOWN_PEER_LEAVING) :=
  ⟨rfl,
   (up_up_implies_slot_valid 3 { own_addr := 0x100001, skb_alloc := [] } 0x100042
      sample_establish_events sample_established rfl).1 rfl,
   rfl⟩

/-! ## The selection loop of link down -/

theorem select_inv_skip (L : List tipc_link_entry) (b i : Nat) (acc : Nat × Int × Int)
    (h : select_inv L b i acc) (hno : ∀ q, select_candidate L b i q → q ≤ acc.1) :
    select_inv L b (i + 1) acc := by
  obtain ⟨h1, h2, h3, h4⟩ := h
  refine ⟨fun j q hj hc => ?_, h2, h3, h4⟩
  rcases Nat.lt_succ_iff_lt_or_eq.mp hj with hlt | rfl
  · exact h1 j q hlt hc
  · exact hno q hc

theorem link_down_select_inv (L : List tipc_link_entry) (b : Nat) :
    ∀ (es : List tipc_link_entry) (i : Nat) (acc : Nat × Int × Int),
      (∀ k, es[k]? = L[i + k]?) → select_inv L b i acc →
      select_inv L b (i + es.length) (link_down_select b es i acc) := by
  intro es
  induction es with
  | nil =>
    intro i acc _ h
    simpa [link_down_select] using h
  | cons e es ih =>
    intro i acc hL h
    obtain ⟨highest, slot0, slot1⟩ := acc
    have he : L[i]? = some e := by simpa using (hL 0).symm
    have hes : ∀ k, es[k]? = L[i + 1 + k]? := by
      intro k
      have := hL (k + 1)
      simpa [Nat.add_assoc, Nat.add_comm 1 k] using this
    have hlen : i + (e :: es).length = i + 1 + es.length := by simp; omega
    rw [hlen]
    unfold link_down_select
    split
    · rename_i hnone
      apply ih _ _ hes
      apply select_inv_skip _ _ _ _ h
      rintro q ⟨e', l, he', hl, -⟩
      rw [he] at he'
      cases he'
      rw [hnone] at hl
      cases hl
    · rename_i l' hl'
      have hcand : ∀ q, select_candidate L b i q → l'.up = true ∧ i ≠ b ∧ l'.priority = q := by
        rintro q ⟨e', l, he', hl, hup, hib, hq⟩
        rw [he] at he'
        cases he'
        rw [hl'] at hl
        cases hl
        exact ⟨hup, hib, hq⟩
      split_ifs with hup hib hlt hgt
      · apply ih _ _ hes
        apply select_inv_skip _ _ _ _ h
        intro q hc
        have := (hcand q hc).1
        simp [tipc_link_is_up, this] at hup
      · apply ih _ _ hes
        apply select_inv_skip _ _ _ _ h
        intro q hc
        exact absurd hib (hcand q hc).2.1
      · apply ih _ _ hes
        apply select_inv_skip _ _ _ _ h
        intro q hc
        have := (hcand q hc).2.2
        show q ≤ highest
        omega
      · apply ih _ _ hes
        have hc : select_candidate L b i l'.priority :=
          ⟨e, l', he, hl', by simpa [tipc_link_is_up] using hup, hib, rfl⟩
        obtain ⟨h1, h2, h3, h4⟩ := h
        refine ⟨fun j q hj hcq => ?_, fun _ => ⟨i, rfl, hc⟩, fun _ => ⟨i, rfl, hc⟩, fun hinv => ?_⟩
        · rcases Nat.lt_succ_iff_lt_or_eq.mp hj with hlt' | rfl
          · have := h1 j q hlt' hcq
            show q ≤ l'.priority
            have hgt' : l'.priority > highest := hgt
            omega
          · have := (hcand q hcq).2.2
            show q ≤ l'.priority
            omega
        · exfalso
          have : ((i : Nat) : Int) = -1 := hinv
          omega
      · apply ih _ _ hes
        have heq : l'.priority = highest := by omega
        have hc : select_candidate L b i highest :=
          ⟨e, l', he, hl', by simpa [tipc_link_is_up] using hup, hib, heq⟩
        obtain ⟨h1, h2, h3, h4⟩ := h
        refine ⟨fun j q hj hcq => ?_, h2, fun _ => ⟨i, rfl, hc⟩, h4⟩
        rcases Nat.lt_succ_iff_lt_or_eq.mp hj with hlt' | rfl
        · exact h1 j q hlt' hcq
        · have := (hcand q hcq).2.2
          show q ≤ highest
          omega

theorem node_link_eq_of_links (n n' : tipc_node) (h : n'.links = n.links) (j : Nat) :
    node_link n' j = node_link n j := by
  unfold node_link
  rw [h]

theorem node_link_set_link (n : tipc_node) (i j : Nat) (l l0 : tipc_link)
    (h : node_link n i = some l0) :
    node_link (node_set_link n i l) j = if j = i then some l else node_link n j := by
  unfold node_link at h
  unfold node_link node_set_link
  cases he : n.links[i]? with
  | none => simp [he] at h
  | some e =>
    have hi : i < n.links.length := by
      rcases Nat.lt_or_ge i n.links.length with hlt | hge
      · exact hlt
      · rw [List.getElem?_eq_none hge] at he
        cases he
    by_cases hji : j = i
    · subst hji
      simp [List.getElem?_set, hi]
    · have hij : i ≠ j := fun h => hji h.symm
      simp [List.getElem?_set, hij, hji]

theorem select_candidate_iff (n : tipc_node) (b j q : Nat) :
    select_candidate n.links b j q ↔ j ≠ b ∧ link_up_with n j q := by
  unfold select_candidate link_up_with node_link
  constructor
  · rintro ⟨e, l, he, hl, hup, hjb, hq⟩
    exact ⟨hjb, l, by simp [he, hl], hup, hq⟩
  · rintro ⟨hjb, l, hl, hup, hq⟩
    cases he : n.links[j]? with
    | none => simp [he] at hl
    | some e =>
      simp only [he] at hl
      exact ⟨e, l, rfl, hl, hup, hjb, hq⟩

theorem link_down_select_node (n : tipc_node) (b : Nat) :
    select_inv n.links b n.links.length
      (link_down_select b n.links 0 (0, INVALID_BEARER_ID, INVALID_BEARER_ID)) := by
  have h := link_down_select_inv n.links b n.links 0 (0, INVALID_BEARER_ID, INVALID_BEARER_ID)
    (fun k => by simp)
    ⟨fun j q hj => absurd hj (Nat.not_lt_zero j), fun h => absurd rfl h,
      fun h => absurd rfl h, fun _ => rfl⟩
  simpa using h

theorem node_link_lost_contact (n : tipc_node) (j : Nat) :
    node_link (node_lost_contact n) j =
      (node_link n j).map fun l => { l with exec_mode := .TIPC_LINK_OPEN } := by
  have hl : (node_lost_contact n).links = n.links.map fun e =>
      { e with link := e.link.map fun l => { l with exec_mode := .TIPC_LINK_OPEN } } := by
    unfold node_lost_contact
    dsimp only
    rw [(lost_contact_conns_state _ _).2.2, fsm_evt_links]
    split_ifs <;> rfl
  unfold node_link
  rw [hl, List.getElem?_map]
  cases n.links[j]? <;> rfl

theorem link_up_with_lost_contact (n : tipc_node) (j q : Nat) :
    link_up_with (node_lost_contact n) j q ↔ link_up_with n j q := by
  unfold link_up_with
  rw [node_link_lost_contact]
  cases node_link n j with
  | none => simp
  | some l => simp

theorem link_up_with_reset (n : tipc_node) (b : Nat) (l : tipc_link)
    (hl : node_link n b = some l) (j q : Nat) :
    link_up_with (node_set_link n b (tipc_link_reset l)) j q ↔ j ≠ b ∧ link_up_with n j q := by
  unfold link_up_with
  rw [node_link_set_link n b j _ l hl]
  by_cases hj : j = b
  · subst hj
    simp [tipc_link_reset]
  · simp [hj]

theorem node_set_link_working_links (n : tipc_node) (i : Nat) (l : tipc_link) :
    (node_set_link n i l).working_links = n.working_links := by
  unfold node_set_link
  split <;> rfl

theorem fsm_evt_working_links (n : tipc_node) (evt : Int) :
    (tipc_node_fsm_evt n evt).working_links = n.working_links := by
  unfold tipc_node_fsm_evt
  split <;> rfl

theorem lost_contact_conns_working_links (conns : List tipc_sock_conn) (n : tipc_node) :
    (node_lost_contact_conns conns n).working_links = n.working_links := by
  induction conns generalizing n with
  | nil => rfl
  | cons c cs ih =>
    unfold node_lost_contact_conns
    dsimp only
    split_ifs
    · rw [ih]
    · rw [ih]

theorem node_lost_contact_working_links (n : tipc_node) :
    (node_lost_contact n).working_links = n.working_links := by
  unfold node_lost_contact
  dsimp only
  rw [lost_contact_conns_working_links, fsm_evt_working_links]
  split_ifs <;> rfl

theorem node_link_failover_begin (m : tipc_node) (x j : Nat) :
    node_link { tipc_node_fsm_evt m NODE_FAILOVER_BEGIN_EVT with sync_point := x } j =
      node_link m j :=
  node_link_eq_of_links _ _ (fsm_evt_links _ _) j

/-- What tipc_node_link_down does to a node whose link on bearer b is up: it
returns, the slots are those chosen by the selection loop, one working link
less is counted, and the up links afterwards are the former ones except b. -/
theorem link_down_effective (n : tipc_node) (b : Nat) (l : tipc_link)
    (hl : node_link n b = some l) (hup : l.up = true) :
    ∃ n', tipc_node_link_down n b = some n' ∧
      n'.active_links =
        ((link_down_select b n.links 0 (0, INVALID_BEARER_ID, INVALID_BEARER_ID)).2.1,
         (link_down_select b n.links 0 (0, INVALID_BEARER_ID, INVALID_BEARER_ID)).2.2) ∧
      n'.working_links = n.working_links - 1 ∧
      (∀ j q, link_up_with n' j q ↔ j ≠ b ∧ link_up_with n j q) ∧
      (∀ j, (node_link n' j).isSome = (node_link n j).isSome) := by
  have hsel := link_down_select_node n b
  obtain ⟨-, hs0, -, -⟩ := hsel
  unfold tipc_node_link_down
  simp only [hl, tipc_link_is_up, hup, Bool.not_true, Bool.false_eq_true, if_false]
  split_ifs with hnu
  · refine ⟨_, rfl, ?_, ?_, fun j q => ?_, fun j => ?_⟩
    · rw [node_lost_contact_active_links, node_set_link_active_links]
    · rw [node_lost_contact_working_links, node_set_link_working_links]
    · rw [link_up_with_lost_contact]
      exact link_up_with_reset _ b l (by exact hl) j q
    · rw [node_link_lost_contact, node_link_set_link _ b j _ l (by exact hl)]
      split_ifs with hj
      · subst hj
        simp [hl]
      · have : node_link { n with
            working_links := n.working_links - 1,
            action_flags := n.action_flags ||| TIPC_NOTIFY_LINK_DOWN,
            link_id := (l.peer_bearer_id <<< 16 ||| b) % 2 ^ 32,
            active_links :=
              ((link_down_select b n.links 0 (0, INVALID_BEARER_ID, INVALID_BEARER_ID)).2.1,
               (link_down_select b n.links 0 (0, INVALID_BEARER_ID, INVALID_BEARER_ID)).2.2) } j
            = node_link n j := rfl
        rw [this]
        cases node_link n j <;> rfl
  · have hv : (link_down_select b n.links 0 (0, INVALID_BEARER_ID, INVALID_BEARER_ID)).2.1 ≠
        INVALID_BEARER_ID := by
      simpa [tipc_node_is_up] using hnu
    obtain ⟨k, hk, e, lk, he, hlk, -⟩ := hs0 hv
    have hact : node_active_link { n with
          working_links := n.working_links - 1,
          action_flags := n.action_flags ||| TIPC_NOTIFY_LINK_DOWN,
          link_id := (l.peer_bearer_id <<< 16 ||| b) % 2 ^ 32,
          active_links :=
            ((link_down_select b n.links 0 (0, INVALID_BEARER_ID, INVALID_BEARER_ID)).2.1,
             (link_down_select b n.links 0 (0, INVALID_BEARER_ID, INVALID_BEARER_ID)).2.2) } 0
          = some lk := by
      unfold node_active_link
      simp only [Nat.zero_mod, if_true, hk]
      have hne : ¬ ((k : Int) = INVALID_BEARER_ID) := by
        unfold INVALID_BEARER_ID
        omega
      rw [if_neg hne]
      simp [node_link, he, hlk]
    rw [hact]
    refine ⟨_, rfl, ?_, ?_, fun j q => ?_, fun j => ?_⟩
    · rw [node_set_link_active_links]
      dsimp only
      rw [fsm_evt_active_links]
    · rw [node_set_link_working_links]
      dsimp only
      rw [fsm_evt_working_links]
    · refine (link_up_with_reset _ b l ?_ j q).trans ?_
      · rw [node_link_failover_begin]
        exact hl
      · unfold link_up_with
        rw [node_link_failover_begin]
        rfl
    · rw [node_link_set_link _ b j _ l ?_]
      · split_ifs with hj
        · subst hj
          simp [hl]
        · rw [node_link_failover_begin]
          rfl
      · rw [node_link_failover_begin]
        exact hl

/-! ## Link down and link up keep the best links in the slots -/

theorem link_down_noop (n : tipc_node) (b : Nat)
    (h : ∀ l, node_link n b = some l → l.up = false) :
    tipc_node_link_down n b = some n := by
  unfold tipc_node_link_down
  cases hl : node_link n b with
  | none => rfl
  | some l => simp [tipc_link_is_up, h l hl]

theorem link_down_slots_best (n n' : tipc_node) (b : Nat) (h : slots_best n)
    (hd : tipc_node_link_down n b = some n') : slots_best n' := by
  by_cases hup : ∃ l, node_link n b = some l ∧ l.up = true
  · obtain ⟨l, hl, hlu⟩ := hup
    obtain ⟨n1, hn1, hact, -, hw, -⟩ := link_down_effective n b l hl hlu
    rw [hd] at hn1
    cases hn1
    obtain ⟨hall, hs0, hs1, hz⟩ := link_down_select_node n b
    have hmax : ∀ j q, link_up_with n' j q →
        q ≤ (link_down_select b n.links 0 (0, INVALID_BEARER_ID, INVALID_BEARER_ID)).1 := by
      intro j q hjq
      have hc := (select_candidate_iff n b j q).mpr ((hw j q).mp hjq)
      obtain ⟨e, -, he, -⟩ := hc
      have hj : j < n.links.length := by
        rcases Nat.lt_or_ge j n.links.length with hlt | hge
        · exact hlt
        · rw [List.getElem?_eq_none hge] at he
          cases he
      exact hall j q hj ((select_candidate_iff n b j q).mpr ((hw j q).mp hjq))
    refine ⟨fun s hs hv => ?_, fun hinv j q hjq => ?_⟩
    · rw [hact] at hs
      rcases hs with rfl | rfl
      · obtain ⟨k, hk, hc⟩ := hs0 hv
        exact ⟨k, _, hk, (hw k _).mpr ((select_candidate_iff n b k _).mp hc), hmax⟩
      · obtain ⟨k, hk, hc⟩ := hs1 hv
        exact ⟨k, _, hk, (hw k _).mpr ((select_candidate_iff n b k _).mp hc), hmax⟩
    · rw [hact] at hinv
      have := hmax j q hjq
      rw [hz hinv] at this
      omega
  · have hno : ∀ l, node_link n b = some l → l.up = false := by
      intro l hl
      cases hlu : l.up with
      | false => rfl
      | true => exact absurd ⟨l, hl, hlu⟩ hup
    rw [link_down_noop n b hno] at hd
    cases hd
    exact h

theorem link_down_total (n : tipc_node) (b : Nat) :
    ∃ n', tipc_node_link_down n b = some n' ∧
      ∀ j, (node_link n' j).isSome = (node_link n j).isSome := by
  by_cases hup : ∃ l, node_link n b = some l ∧ l.up = true
  · obtain ⟨l, hl, hlu⟩ := hup
    obtain ⟨n1, hn1, -, -, -, hsome⟩ := link_down_effective n b l hl hlu
    exact ⟨n1, hn1, hsome⟩
  · have hno : ∀ l, node_link n b = some l → l.up = false := by
      intro l hl
      cases hlu : l.up with
      | false => rfl
      | true => exact absurd ⟨l, hl, hlu⟩ hup
    exact ⟨n, link_down_noop n b hno, fun _ => rfl⟩

theorem node_link_modify_mtu (n m : tipc_node) (b mtu : Nat)
    (h : m.links = n.links.modify (fun e => { e with mtu := mtu }) b) (j : Nat) :
    node_link m j = node_link n j := by
  unfold node_link
  rw [h, List.getElem?_modify]
  cases n.links[j]? with
  | none => rfl
  | some e =>
    by_cases hb : b = j
    · simp [hb]
    · simp [hb]

theorem established_contact_links (n : tipc_node) :
    (node_established_contact n).links = n.links ∧
    (node_established_contact n).active_links = n.active_links ∧
    (node_established_contact n).working_links = n.working_links := by
  unfold node_established_contact
  dsimp only
  exact ⟨fsm_evt_links _ _, fsm_evt_active_links _ _, fsm_evt_working_links _ _⟩

/-- What tipc_node_link_up does when fewer than two links are working and
bearer b carries the link nl: it returns, counts one more working link, leaves
the up state and the priority of every link as they were, and assigns the
slots by comparing nl with the occupant of slot 0. -/
theorem link_up_accepted (n : tipc_node) (b : Nat) (nl : tipc_link)
    (hw : n.working_links ≤ 1) (hnl : node_link n b = some nl) :
    ∃ n', tipc_node_link_up n b = some n' ∧
      n'.working_links = n.working_links + 1 ∧
      (∀ j q, link_up_with n' j q ↔ link_up_with n j q) ∧
      (∀ j, (node_link n' j).isSome = (node_link n j).isSome) ∧
      n'.active_links =
        (match node_active_link n 0 with
          | none => ((b : Int), (b : Int))
          | some ol =>
            if nl.priority > ol.priority then ((b : Int), (b : Int))
            else if nl.priority = ol.priority then ((b : Int), n.active_links.2)
            else n.active_links) := by
  have hw' : ¬ n.working_links > 1 := by omega
  unfold tipc_node_link_up
  simp only [hw', hnl, if_false]
  cases hol : node_active_link n 0 with
  | none =>
    dsimp only
    have hN : ∀ j, node_link { n with
        working_links := n.working_links + 1,
        action_flags := n.action_flags ||| TIPC_NOTIFY_LINK_UP,
        link_id := (nl.peer_bearer_id <<< 16 ||| b) % 2 ^ 32,
        links := n.links.modify
          (fun e => { e with mtu := (((nl.mtu : Int) - INT_H_SIZE) % 2 ^ 32).toNat }) b,
        active_links := ((b : Int), (b : Int)) } j = node_link n j :=
      fun j => node_link_modify_mtu n _ b _ rfl j
    have hset : ∀ j, node_link (node_established_contact (node_set_link { n with
        working_links := n.working_links + 1,
        action_flags := n.action_flags ||| TIPC_NOTIFY_LINK_UP,
        link_id := (nl.peer_bearer_id <<< 16 ||| b) % 2 ^ 32,
        links := n.links.modify
          (fun e => { e with mtu := (((nl.mtu : Int) - INT_H_SIZE) % 2 ^ 32).toNat }) b,
        active_links := ((b : Int), (b : Int)) } b
          { nl with exec_mode := .TIPC_LINK_OPEN })) j =
        if j = b then some { nl with exec_mode := .TIPC_LINK_OPEN } else node_link n j := by
      intro j
      rw [node_link_eq_of_links _ _ (established_contact_links _).1,
        node_link_set_link _ b j _ nl (by rw [hN]; exact hnl), hN]
    refine ⟨_, rfl, ?_, fun j q => ?_, fun j => ?_, ?_⟩
    · rw [(established_contact_links _).2.2, node_set_link_working_links]
    · unfold link_up_with
      rw [hset]
      by_cases hj : j = b
      · subst hj
        simp [hnl]
      · simp [hj]
    · rw [hset]
      by_cases hj : j = b
      · subst hj
        simp [hnl]
      · simp [hj]
    · rw [(established_contact_links _).2.1, node_set_link_active_links]
  | some ol =>
    dsimp only
    split_ifs with h1 h2
    · refine ⟨_, rfl, rfl, fun j q => ?_, fun j => ?_, rfl⟩
      · unfold link_up_with
        rw [node_link_modify_mtu n _ b _ rfl j]
      · rw [node_link_modify_mtu n _ b _ rfl j]
    · refine ⟨_, rfl, rfl, fun j q => ?_, fun j => ?_, rfl⟩
      · unfold link_up_with
        rw [node_link_modify_mtu n _ b _ rfl j]
      · rw [node_link_modify_mtu n _ b _ rfl j]
    · refine ⟨_, rfl, rfl, fun j q => ?_, fun j => ?_, rfl⟩
      · unfold link_up_with
        rw [node_link_modify_mtu n _ b _ rfl j]
      · rw [node_link_modify_mtu n _ b _ rfl j]

theorem node_active_link_slot0 (n : tipc_node) :
    node_active_link n 0 =
      if n.active_links.1 = INVALID_BEARER_ID then none
      else node_link n n.active_links.1.toNat := by
  unfold node_active_link
  simp

theorem link_up_with_mark_up (n0 : tipc_node) (b : Nat) (l : tipc_link)
    (hl : node_link n0 b = some l) (j q : Nat) :
    link_up_with (node_set_link n0 b { l with up := true }) j q ↔
      (j = b ∧ q = l.priority) ∨ (j ≠ b ∧ link_up_with n0 j q) := by
  unfold link_up_with
  rw [node_link_set_link n0 b j _ l hl]
  by_cases hj : j = b
  · subst hj
    rw [if_pos rfl]
    constructor
    · rintro ⟨l', hl', -, hq⟩
      cases hl'
      exact Or.inl ⟨rfl, hq.symm⟩
    · rintro (⟨-, hq⟩ | ⟨hne, -⟩)
      · exact ⟨_, rfl, rfl, hq.symm⟩
      · exact absurd rfl hne
  · simp [hj]

/-- A link-up event that is not turned away keeps the best links in the slots:
the link layer marks the link of bearer b up and tipc_node_link_up runs. -/
theorem link_up_event_slots_best (n0 : tipc_node) (b : Nat) (l : tipc_link)
    (h : slots_best n0) (hl : node_link n0 b = some l) (hw : n0.working_links ≤ 1) :
    ∃ n', tipc_node_link_up (node_set_link n0 b { l with up := true }) b = some n' ∧
      slots_best n' ∧ ∀ j, (node_link n' j).isSome = (node_link n0 j).isSome := by
  have hnl : node_link (node_set_link n0 b { l with up := true }) b =
      some { l with up := true } := by
    rw [node_link_set_link n0 b b _ l hl]
    simp
  have hwn : (node_set_link n0 b { l with up := true }).working_links ≤ 1 := by
    rw [node_set_link_working_links]
    exact hw
  have hactn : (node_set_link n0 b { l with up := true }).active_links = n0.active_links :=
    node_set_link_active_links _ _ _
  obtain ⟨n', hn', -, hup, hsome, hact⟩ := link_up_accepted _ b _ hwn hnl
  have hU : ∀ j q, link_up_with n' j q ↔
      (j = b ∧ q = l.priority) ∨ (j ≠ b ∧ link_up_with n0 j q) :=
    fun j q => (hup j q).trans (link_up_with_mark_up n0 b l hl j q)
  have hb : link_up_with n' b l.priority := (hU b _).mpr (Or.inl ⟨rfl, rfl⟩)
  have hbv : ((b : Nat) : Int) ≠ INVALID_BEARER_ID := by
    unfold INVALID_BEARER_ID
    omega
  have hsome' : ∀ j, (node_link n' j).isSome = (node_link n0 j).isSome := by
    intro j
    rw [hsome, node_link_set_link n0 b j _ l hl]
    by_cases hj : j = b
    · subst hj
      simp [hl]
    · simp [hj]
  refine ⟨n', hn', ?_, hsome'⟩
  rw [node_active_link_slot0, hactn] at hact
  by_cases hinv : n0.active_links.1 = INVALID_BEARER_ID
  · rw [if_pos hinv] at hact
    dsimp only at hact
    have hz := h.2 hinv
    refine ⟨fun s hs _ => ⟨b, l.priority, ?_, hb, fun j q hjq => ?_⟩, fun hc => ?_⟩
    · rw [hact] at hs
      rcases hs with rfl | rfl <;> rfl
    · rcases (hU j q).mp hjq with ⟨-, hq⟩ | ⟨-, hq⟩
      · omega
      · have := hz j q hq
        omega
    · rw [hact] at hc
      exact absurd hc hbv
  · rw [if_neg hinv] at hact
    obtain ⟨k, p0, hk, ⟨lk, hlk, hlku, hlkp⟩, hmax0⟩ := h.1 _ (Or.inl rfl) hinv
    have hko : node_link (node_set_link n0 b { l with up := true }) n0.active_links.1.toNat =
        some (if k = b then { l with up := true } else lk) := by
      rw [hk, Int.toNat_ofNat, node_link_set_link n0 b k _ l hl]
      by_cases hkb : k = b
      · simp [hkb]
      · simp [hkb, hlk]
    rw [hko] at hact
    dsimp only at hact
    have holp : (if k = b then ({ l with up := true } : tipc_link) else lk).priority = p0 := by
      by_cases hkb : k = b
      · subst hkb
        rw [hl] at hlk
        cases hlk
        simpa using hlkp
      · simpa [hkb] using hlkp
    rw [holp] at hact
    have hmaxU : ∀ j q, link_up_with n' j q → q ≤ max p0 l.priority := by
      intro j q hjq
      rcases (hU j q).mp hjq with ⟨-, hq⟩ | ⟨-, hq⟩
      · omega
      · have := hmax0 j q hq
        omega
    have hold : ∀ s : Int, (s = n0.active_links.1 ∨ s = n0.active_links.2) →
        s ≠ INVALID_BEARER_ID → l.priority ≤ p0 →
        ∃ k' p' : Nat, s = (k' : Int) ∧ link_up_with n' k' p' ∧
          ∀ j q, link_up_with n' j q → q ≤ p' := by
      intro s hs hv hle
      obtain ⟨k1, p1, hk1, hk1p, hmax1⟩ := h.1 s hs hv
      have hp01 : p0 = p1 := by
        have h01 := hmax1 k p0 ⟨lk, hlk, hlku, hlkp⟩
        have h10 := hmax0 k1 p1 hk1p
        omega
      by_cases hk1b : k1 = b
      · subst hk1b
        refine ⟨k1, l.priority, hk1, hb, fun j q hjq => ?_⟩
        obtain ⟨l1, hl1, -, hl1p⟩ := hk1p
        rw [hl] at hl1
        cases hl1
        have := hmaxU j q hjq
        omega
      · refine ⟨k1, p1, hk1, (hU k1 p1).mpr (Or.inr ⟨hk1b, hk1p⟩), fun j q hjq => ?_⟩
        have := hmaxU j q hjq
        omega
    have hnew : l.priority ≥ p0 →
        ∃ k' p' : Nat, ((b : Nat) : Int) = (k' : Int) ∧ link_up_with n' k' p' ∧
          ∀ j q, link_up_with n' j q → q ≤ p' := by
      intro hge
      refine ⟨b, l.priority, rfl, hb, fun j q hjq => ?_⟩
      have := hmaxU j q hjq
      omega
    split_ifs at hact with h1 h2
    · have h1' : l.priority > p0 := h1
      refine ⟨fun s hs _ => ?_, fun hc => ?_⟩
      · rw [hact] at hs
        rcases hs with rfl | rfl <;> exact hnew (by omega)
      · rw [hact] at hc
        exact absurd hc hbv
    · have h2' : l.priority = p0 := h2
      refine ⟨fun s hs hv => ?_, fun hc => ?_⟩
      · rw [hact] at hs
        rcases hs with rfl | rfl
        · exact hnew (by omega)
        · exact hold _ (Or.inr rfl) hv (by omega)
      · rw [hact] at hc
        exact absurd hc hbv
    · have h1' : ¬ l.priority > p0 := h1
      refine ⟨fun s hs hv => ?_, fun hc => ?_⟩
      · rw [hact] at hs
        exact hold s hs hv (by omega)
      · rw [hact] at hc
        exact absurd hc hinv

/-! ## Runs of link-up and link-down events -/

theorem three_link_node_attach (net : tipc_net_env) (addr : Nat) (l0 l1 l2 : tipc_link)
    (hb0 : l0.bearer_id = 0) (hb1 : l1.bearer_id = 1) (hb2 : l2.bearer_id = 2) :
    exec_events (tipc_node_alloc 3 net addr) [.attach l0, .attach l1, .attach l2] =
      some (three_link_node net addr l0 l1 l2) := by
  simp [exec_events, exec_event, tipc_node_attach_link, tipc_node_alloc, three_link_node,
    hb0, hb1, hb2, List.replicate]

theorem three_link_node_link (net : tipc_net_env) (addr : Nat) (l0 l1 l2 : tipc_link)
    (j : Nat) :
    node_link (three_link_node net addr l0 l1 l2) j =
      match j with
      | 0 => some l0
      | 1 => some l1
      | 2 => some l2
      | _ => none := by
  unfold node_link three_link_node
  match j with
  | 0 => rfl
  | 1 => rfl
  | 2 => rfl
  | _ + 3 => rfl

theorem three_link_node_slots_best (net : tipc_net_env) (addr : Nat) (l0 l1 l2 : tipc_link)
    (hu0 : l0.up = false) (hu1 : l1.up = false) (hu2 : l2.up = false) :
    slots_best (three_link_node net addr l0 l1 l2) := by
  refine ⟨fun s hs hv => ?_, fun _ j q hjq => ?_⟩
  · rcases hs with rfl | rfl <;> exact absurd rfl hv
  · obtain ⟨l, hl, hup, -⟩ := hjq
    rw [three_link_node_link] at hl
    match j, hl with
    | 0, hl =>
      cases hl
      rw [hu0] at hup
      cases hup
    | 1, hl =>
      cases hl
      rw [hu1] at hup
      cases hup
    | 2, hl =>
      cases hl
      rw [hu2] at hup
      cases hup

theorem slots_best_prefer_high (n : tipc_node) (h : slots_best n) : slots_prefer_high n := by
  intro s k ls hs hk hls j l hl hup
  have hv : s ≠ INVALID_BEARER_ID := by
    rw [hk]
    unfold INVALID_BEARER_ID
    omega
  obtain ⟨k', p, hk', ⟨lk, hlk, -, hlkp⟩, hmax⟩ := h.1 s hs hv
  have hkk : k' = k := by
    rw [hk] at hk'
    omega
  subst hkk
  rw [hls] at hlk
  cases hlk
  rw [hlkp]
  exact hmax j l.priority ⟨l, hl, hup, rfl⟩

theorem link_run_slots_best (nb : Nat) (evs : List node_event) :
    ∀ n : tipc_node, slots_best n → (∀ k, k < nb → (node_link n k).isSome = true) →
      (∀ ev ∈ evs, is_link_event nb ev = true) → no_rejected_link_up n evs = true →
      ∃ n', exec_events n evs = some n' ∧ slots_best n' := by
  induction evs with
  | nil => exact fun n h _ _ _ => ⟨n, rfl, h⟩
  | cons ev evs ih =>
    intro n h hpres hev hrej
    have hev1 := hev ev (List.mem_cons_self _ _)
    have hevs : ∀ e ∈ evs, is_link_event nb e = true :=
      fun e he => hev e (List.mem_cons_of_mem _ he)
    simp only [no_rejected_link_up, Bool.and_eq_true] at hrej
    obtain ⟨hacc, hrest⟩ := hrej
    have hstep : ∃ n1, exec_event n ev = some n1 ∧ slots_best n1 ∧
        ∀ k, k < nb → (node_link n1 k).isSome = true := by
      cases ev with
      | attach l => simp [is_link_event] at hev1
      | check_state hdr b => simp [is_link_event] at hev1
      | link_progress b r q => simp [is_link_event] at hev1
      | link_up b =>
        have hb : b < nb := by simpa [is_link_event] using hev1
        have hw : n.working_links ≤ 1 := by simpa using hacc
        cases hl : node_link n b with
        | none =>
          have := hpres b hb
          rw [hl] at this
          cases this
        | some l =>
          obtain ⟨n1, hn1, hb1, hs1⟩ := link_up_event_slots_best n b l h hl hw
          refine ⟨n1, ?_, hb1, fun k hk => ?_⟩
          · simp only [exec_event, hl]
            exact hn1
          · rw [hs1]
            exact hpres k hk
      | link_down b =>
        obtain ⟨n1, hn1, hs1⟩ := link_down_total n b
        refine ⟨n1, hn1, link_down_slots_best n n1 b h hn1, fun k hk => ?_⟩
        rw [hs1]
        exact hpres k hk
    obtain ⟨n1, hn1, hb1, hp1⟩ := hstep
    rw [hn1] at hrest
    obtain ⟨n', hn', hbest⟩ := ih n1 hb1 hp1 hevs hrest
    refine ⟨n', ?_, hbest⟩
    simp only [exec_events, hn1]
    exact hn'

theorem no_rejected_link_up_append (pre post : List node_event) :
    ∀ n : tipc_node, no_rejected_link_up n (pre ++ post) = true →
      no_rejected_link_up n pre = true := by
  induction pre with
  | nil => exact fun _ _ => rfl
  | cons ev pre ih =>
    intro n h
    simp only [List.cons_append, no_rejected_link_up, Bool.and_eq_true] at h ⊢
    refine ⟨h.1, ?_⟩
    cases hx : exec_event n ev with
    | none => rfl
    | some n1 =>
      have h2 := h.2
      rw [hx] at h2
      exact ih n1 h2

/-- C6 as stated fails: with priorities 3 > 2 > 1 on bearers 0, 1 and 2, after
the links of bearers 1 and 2 have come up the link-up of bearer 0 is turned
away as a third link; both slots keep referencing bearer 1 (priority 2) while
the link of bearer 0 (priority 3) is up. -/
theorem third_link_up_keeps_lower_priority_slots :
    ∃ n, exec_events
        (three_link_node { own_addr := 0x100001, skb_alloc := [] } 0x100042
          (sample_link 0 3) (sample_link 1 2) (sample_link 2 1))
        [.link_up 1, .link_up 2, .link_up 0] = some n ∧
      n.active_links = (1, 1) ∧
      (node_link n 1).map (·.priority) = some 2 ∧
      (node_link n 0).map (fun l => (l.up, l.priority)) = some (true, 3) ∧
      ¬ slots_prefer_high n := by
  refine ⟨_, rfl, rfl, rfl, rfl, fun h => ?_⟩
  have h32 := h 1 1 _ (Or.inl rfl) rfl rfl 0 _ rfl rfl
  revert h32
  decide

/-- C6, amended: on a newly created node with three links of priorities
p0 > p1 > p2 attached to bearers 0, 1 and 2, for every sequence of link-up and
link-down events (each link-up delivered when the link layer has marked that
link up) in which no link-up arrives while two links are already counted as
working, the events can all be carried out and after every one of them (after
every initial segment pre of the sequence) no active slot references a link
while a link of strictly higher priority is up. -/
theorem slots_prefer_high_without_rejection (net : tipc_net_env) (addr : Nat)
    (l0 l1 l2 : tipc_link)
    (hb0 : l0.bearer_id = 0) (hb1 : l1.bearer_id = 1) (hb2 : l2.bearer_id = 2)
    (hu0 : l0.up = false) (hu1 : l1.up = false) (hu2 : l2.up = false)
    (_hp01 : l0.priority > l1.priority) (_hp12 : l1.priority > l2.priority)
    (pre post : List node_event)
    (hev : ∀ ev ∈ pre ++ post, is_link_event 3 ev = true)
    (hrej : no_rejected_link_up (three_link_node net addr l0 l1 l2) (pre ++ post) = true) :
    exec_events (tipc_node_alloc 3 net addr) [.attach l0, .attach l1, .attach l2] =
      some (three_link_node net addr l0 l1 l2) ∧
    ∃ n, exec_events (three_link_node net addr l0 l1 l2) pre = some n ∧
      slots_prefer_high n := by
  refine ⟨three_link_node_attach net addr l0 l1 l2 hb0 hb1 hb2, ?_⟩
  have hpres : ∀ k, k < 3 →
      (node_link (three_link_node net addr l0 l1 l2) k).isSome = true := by
    intro k hk
    rw [three_link_node_link]
    match k, hk with
    | 0, _ => rfl
    | 1, _ => rfl
    | 2, _ => rfl
  obtain ⟨n, hn, hbest⟩ := link_run_slots_best 3 pre _
    (three_link_node_slots_best net addr l0 l1 l2 hu0 hu1 hu2) hpres
    (fun ev he => hev ev (List.mem_append_left _ he))
    (no_rejected_link_up_append pre post _ hrej)
  exact ⟨n, hn, slots_best_prefer_high n hbest⟩

theorem slots_prefer_high_without_rejection_witness :
    exec_events (tipc_node_alloc 3 { own_addr := 0x100001, skb_alloc := [] } 0x100042)
        [.attach (sample_link 0 3), .attach (sample_link 1 2), .attach (sample_link 2 1)] =
      some (three_link_node { own_addr := 0x100001, skb_alloc := [] } 0x100042
        (sample_link 0 3) (sample_link 1 2) (sample_link 2 1)) ∧
    ∃ n, exec_events
        (three_link_node { own_addr := 0x100001, skb_alloc := [] } 0x100042
          (sample_link 0 3) (sample_link 1 2) (sample_link 2 1))
        [.link_up 2, .link_up 0, .link_down 0, .link_up 1] = some n ∧
      slots_prefer_high n :=
  slots_prefer_high_without_rejection { own_addr := 0x100001, skb_alloc := [] } 0x100042
    (sample_link 0 3) (sample_link 1 2) (sample_link 2 1) rfl rfl rfl rfl rfl rfl
    (by decide) (by decide)
    [.link_up 2, .link_up 0, .link_down 0, .link_up 1] [.link_down 2, .link_up 0]
    (by decide) (by rfl)

/-! ## Link up: first link and rejected third link -/

theorem fsm_evt_state_congr (m n : tipc_node) (evt : Int) (h : m.state = n.state) :
    (tipc_node_fsm_evt m evt).state = (tipc_node_fsm_evt n evt).state := by
  rw [fsm_evt_state, fsm_evt_state, h]

theorem fsm_evt_action_flags (n : tipc_node) (evt : Int) :
    (tipc_node_fsm_evt n evt).action_flags = n.action_flags := by
  unfold tipc_node_fsm_evt
  split <;> rfl

theorem fsm_evt_sync_point (n : tipc_node) (evt : Int) :
    (tipc_node_fsm_evt n evt).sync_point = n.sync_point := by
  unfold tipc_node_fsm_evt
  split <;> rfl

theorem node_set_link_action_flags (n : tipc_node) (i : Nat) (l : tipc_link) :
    (node_set_link n i l).action_flags = n.action_flags := by
  unfold node_set_link
  split <;> rfl

theorem node_set_link_sync_point (n : tipc_node) (i : Nat) (l : tipc_link) :
    (node_set_link n i l).sync_point = n.sync_point := by
  unfold node_set_link
  split <;> rfl

/-- C12: for every node with fewer than 2 working links and no link in active
slot 0, tipc_node_link_up on a bearer B that carries the link nl returns, sets
both active slots to B, sets the execution mode of the new link to open,
delivers SELF_ESTABL_CONTACT to the FSM, increments working_links by one and
raises the flags TIPC_NOTIFY_LINK_UP and TIPC_NOTIFY_NODE_UP. -/
theorem link_up_first_link (n : tipc_node) (bearer_id : Nat) (nl : tipc_link)
    (hw : n.working_links < 2) (hol : node_active_link n 0 = none)
    (hnl : node_link n bearer_id = some nl) :
    ∃ n', tipc_node_link_up n bearer_id = some n' ∧
      n'.active_links = ((bearer_id : Int), (bearer_id : Int)) ∧
      node_link n' bearer_id = some { nl with exec_mode := .TIPC_LINK_OPEN } ∧
      n'.state = (tipc_node_fsm_evt n SELF_ESTABL_CONTACT_EVT).state ∧
      n'.working_links = n.working_links + 1 ∧
      n'.action_flags = n.action_flags ||| TIPC_NOTIFY_LINK_UP ||| TIPC_NOTIFY_NODE_UP := by
  have hw' : ¬ n.working_links > 1 := by omega
  unfold tipc_node_link_up
  simp only [hw', hnl, hol, if_false]
  have hN : node_link { n with
      working_links := n.working_links + 1,
      action_flags := n.action_flags ||| TIPC_NOTIFY_LINK_UP,
      link_id := (nl.peer_bearer_id <<< 16 ||| bearer_id) % 2 ^ 32,
      links := n.links.modify
        (fun e => { e with mtu := (((nl.mtu : Int) - INT_H_SIZE) % 2 ^ 32).toNat }) bearer_id,
      active_links := ((bearer_id : Int), (bearer_id : Int)) } bearer_id = some nl := by
    rw [node_link_modify_mtu n _ bearer_id _ rfl bearer_id]
    exact hnl
  refine ⟨_, rfl, ?_, ?_, ?_, ?_, ?_⟩
  · rw [(established_contact_links _).2.1, node_set_link_active_links]
  · rw [node_link_eq_of_links _ _ (established_contact_links _).1,
      node_link_set_link _ bearer_id bearer_id _ nl hN, if_pos rfl]
  · unfold node_established_contact
    dsimp only
    apply fsm_evt_state_congr
    rw [node_set_link_state]
  · rw [(established_contact_links _).2.2, node_set_link_working_links]
  · unfold node_established_contact
    dsimp only
    rw [fsm_evt_action_flags, node_set_link_action_flags]

theorem link_up_first_link_witness :
    ∃ n', tipc_node_link_up
        { sample_node with
          state := SELF_DOWN_PEER_DOWN,
          links := [{ link := some { sample_link 0 5 with up := true }, mtu := 0 },
                    { link := none, mtu := 0 }, { link := none, mtu := 0 }] } 0 = some n' ∧
      n'.active_links = (((0 : Nat) : Int), ((0 : Nat) : Int)) ∧
      node_link n' 0 = some { ({ sample_link 0 5 with up := true } : tipc_link) with
        exec_mode := .TIPC_LINK_OPEN } ∧
      n'.state = (tipc_node_fsm_evt
        { sample_node with
          state := SELF_DOWN_PEER_DOWN,
          links := [{ link := some { sample_link 0 5 with up := true }, mtu := 0 },
                    { link := none, mtu := 0 }, { link := none, mtu := 0 }] }
        SELF_ESTABL_CONTACT_EVT).state ∧
      n'.working_links = (0 : Int) + 1 ∧
      n'.action_flags = 0 ||| TIPC_NOTIFY_LINK_UP ||| TIPC_NOTIFY_NODE_UP :=
  link_up_first_link _ 0 { sample_link 0 5 with up := true } (by decide) (by decide) (by decide)

/-- C13: for every node whose working_links count is already 2 or more,
tipc_node_link_up returns and changes nothing but the kernel log: FSM state,
both active slots, working_links, action flags, link_id and the whole link
table (with the mtu of every bearer) are as before the call. -/
theorem link_up_third_link_rejected (n : tipc_node) (bearer_id : Nat)
    (hw : n.working_links ≥ 2) :
    tipc_node_link_up n bearer_id =
      some { n with klog := n.klog ++ [.third_link n.addr] } ∧
    ∀ n', tipc_node_link_up n bearer_id = some n' →
      n'.state = n.state ∧ n'.active_links = n.active_links ∧
      n'.working_links = n.working_links ∧ n'.action_flags = n.action_flags ∧
      n'.link_id = n.link_id ∧ n'.links = n.links ∧ n'.sync_point = n.sync_point := by
  have hw' : n.working_links > 1 := by omega
  have h : tipc_node_link_up n bearer_id =
      some { n with klog := n.klog ++ [.third_link n.addr] } := by
    unfold tipc_node_link_up
    simp only [hw', if_true]
  refine ⟨h, fun n' hn' => ?_⟩
  rw [h] at hn'
  cases hn'
  exact ⟨rfl, rfl, rfl, rfl, rfl, rfl, rfl⟩

theorem link_up_third_link_rejected_witness :
    tipc_node_link_up { two_link_node 5 5 with working_links := 2 } 1 =
      some { ({ two_link_node 5 5 with working_links := 2 } : tipc_node) with
        klog := [.third_link 0x100042] } ∧
    ∀ n', tipc_node_link_up { two_link_node 5 5 with working_links := 2 } 1 = some n' →
      n'.state = SELF_UP_PEER_UP ∧ n'.active_links = (0, 0) ∧
      n'.working_links = 2 ∧ n'.action_flags = 0 ∧
      n'.link_id = 0 ∧ n'.links = (two_link_node 5 5).links ∧ n'.sync_point = 0 :=
  link_up_third_link_rejected { two_link_node 5 5 with working_links := 2 } 1 (by decide)
/-! ## Link down: no-op, sync point and failover state -/

theorem link_down_leaves_link_down (n n1 : tipc_node) (b : Nat)
    (hd : tipc_node_link_down n b = some n1) :
    ∀ l, node_link n1 b = some l → l.up = false := by
  intro l1 hl1
  by_cases hup : ∃ l, node_link n b = some l ∧ l.up = true
  · obtain ⟨l, hl, hlu⟩ := hup
    obtain ⟨n', hn', -, -, hw, -⟩ := link_down_effective n b l hl hlu
    rw [hd] at hn'
    cases hn'
    cases h : l1.up with
    | false => rfl
    | true => exact absurd ((hw b l1.priority).mp ⟨l1, hl1, h, rfl⟩).1 (fun hne => hne rfl)
  · have hno : ∀ l, node_link n b = some l → l.up = false := by
      intro l hl
      cases hlu : l.up with
      | false => rfl
      | true => exact absurd ⟨l, hl, hlu⟩ hup
    rw [link_down_noop n b hno] at hd
    cases hd
    exact hno l1 hl1

/-- C14: for every node and bearer B that has no link or whose link is not up,
tipc_node_link_down(n, B) returns the node as it was (so FSM state, active
slots, working_links, sync point and action flags are unchanged); and for
every node and bearer, a second call right after the first returns the node
the first call returned. -/
theorem link_down_noop_and_idempotent (n : tipc_node) (bearer_id : Nat) :
    ((∀ l, node_link n bearer_id = some l → l.up = false) →
      tipc_node_link_down n bearer_id = some n) ∧
    ∃ n1, tipc_node_link_down n bearer_id = some n1 ∧
      tipc_node_link_down n1 bearer_id = some n1 := by
  refine ⟨link_down_noop n bearer_id, ?_⟩
  obtain ⟨n1, hn1, -⟩ := link_down_total n bearer_id
  exact ⟨n1, hn1, link_down_noop n1 bearer_id (link_down_leaves_link_down n n1 bearer_id hn1)⟩

theorem link_down_noop_and_idempotent_witness :
    tipc_node_link_down sample_node 0 = some sample_node ∧
    ∃ n1, tipc_node_link_down (two_link_node 5 5) 0 = some n1 ∧
      tipc_node_link_down n1 0 = some n1 :=
  ⟨(link_down_noop_and_idempotent sample_node 0).1 (by decide),
   (link_down_noop_and_idempotent (two_link_node 5 5) 0).2⟩

theorem mod_failover_margin (x : Nat) :
    mod ((x : Int) + (U16_MAX / 2 - 1)) = (x + 32766) % 65536 := by
  unfold mod U16_MAX
  omega

theorem fsm_failover_begin_known :
    ∀ s ∈ [SELF_UP_PEER_UP, NODE_SYNCHING, NODE_FAILINGOVER],
      (match tipc_node_fsm_switch s NODE_FAILOVER_BEGIN_EVT with
        | .next s' => s'
        | _ => s) = NODE_FAILINGOVER := by
  decide

theorem link_down_tail_facts (m : tipc_node) (b x : Nat) (l : tipc_link)
    (hl : node_link m b = some l) :
    (node_set_link { tipc_node_fsm_evt m NODE_FAILOVER_BEGIN_EVT with sync_point := x } b
        (tipc_link_reset l)).active_links = m.active_links ∧
    (node_set_link { tipc_node_fsm_evt m NODE_FAILOVER_BEGIN_EVT with sync_point := x } b
        (tipc_link_reset l)).sync_point = x ∧
    (node_set_link { tipc_node_fsm_evt m NODE_FAILOVER_BEGIN_EVT with sync_point := x } b
        (tipc_link_reset l)).state = (tipc_node_fsm_evt m NODE_FAILOVER_BEGIN_EVT).state ∧
    (node_set_link { tipc_node_fsm_evt m NODE_FAILOVER_BEGIN_EVT with sync_point := x } b
        (tipc_link_reset l)).working_links = m.working_links ∧
    (node_set_link { tipc_node_fsm_evt m NODE_FAILOVER_BEGIN_EVT with sync_point := x } b
        (tipc_link_reset l)).action_flags = m.action_flags ∧
    ∀ j, node_link (node_set_link
        { tipc_node_fsm_evt m NODE_FAILOVER_BEGIN_EVT with sync_point := x } b
        (tipc_link_reset l)) j = if j = b then some (tipc_link_reset l) else node_link m j := by
  refine ⟨?_, ?_, ?_, ?_, ?_, fun j => ?_⟩
  · rw [node_set_link_active_links]
    exact fsm_evt_active_links _ _
  · rw [node_set_link_sync_point]
  · rw [node_set_link_state]
  · rw [node_set_link_working_links]
    exact fsm_evt_working_links _ _
  · rw [node_set_link_action_flags]
    exact fsm_evt_action_flags _ _
  · rw [node_link_set_link _ b j _ l (by rw [node_link_failover_begin]; exact hl),
      node_link_failover_begin]

/-- What tipc_node_link_down does when the link l of bearer b is up and the
selection loop finds a link for slot 0: it returns, slot 0 holds a bearer k
other than b whose link tnl is untouched, the FSM has received
NODE_FAILOVER_BEGIN, and the sync point is rcv_nxt of tnl plus 32766. -/
theorem link_down_survivor (n : tipc_node) (b : Nat) (l : tipc_link)
    (hl : node_link n b = some l) (hup : l.up = true)
    (hv : (link_down_select b n.links 0 (0, INVALID_BEARER_ID, INVALID_BEARER_ID)).2.1 ≠
      INVALID_BEARER_ID) :
    ∃ (n' : tipc_node) (k : Nat) (tnl : tipc_link),
      tipc_node_link_down n b = some n' ∧ n'.active_links.1 = (k : Int) ∧
      k ≠ b ∧ node_link n k = some tnl ∧ node_active_link n' 0 = some tnl ∧
      n'.sync_point = (tnl.rcv_nxt + 32766) % 65536 ∧
      n'.state = (tipc_node_fsm_evt n NODE_FAILOVER_BEGIN_EVT).state ∧
      n'.working_links = n.working_links - 1 ∧
      n'.action_flags = n.action_flags ||| TIPC_NOTIFY_LINK_DOWN := by
  obtain ⟨-, hs0, -, -⟩ := link_down_select_node n b
  obtain ⟨k, hk, e, lk, he, hlk, hlku, hkb, -⟩ := hs0 hv
  have hnk : node_link n k = some lk := by simp [node_link, he, hlk]
  have hne : ¬ ((k : Int) = INVALID_BEARER_ID) := by
    unfold INVALID_BEARER_ID
    omega
  have hact : node_active_link { n with
        working_links := n.working_links - 1,
        action_flags := n.action_flags ||| TIPC_NOTIFY_LINK_DOWN,
        link_id := (l.peer_bearer_id <<< 16 ||| b) % 2 ^ 32,
        active_links :=
          ((link_down_select b n.links 0 (0, INVALID_BEARER_ID, INVALID_BEARER_ID)).2.1,
           (link_down_select b n.links 0 (0, INVALID_BEARER_ID, INVALID_BEARER_ID)).2.2) } 0
        = some lk := by
    unfold node_active_link
    simp only [Nat.zero_mod, if_true, hk]
    rw [if_neg hne]
    simp [node_link, he, hlk]
  have hnu : ¬ ((!tipc_node_is_up { n with
        working_links := n.working_links - 1,
        action_flags := n.action_flags ||| TIPC_NOTIFY_LINK_DOWN,
        link_id := (l.peer_bearer_id <<< 16 ||| b) % 2 ^ 32,
        active_links :=
          ((link_down_select b n.links 0 (0, INVALID_BEARER_ID, INVALID_BEARER_ID)).2.1,
           (link_down_select b n.links 0 (0, INVALID_BEARER_ID, INVALID_BEARER_ID)).2.2) })
        = true) := by
    simpa [tipc_node_is_up] using hv
  unfold tipc_node_link_down
  simp only [hl, tipc_link_is_up, hup, Bool.not_true, Bool.false_eq_true, if_false]
  rw [if_neg hnu, hact]
  obtain ⟨ha, hsy, hst, hwl, haf, hnl⟩ := link_down_tail_facts { n with
        working_links := n.working_links - 1,
        action_flags := n.action_flags ||| TIPC_NOTIFY_LINK_DOWN,
        link_id := (l.peer_bearer_id <<< 16 ||| b) % 2 ^ 32,
        active_links :=
          ((link_down_select b n.links 0 (0, INVALID_BEARER_ID, INVALID_BEARER_ID)).2.1,
           (link_down_select b n.links 0 (0, INVALID_BEARER_ID, INVALID_BEARER_ID)).2.2) }
    b (mod ((lk.rcv_nxt : Int) + (U16_MAX / 2 - 1))) l hl
  refine ⟨_, k, lk, rfl, ?_, hkb, hnk, ?_, ?_, ?_, ?_, ?_⟩
  · rw [ha]
    exact hk
  · rw [node_active_link_slot0, ha, hnl]
    show (if (link_down_select b n.links 0 (0, INVALID_BEARER_ID, INVALID_BEARER_ID)).2.1 =
        INVALID_BEARER_ID then none
      else if (link_down_select b n.links 0
          (0, INVALID_BEARER_ID, INVALID_BEARER_ID)).2.1.toNat = b
        then some (tipc_link_reset l)
        else node_link n (link_down_select b n.links 0
          (0, INVALID_BEARER_ID, INVALID_BEARER_ID)).2.1.toNat) = some lk
    rw [hk, if_neg hne, Int.toNat_ofNat, if_neg hkb]
    exact hnk
  · rw [hsy]
    exact mod_failover_margin lk.rcv_nxt
  · rw [hst]
    exact fsm_evt_state_congr _ _ _ rfl
  · rw [hwl]
  · rw [haf]

/-- C15: link-down of an up link on bearer B returns, and whenever it leaves a
surviving link tnl in active slot 0 (the node is still up), the sync point is
(rcv_nxt of tnl + 32766) modulo 2^16. -/
theorem link_down_sync_point (n : tipc_node) (bearer_id : Nat) (l : tipc_link)
    (hl : node_link n bearer_id = some l) (hup : l.up = true) :
    ∃ n', tipc_node_link_down n bearer_id = some n' ∧
      (tipc_node_is_up n' = true →
        ∃ tnl, node_active_link n' 0 = some tnl ∧
          n'.sync_point = (tnl.rcv_nxt + 32766) % 65536) := by
  by_cases hv : (link_down_select bearer_id n.links 0
      (0, INVALID_BEARER_ID, INVALID_BEARER_ID)).2.1 = INVALID_BEARER_ID
  · obtain ⟨n', hn', hact, -⟩ := link_down_effective n bearer_id l hl hup
    refine ⟨n', hn', fun hu => ?_⟩
    rw [hv] at hact
    simp [tipc_node_is_up, hact] at hu
  · obtain ⟨n', k, tnl, hn', -, -, -, htnl, hsync, -⟩ :=
      link_down_survivor n bearer_id l hl hup hv
    exact ⟨n', hn', fun _ => ⟨tnl, htnl, hsync⟩⟩

theorem link_down_sync_point_witness :
    ∃ n', tipc_node_link_down
        { two_link_node 5 5 with
          links := [{ link := some { sample_link 0 5 with up := true }, mtu := 1460 },
                    { link := some { sample_link 1 5 with up := true, rcv_nxt := 40000 },
                      mtu := 1460 },
                    { link := none, mtu := 0 }] } 0 = some n' ∧
      tipc_node_is_up n' = true ∧ n'.sync_point = 7230 ∧
      (tipc_node_is_up n' = true →
        ∃ tnl, node_active_link n' 0 = some tnl ∧
          n'.sync_point = (tnl.rcv_nxt + 32766) % 65536) := by
  obtain ⟨n', hn', h⟩ := link_down_sync_point
    { two_link_node 5 5 with
      links := [{ link := some { sample_link 0 5 with up := true }, mtu := 1460 },
                { link := some { sample_link 1 5 with up := true, rcv_nxt := 40000 },
                  mtu := 1460 },
                { link := none, mtu := 0 }] } 0 { sample_link 0 5 with up := true } rfl rfl
  refine ⟨n', hn', ?_, ?_, h⟩
  · have := Option.some.inj (hn'.symm.trans (by rfl : tipc_node_link_down _ 0 = some _))
    rw [this]
    rfl
  · have := Option.some.inj (hn'.symm.trans (by rfl : tipc_node_link_down _ 0 = some _))
    rw [this]
    rfl
theorem select_slot0_of_positive (n : tipc_node) (b j : Nat) (lj : tipc_link)
    (hjb : j ≠ b) (hlj : node_link n j = some lj) (hup : lj.up = true)
    (hpos : lj.priority > 0) :
    (link_down_select b n.links 0 (0, INVALID_BEARER_ID, INVALID_BEARER_ID)).2.1 ≠
      INVALID_BEARER_ID := by
  intro hinv
  obtain ⟨hall, -, -, hz⟩ := link_down_select_node n b
  have hc : select_candidate n.links b j lj.priority :=
    (select_candidate_iff n b j lj.priority).mpr ⟨hjb, lj, hlj, hup, rfl⟩
  have hj : j < n.links.length := by
    obtain ⟨e, -, he, -⟩ := hc
    rcases Nat.lt_or_ge j n.links.length with hlt | hge
    · exact hlt
    · rw [List.getElem?_eq_none hge] at he
      cases he
  have := hall j lj.priority hj hc
  rw [hz hinv] at this
  omega

/-- C16 as stated fails: on a newly created node (state SELF_DOWN_PEER_LEAVING)
with links of priorities 5 and 3 brought up on bearers 0 and 1, link-down of
bearer 1 leaves the link of bearer 0 up and in both slots, yet the FSM state
stays SELF_DOWN_PEER_LEAVING: NODE_FAILOVER_BEGIN is an illegal event there.
The components are the state before, whether bearer 0 is up afterwards, the
slots afterwards and the state afterwards. -/
theorem link_down_survivor_state_not_failingover :
    (exec_events sample_node
      [.attach (sample_link 0 5), .attach (sample_link 1 3), .link_up 0, .link_up 1]).bind
      (fun n => (tipc_node_link_down n 1).map fun n' =>
        (n.state, (node_link n' 0).map (·.up), n'.active_links, n'.state)) =
      some (SELF_DOWN_PEER_LEAVING, some true, (0, 0), SELF_DOWN_PEER_LEAVING) := by
  rfl

/-- C16, amended: for every node in state SELF_UP_PEER_UP, NODE_SYNCHING or
NODE_FAILINGOVER where link-down of an up link on bearer B leaves at least one
surviving up link of positive priority, tipc_node_link_down returns and the
FSM state afterwards is NODE_FAILINGOVER. -/
theorem link_down_survivor_failingover (n : tipc_node) (bearer_id j : Nat)
    (l lj : tipc_link)
    (hs : n.state = SELF_UP_PEER_UP ∨ n.state = NODE_SYNCHING ∨ n.state = NODE_FAILINGOVER)
    (hl : node_link n bearer_id = some l) (hup : l.up = true)
    (hjb : j ≠ bearer_id) (hlj : node_link n j = some lj) (hju : lj.up = true)
    (hpos : lj.priority > 0) :
    ∃ n', tipc_node_link_down n bearer_id = some n' ∧ n'.state = NODE_FAILINGOVER := by
  obtain ⟨n', -, -, hn', -, -, -, -, -, hst, -⟩ := link_down_survivor n bearer_id l hl hup
    (select_slot0_of_positive n bearer_id j lj hjb hlj hju hpos)
  refine ⟨n', hn', ?_⟩
  rw [hst, fsm_evt_state]
  exact fsm_failover_begin_known n.state (by
    rcases hs with h | h | h <;> rw [h] <;> decide)

theorem link_down_survivor_failingover_witness :
    ∃ n', tipc_node_link_down { two_link_node 5 5 with working_links := 2 } 1 = some n' ∧
      n'.state = NODE_FAILINGOVER :=
  link_down_survivor_failingover { two_link_node 5 5 with working_links := 2 } 1 0
    { sample_link 1 5 with up := true } { sample_link 0 5 with up := true }
    (Or.inl rfl) rfl rfl (by decide) rfl rfl (by decide)
/-! ## The per-packet state check -/

theorem node_link_update_link (n : tipc_node) (i j : Nat) (f : tipc_link → tipc_link) :
    node_link (node_update_link n i f) j =
      if j = i then (node_link n i).map f else node_link n j := by
  unfold node_update_link
  cases h : node_link n i with
  | none =>
    dsimp only
    split_ifs with hj
    · rw [hj, h]
      rfl
    · rfl
  | some l =>
    dsimp only
    rw [node_link_set_link n i j _ l h]
    rfl

theorem node_update_link_sync_point (n : tipc_node) (i : Nat) (f : tipc_link → tipc_link) :
    (node_update_link n i f).sync_point = n.sync_point := by
  unfold node_update_link
  split
  · exact node_set_link_sync_point _ _ _
  · rfl

theorem find_parallel_link_ne (b : Nat) :
    ∀ (es : List tipc_link_entry) (k i : Nat), find_parallel_link b es k = some i → i ≠ b := by
  intro es
  induction es with
  | nil =>
    intro k i h
    simp [find_parallel_link] at h
  | cons e es ih =>
    intro k i h
    unfold find_parallel_link at h
    split_ifs at h with hc
    · cases h
      exact hc.1
    · exact ih (k + 1) i h

theorem check_state_failover_skip (n : tipc_node) (hdr : tipc_msg) (pl : Option Nat)
    (h : ¬ (msg_user hdr = TUNNEL_PROTOCOL ∧ msg_type hdr = FAILOVER_MSG)) :
    check_state_failover n hdr pl = some n := by
  unfold check_state_failover
  rw [if_neg h]

theorem check_state_synch_skip (n : tipc_node) (hdr : tipc_msg) (b : Nat)
    (h : ¬ (msg_user hdr = TUNNEL_PROTOCOL ∧ msg_type hdr = SYNCH_MSG)) :
    check_state_synch n hdr b = n := by
  unfold check_state_synch
  rw [if_neg h]

theorem check_state_open_tunnel_skip (n : tipc_node) (hdr : tipc_msg) (b : Nat)
    (pl : Option Nat) (h : n.state ≠ NODE_SYNCHING) :
    check_state_open_tunnel n hdr b pl = (true, n) := by
  unfold check_state_open_tunnel
  rw [if_neg (fun hc => h hc.1)]

/-- The path of tipc_node_check_state for a packet that gets past the duplicate
test in a state other than SELF_UP_PEER_COMING and SELF_DOWN_PEER_LEAVING and
is not let through by the fast path. -/
theorem check_state_main_path (n : tipc_node) (hdr : tipc_msg) (b : Nat) (l : tipc_link)
    (hl : node_link n b = some l)
    (hfast : ¬ (n.state = SELF_UP_PEER_UP ∧ msg_user hdr ≠ TUNNEL_PROTOCOL))
    (hc : n.state ≠ SELF_UP_PEER_COMING) (hd : n.state ≠ SELF_DOWN_PEER_LEAVING)
    (hnd : less (msg_seqno hdr) (l.rcv_nxt % 65536) = false) :
    tipc_node_check_state n hdr b =
      match check_state_failover n hdr (find_parallel_link b n.links 0) with
      | none => none
      | some n1 =>
        if n1.state = NODE_FAILINGOVER ∧ more (l.rcv_nxt % 65536) n1.sync_point then
          some (true,
            match find_parallel_link b n.links 0 with
            | some i => node_update_link (tipc_node_fsm_evt n1 NODE_FAILOVER_END_EVT) i
                fun q => { q with exec_mode := .TIPC_LINK_OPEN }
            | none => tipc_node_fsm_evt n1 NODE_FAILOVER_END_EVT)
        else
          some (check_state_open_tunnel (check_state_synch n1 hdr b) hdr b
            (find_parallel_link b n.links 0)) := by
  unfold tipc_node_check_state
  simp only [hl, hfast, hc, hd, hnd, false_and, if_false, Bool.false_eq_true]

/-- C18: for every node in NODE_FAILINGOVER and every non-duplicate packet that
is not a tunnel packet, arriving on a bearer that carries the link l: if
more(l.rcv_nxt, sync_point) then tipc_node_check_state moves the FSM to
SELF_UP_PEER_UP, sets the execution mode of the parallel link (if one exists)
to open and returns true; otherwise it returns true with the node unchanged,
so the state remains NODE_FAILINGOVER. -/
theorem check_state_failingover (n : tipc_node) (hdr : tipc_msg) (bearer_id : Nat)
    (l : tipc_link) (hs : n.state = NODE_FAILINGOVER)
    (hl : node_link n bearer_id = some l)
    (hu : msg_user hdr ≠ TUNNEL_PROTOCOL)
    (hnd : less (msg_seqno hdr) (l.rcv_nxt % 65536) = false) :
    (more (l.rcv_nxt % 65536) n.sync_point = true →
      ∃ n', tipc_node_check_state n hdr bearer_id = some (true, n') ∧
        n'.state = SELF_UP_PEER_UP ∧
        ∀ i q, find_parallel_link bearer_id n.links 0 = some i → node_link n i = some q →
          node_link n' i = some { q with exec_mode := .TIPC_LINK_OPEN }) ∧
    (more (l.rcv_nxt % 65536) n.sync_point = false →
      tipc_node_check_state n hdr bearer_id = some (true, n) ∧ n.state = NODE_FAILINGOVER) := by
  have hmain := check_state_main_path n hdr bearer_id l hl
    (fun h => absurd (hs.symm.trans h.1) (by decide))
    (fun h => absurd (hs.symm.trans h) (by decide))
    (fun h => absurd (hs.symm.trans h) (by decide)) hnd
  rw [check_state_failover_skip n hdr _ (fun h => hu h.1)] at hmain
  dsimp only at hmain
  constructor
  · intro hm
    rw [if_pos ⟨hs, hm⟩] at hmain
    refine ⟨_, hmain, ?_, fun i q hi hq => ?_⟩
    · have hst : (tipc_node_fsm_evt n NODE_FAILOVER_END_EVT).state = SELF_UP_PEER_UP := by
        rw [fsm_evt_state, hs]
        rfl
      split
      · rw [node_update_link_state]
        exact hst
      · exact hst
    · rw [hi]
      dsimp only
      rw [node_link_update_link, if_pos rfl, node_link_eq_of_links _ _ (fsm_evt_links _ _), hq]
      rfl
  · intro hm
    have hno : ¬ (n.state = NODE_FAILINGOVER ∧ more (l.rcv_nxt % 65536) n.sync_point = true) := by
      rw [hm]
      exact fun h => absurd h.2 (by decide)
    rw [if_neg hno, check_state_synch_skip n hdr _ (fun h => hu h.1),
      check_state_open_tunnel_skip n hdr _ _ (fun h => absurd (hs.symm.trans h) (by decide))]
      at hmain
    exact ⟨hmain, hs⟩
theorem check_state_failingover_witness :
    (∃ n', tipc_node_check_state (failingover_node 0) (sample_hdr 1 true true) 0 =
        some (true, n') ∧ n'.state = SELF_UP_PEER_UP ∧
      ∀ i q, find_parallel_link 0 (failingover_node 0).links 0 = some i →
        node_link (failingover_node 0) i = some q →
        node_link n' i = some { q with exec_mode := .TIPC_LINK_OPEN }) ∧
    (tipc_node_check_state (failingover_node 10) (sample_hdr 1 true true) 0 =
        some (true, failingover_node 10) ∧
      (failingover_node 10).state = NODE_FAILINGOVER) :=
  ⟨(check_state_failingover (failingover_node 0) (sample_hdr 1 true true) 0
      { sample_link 0 5 with up := true } rfl rfl (by decide) (by decide)).1 (by decide),
   (check_state_failingover (failingover_node 10) (sample_hdr 1 true true) 0
      { sample_link 0 5 with up := true } rfl rfl (by decide) (by decide)).2 (by decide)⟩

theorem less_irrefl (a : Nat) : less a a = false := by
  simp [less]

/-- The last block of tipc_node_check_state for a node in NODE_SYNCHING whose
receiving link is in tunnel mode and whose parallel link on bearer i is q. -/
theorem check_state_open_tunnel_eval (m : tipc_node) (hdr : tipc_msg) (b i : Nat)
    (q : tipc_link) (hst : m.state = NODE_SYNCHING)
    (hex : (node_link m b).map (·.exec_mode) = some .TIPC_LINK_TUNNEL)
    (hq : node_link m i = some q) :
    check_state_open_tunnel m hdr b (some i) =
      if more (mod ((q.rcv_nxt % 65536 : Nat) - (q.inputq_len : Int))) m.sync_point then
        (true, node_update_link (tipc_node_fsm_evt m NODE_SYNCH_END_EVT) b
          fun q => { q with exec_mode := .TIPC_LINK_OPEN })
      else if msg_user hdr = TUNNEL_PROTOCOL ∧ msg_type hdr = SYNCH_MSG then (true, m)
      else if msg_user hdr = LINK_PROTOCOL then (true, m)
      else (false, m) := by
  unfold check_state_open_tunnel
  rw [if_pos ⟨hst, hex⟩]
  have hb : (some i).bind (node_link m) = some q := hq
  simp only [hb, Option.map_some', Option.any_some, reduceCtorEq, false_or]

/-- C20: for every node in SELF_UP_PEER_UP and every non-duplicate
TUNNEL_PROTOCOL/SYNCH_MSG packet arriving on a bearer with link l while a
parallel link pl exists whose delivered-sequence counter has not passed the
new sync point: tipc_node_check_state sets sync_point to (wrapped-message
seqno + msgcnt - 1) mod 2^16, switches l into tunnel mode, moves the FSM to
NODE_SYNCHING and admits the packet. -/
theorem check_state_synch_begin (n : tipc_node) (hdr : tipc_msg) (bearer_id pl : Nat)
    (l q : tipc_link) (hs : n.state = SELF_UP_PEER_UP)
    (hu : msg_user hdr = TUNNEL_PROTOCOL) (ht : msg_type hdr = SYNCH_MSG)
    (hl : node_link n bearer_id = some l)
    (hnd : less (msg_seqno hdr) (l.rcv_nxt % 65536) = false)
    (hpl : find_parallel_link bearer_id n.links 0 = some pl) (hq : node_link n pl = some q)
    (hnp : more (mod ((q.rcv_nxt % 65536 : Nat) - (q.inputq_len : Int)))
      (mod ((msg_wrapped_seqno hdr : Int) + msg_msgcnt hdr - 1)) = false) :
    ∃ n', tipc_node_check_state n hdr bearer_id = some (true, n') ∧
      n'.sync_point = mod ((msg_wrapped_seqno hdr : Int) + msg_msgcnt hdr - 1) ∧
      node_link n' bearer_id = some { l with exec_mode := .TIPC_LINK_TUNNEL } ∧
      n'.state = NODE_SYNCHING := by
  have hmain := check_state_main_path n hdr bearer_id l hl
    (fun h => h.2 hu)
    (fun h => absurd (hs.symm.trans h) (by decide))
    (fun h => absurd (hs.symm.trans h) (by decide)) hnd
  have hnf : ¬ (msg_user hdr = TUNNEL_PROTOCOL ∧ msg_type hdr = FAILOVER_MSG) := by
    rw [ht]
    exact fun h => absurd h.2 (by decide)
  rw [check_state_failover_skip n hdr _ hnf] at hmain
  dsimp only at hmain
  rw [if_neg (fun h => absurd (hs.symm.trans h.1) (by decide))] at hmain
  have hplb : pl ≠ bearer_id := find_parallel_link_ne bearer_id n.links 0 pl hpl
  have hsy : check_state_synch n hdr bearer_id =
      node_update_link (tipc_node_fsm_evt
        { n with sync_point := mod ((msg_wrapped_seqno hdr : Int) + msg_msgcnt hdr - 1) }
        NODE_SYNCH_BEGIN_EVT) bearer_id fun q => { q with exec_mode := .TIPC_LINK_TUNNEL } := by
    unfold check_state_synch
    rw [if_pos ⟨hu, ht⟩]
    dsimp only
    rw [if_pos hs, node_update_link_sync_point, fsm_evt_sync_point]
    dsimp only
    rw [less_irrefl]
    rfl
  have hst : (check_state_synch n hdr bearer_id).state = NODE_SYNCHING := by
    rw [hsy, node_update_link_state, fsm_evt_state]
    show (match tipc_node_fsm_switch n.state NODE_SYNCH_BEGIN_EVT with
      | .next s => s
      | _ => n.state) = NODE_SYNCHING
    rw [hs]
    rfl
  have hsp : (check_state_synch n hdr bearer_id).sync_point =
      mod ((msg_wrapped_seqno hdr : Int) + msg_msgcnt hdr - 1) := by
    rw [hsy, node_update_link_sync_point, fsm_evt_sync_point]
  have hlk : ∀ j, node_link (check_state_synch n hdr bearer_id) j =
      if j = bearer_id then (node_link n bearer_id).map
        (fun q => { q with exec_mode := .TIPC_LINK_TUNNEL }) else node_link n j := by
    intro j
    rw [hsy, node_link_update_link]
    split_ifs
    · rw [node_link_eq_of_links _ _ (fsm_evt_links _ _)]
      exact rfl
    · rw [node_link_eq_of_links _ _ (fsm_evt_links _ _)]
      exact rfl
  have hot : check_state_open_tunnel (check_state_synch n hdr bearer_id) hdr bearer_id
      (find_parallel_link bearer_id n.links 0) =
      (true, check_state_synch n hdr bearer_id) := by
    rw [hpl, check_state_open_tunnel_eval _ hdr bearer_id pl q hst
      (by rw [hlk, if_pos rfl, hl]; rfl) (by rw [hlk, if_neg hplb]; exact hq), hsp, hnp]
    simp only [Bool.false_eq_true, if_false]
    rw [if_pos ⟨hu, ht⟩]
  rw [hot] at hmain
  refine ⟨_, hmain, hsp, ?_, hst⟩
  rw [hlk, if_pos rfl, hl]
  rfl

theorem check_state_synch_begin_witness :
    ∃ n', tipc_node_check_state { two_link_node 5 5 with working_links := 2 }
        (sample_tunnel_hdr SYNCH_MSG 1 100 1) 0 = some (true, n') ∧
      n'.sync_point = mod ((msg_wrapped_seqno (sample_tunnel_hdr SYNCH_MSG 1 100 1) : Int) +
        msg_msgcnt (sample_tunnel_hdr SYNCH_MSG 1 100 1) - 1) ∧
      node_link n' 0 = some { ({ sample_link 0 5 with up := true } : tipc_link) with
        exec_mode := .TIPC_LINK_TUNNEL } ∧
      n'.state = NODE_SYNCHING :=
  check_state_synch_begin { two_link_node 5 5 with working_links := 2 }
    (sample_tunnel_hdr SYNCH_MSG 1 100 1) 0 1 { sample_link 0 5 with up := true }
    { sample_link 1 5 with up := true } rfl rfl rfl rfl (by decide) (by decide) rfl (by decide)
theorem fsm_peer_establ_coming (n : tipc_node) (h : n.state = SELF_UP_PEER_COMING) :
    (tipc_node_fsm_evt n PEER_ESTABL_CONTACT_EVT).state = SELF_UP_PEER_UP := by
  rw [fsm_evt_state, h]
  rfl

theorem fsm_peer_lost_leaving (n : tipc_node) (h : n.state = SELF_DOWN_PEER_LEAVING) :
    (tipc_node_fsm_evt n PEER_LOST_CONTACT_EVT).state = SELF_DOWN_PEER_DOWN := by
  rw [fsm_evt_state, h]
  rfl

/-- C11 as stated fails: a newly created node (state SELF_DOWN_PEER_LEAVING)
whose link on bearer 0 expects sequence number 5 receives a duplicate (sequence
number 2) that does not assert the peer node up; the packet is admitted and
the FSM state becomes SELF_DOWN_PEER_DOWN. The components are the state
before, the duplicate test, the verdict and the state afterwards. -/
theorem check_state_duplicate_changes_state :
    (exec_events sample_node [.attach (sample_link 0 5), .link_progress 0 5 0]).bind
      (fun n => (tipc_node_check_state n (sample_hdr 2 false false) 0).map fun r =>
        (n.state, (node_link n 0).map (fun l =>
          less (msg_seqno (sample_hdr 2 false false)) (l.rcv_nxt % 65536)), r.1, r.2.state)) =
      some (SELF_DOWN_PEER_LEAVING, some true, true, SELF_DOWN_PEER_DOWN) := by
  rfl

/-- C11, amended: for every node, every bearer carrying a link l, and every
packet whose sequence number is less (16-bit modular) than rcv_nxt of l,
tipc_node_check_state returns and leaves the sync point, the active slots and
the whole link table (so every link execution mode) unchanged; the FSM state
is unchanged too, except for the node-accessibility update that precedes the
duplicate test: in SELF_UP_PEER_COMING the state becomes SELF_UP_PEER_UP when
l is up and the packet asserts the peer link up, and in SELF_DOWN_PEER_LEAVING
it becomes SELF_DOWN_PEER_DOWN when the packet does not assert the peer node
up. -/
theorem check_state_duplicate (n : tipc_node) (hdr : tipc_msg) (bearer_id : Nat)
    (l : tipc_link) (hl : node_link n bearer_id = some l)
    (hdup : less (msg_seqno hdr) (l.rcv_nxt % 65536) = true) :
    ∃ r n', tipc_node_check_state n hdr bearer_id = some (r, n') ∧
      n'.sync_point = n.sync_point ∧ n'.active_links = n.active_links ∧
      n'.links = n.links ∧
      n'.state =
        (if n.state = SELF_UP_PEER_COMING then
          (if l.up = true ∧ msg_peer_link_is_up hdr = true then SELF_UP_PEER_UP
            else SELF_UP_PEER_COMING)
        else if n.state = SELF_DOWN_PEER_LEAVING then
          (if msg_peer_node_is_up hdr = true then SELF_DOWN_PEER_LEAVING
            else SELF_DOWN_PEER_DOWN)
        else n.state) := by
  have hcd : ¬ ((SELF_UP_PEER_COMING : Int) = SELF_DOWN_PEER_LEAVING) := by decide
  have hcu : ¬ ((SELF_UP_PEER_COMING : Int) = SELF_UP_PEER_UP) := by decide
  have hdu : ¬ ((SELF_DOWN_PEER_LEAVING : Int) = SELF_UP_PEER_UP) := by decide
  have hdc : ¬ ((SELF_DOWN_PEER_LEAVING : Int) = SELF_UP_PEER_COMING) := by decide
  by_cases hc : n.state = SELF_UP_PEER_COMING
  · have hnd : n.state ≠ SELF_DOWN_PEER_LEAVING := fun h => hcd (hc.symm.trans h)
    have hnu : n.state ≠ SELF_UP_PEER_UP := fun h => hcu (hc.symm.trans h)
    rw [if_pos hc]
    unfold tipc_node_check_state
    simp only [hl, hnu, hnd, hdup, false_and, if_false, if_true]
    by_cases hup : l.up = true
    · by_cases hpl : msg_peer_link_is_up hdr = true
      · simp only [hc, tipc_link_is_up, hup, hpl, Bool.not_true, Bool.false_eq_true, and_false,
          if_false, if_true, and_self]
        exact ⟨_, _, rfl, fsm_evt_sync_point _ _, fsm_evt_active_links _ _, fsm_evt_links _ _,
          fsm_peer_establ_coming n hc⟩
      · simp only [hc, tipc_link_is_up, hup, hpl, Bool.not_true, Bool.false_eq_true, and_false,
          if_false, if_true, and_self, Bool.not_eq_true, Bool.not_false, and_true, true_and]
        exact ⟨_, _, rfl, rfl, rfl, rfl, hc⟩
    · simp only [hc, tipc_link_is_up, hup, Bool.not_eq_true, Bool.not_false, and_true,
        true_and, if_true, false_and, if_false, Bool.not_eq_true', eq_false_of_ne_true hup]
      exact ⟨_, _, rfl, rfl, rfl, rfl, hc⟩
  · rw [if_neg hc]
    by_cases hd : n.state = SELF_DOWN_PEER_LEAVING
    · have hnu : n.state ≠ SELF_UP_PEER_UP := fun h => hdu (hd.symm.trans h)
      rw [if_pos hd]
      unfold tipc_node_check_state
      simp only [hl, hnu, hc, hdup, false_and, if_false, if_true]
      by_cases hpn : msg_peer_node_is_up hdr = true
      · simp only [hd, hpn, and_self, if_true]
        exact ⟨_, _, rfl, rfl, rfl, rfl, hd⟩
      · simp only [hd, hpn, and_false, if_false, if_true, Bool.false_eq_true]
        exact ⟨_, _, rfl, fsm_evt_sync_point _ _, fsm_evt_active_links _ _, fsm_evt_links _ _,
          fsm_peer_lost_leaving n hd⟩
    · rw [if_neg hd]
      unfold tipc_node_check_state
      simp only [hl, hc, hd, hdup, false_and, if_false, if_true]
      split_ifs
      · exact ⟨_, _, rfl, rfl, rfl, rfl, rfl⟩
      · exact ⟨_, _, rfl, rfl, rfl, rfl, rfl⟩

theorem check_state_duplicate_witness :
    ∃ r n', tipc_node_check_state (failingover_node 10) (sample_hdr 65535 true true) 0 =
        some (r, n') ∧
      n'.sync_point = (failingover_node 10).sync_point ∧
      n'.active_links = (failingover_node 10).active_links ∧
      n'.links = (failingover_node 10).links ∧
      n'.state =
        (if (failingover_node 10).state = SELF_UP_PEER_COMING then
          (if ({ sample_link 0 5 with up := true } : tipc_link).up = true ∧
              msg_peer_link_is_up (sample_hdr 65535 true true) = true then SELF_UP_PEER_UP
            else SELF_UP_PEER_COMING)
        else if (failingover_node 10).state = SELF_DOWN_PEER_LEAVING then
          (if msg_peer_node_is_up (sample_hdr 65535 true true) = true then
            SELF_DOWN_PEER_LEAVING
            else SELF_DOWN_PEER_DOWN)
        else (failingover_node 10).state) :=
  check_state_duplicate (failingover_node 10) (sample_hdr 65535 true true) 0
    { sample_link 0 5 with up := true } rfl (by decide)
theorem check_state_synch_facts (n : tipc_node) (hdr : tipc_msg) (b : Nat)
    (hns : n.state ≠ SELF_UP_PEER_UP) :
    (check_state_synch n hdr b).state = n.state ∧
    (check_state_synch n hdr b).sync_point = synch_updated_sync_point n.sync_point hdr ∧
    ∀ j, node_link (check_state_synch n hdr b) j =
      if (msg_user hdr = TUNNEL_PROTOCOL ∧ msg_type hdr = SYNCH_MSG) ∧ j = b then
        (node_link n b).map fun q => { q with exec_mode := .TIPC_LINK_TUNNEL }
      else node_link n j := by
  unfold check_state_synch synch_updated_sync_point
  by_cases hsy : msg_user hdr = TUNNEL_PROTOCOL ∧ msg_type hdr = SYNCH_MSG
  · rw [if_pos hsy]
    dsimp only
    rw [if_neg hns, node_update_link_sync_point]
    by_cases hless : less (mod ((msg_wrapped_seqno hdr : Int) + msg_msgcnt hdr - 1))
        n.sync_point = true
    · rw [if_pos hless, if_pos ⟨hsy.1, hsy.2, hless⟩]
      refine ⟨node_update_link_state _ _ _, rfl, fun j => ?_⟩
      refine (node_link_eq_of_links (node_update_link n b _) _ rfl j).trans ?_
      rw [node_link_update_link]
      by_cases hj : j = b
      · rw [if_pos hj, if_pos ⟨hsy, hj⟩]
      · rw [if_neg hj, if_neg (fun h => hj h.2)]
    · rw [if_neg hless, if_neg (fun h => hless h.2.2)]
      refine ⟨node_update_link_state _ _ _, node_update_link_sync_point _ _ _, fun j => ?_⟩
      rw [node_link_update_link]
      by_cases hj : j = b
      · rw [if_pos hj, if_pos ⟨hsy, hj⟩]
      · rw [if_neg hj, if_neg (fun h => hj h.2)]
  · rw [if_neg hsy, if_neg (fun h => hsy ⟨h.1, h.2.1⟩)]
    exact ⟨rfl, rfl, fun j => by rw [if_neg (fun h => hsy h.1)]⟩

/-- C19 as stated fails: a node in NODE_SYNCHING (sync point 100) whose link on
bearer 0 is in tunnel mode and whose parallel link on bearer 1 is up with
delivered-sequence counter 50 receives a non-duplicate FAILOVER_MSG tunnel
packet on bearer 0. The counter has not passed the sync point and the packet
is neither a LINK_PROTOCOL nor a SYNCH_MSG packet, yet it is admitted and the
state becomes NODE_FAILINGOVER. The components are the state, the execution
mode of the receiving link, the sync point and the up flag of the parallel link
before the packet, then the verdict and the state afterwards. -/
theorem check_state_synching_failover_packet :
    (exec_events sample_node sample_synching_events).bind
      (fun n => (tipc_node_check_state n (sample_tunnel_hdr FAILOVER_MSG 1 0 5) 0).map fun r =>
        (n.state, (node_link n 0).map (·.exec_mode), n.sync_point,
          (node_link n 1).map (·.up), r.1, r.2.state)) =
      some (NODE_SYNCHING, some .TIPC_LINK_TUNNEL, 100, some true, true, NODE_FAILINGOVER) := by
  rfl

/-- C19, amended: for every node in NODE_SYNCHING whose receiving link l is in
tunnel mode and which has a parallel link pl, and every non-duplicate packet
other than a TUNNEL_PROTOCOL/FAILOVER_MSG packet: with dlv_nxt = (pl.rcv_nxt -
length(pl.inputq)) mod 2^16 and sp the sync point after the update the packet
itself may make (a SYNCH_MSG tunnel packet lowers it to wrapped seqno + msgcnt
- 1 when that is less), if more(dlv_nxt, sp) tipc_node_check_state admits the
packet, sets l to open mode and moves the FSM to SELF_UP_PEER_UP; otherwise it
admits the packet exactly when it is a LINK_PROTOCOL message or a
TUNNEL_PROTOCOL/SYNCH_MSG message and rejects every other packet, leaving the
state NODE_SYNCHING. -/
theorem check_state_synching (n : tipc_node) (hdr : tipc_msg) (bearer_id pl : Nat)
    (l q : tipc_link) (hs : n.state = NODE_SYNCHING)
    (hl : node_link n bearer_id = some l) (hex : l.exec_mode = .TIPC_LINK_TUNNEL)
    (hpl : find_parallel_link bearer_id n.links 0 = some pl) (hq : node_link n pl = some q)
    (hnd : less (msg_seqno hdr) (l.rcv_nxt % 65536) = false)
    (hnf : ¬ (msg_user hdr = TUNNEL_PROTOCOL ∧ msg_type hdr = FAILOVER_MSG)) :
    (more (mod ((q.rcv_nxt % 65536 : Nat) - (q.inputq_len : Int)))
        (synch_updated_sync_point n.sync_point hdr) = true →
      ∃ n', tipc_node_check_state n hdr bearer_id = some (true, n') ∧
        node_link n' bearer_id = some { l with exec_mode := .TIPC_LINK_OPEN } ∧
        n'.state = SELF_UP_PEER_UP) ∧
    (more (mod ((q.rcv_nxt % 65536 : Nat) - (q.inputq_len : Int)))
        (synch_updated_sync_point n.sync_point hdr) = false →
      ∃ n', tipc_node_check_state n hdr bearer_id =
          some (decide (msg_user hdr = LINK_PROTOCOL ∨
            (msg_user hdr = TUNNEL_PROTOCOL ∧ msg_type hdr = SYNCH_MSG)), n') ∧
        n'.state = NODE_SYNCHING) := by
  have hns : n.state ≠ SELF_UP_PEER_UP := fun h => absurd (hs.symm.trans h) (by decide)
  have hmain := check_state_main_path n hdr bearer_id l hl
    (fun h => hns h.1)
    (fun h => absurd (hs.symm.trans h) (by decide))
    (fun h => absurd (hs.symm.trans h) (by decide)) hnd
  rw [check_state_failover_skip n hdr _ hnf] at hmain
  dsimp only at hmain
  rw [if_neg (fun h => absurd (hs.symm.trans h.1) (by decide)), hpl] at hmain
  obtain ⟨hst, hsp, hlk⟩ := check_state_synch_facts n hdr bearer_id hns
  have hplb : pl ≠ bearer_id := find_parallel_link_ne bearer_id n.links 0 pl hpl
  have hlb : ∃ l', node_link (check_state_synch n hdr bearer_id) bearer_id = some l' ∧
      l'.exec_mode = .TIPC_LINK_TUNNEL ∧
      ({ l' with exec_mode := .TIPC_LINK_OPEN } : tipc_link) =
        { l with exec_mode := .TIPC_LINK_OPEN } := by
    rw [hlk, hl]
    split_ifs
    · exact ⟨_, rfl, rfl, rfl⟩
    · exact ⟨_, rfl, hex, rfl⟩
  obtain ⟨l', hl', hex', hopen⟩ := hlb
  have hqm : node_link (check_state_synch n hdr bearer_id) pl = some q := by
    rw [hlk, if_neg (fun h => hplb h.2)]
    exact hq
  rw [check_state_open_tunnel_eval _ hdr bearer_id pl q (hst.trans hs)
    (by rw [hl']; exact congrArg some hex') hqm, hsp] at hmain
  constructor
  · intro hm
    rw [if_pos hm] at hmain
    refine ⟨_, hmain, ?_, ?_⟩
    · rw [node_link_update_link, if_pos rfl, node_link_eq_of_links _ _ (fsm_evt_links _ _), hl']
      exact congrArg some hopen
    · rw [node_update_link_state, fsm_evt_state, hst, hs]
      rfl
  · intro hm
    have hno : ¬ (more (mod ((q.rcv_nxt % 65536 : Nat) - (q.inputq_len : Int)))
        (synch_updated_sync_point n.sync_point hdr) = true) := by
      rw [hm]
      decide
    rw [if_neg hno] at hmain
    refine ⟨check_state_synch n hdr bearer_id, ?_, hst.trans hs⟩
    rw [hmain]
    by_cases hsy : msg_user hdr = TUNNEL_PROTOCOL ∧ msg_type hdr = SYNCH_MSG
    · rw [if_pos hsy]
      simp [hsy]
    · rw [if_neg hsy]
      by_cases hlp : msg_user hdr = LINK_PROTOCOL
      · rw [if_pos hlp]
        simp [hlp]
      · rw [if_neg hlp]
        simp [hlp, hsy]

theorem check_state_synching_witness :
    (∃ n', tipc_node_check_state sample_synching (sample_tunnel_hdr SYNCH_MSG 1 10 1) 0 =
        some (true, n') ∧
      node_link n' 0 = some { ({ sample_link 0 5 with
          up := true, exec_mode := .TIPC_LINK_TUNNEL } : tipc_link) with
        exec_mode := .TIPC_LINK_OPEN } ∧
      n'.state = SELF_UP_PEER_UP) ∧
    (∃ n', tipc_node_check_state sample_synching (sample_hdr 1 true true) 0 =
        some (decide (msg_user (sample_hdr 1 true true) = LINK_PROTOCOL ∨
          (msg_user (sample_hdr 1 true true) = TUNNEL_PROTOCOL ∧
            msg_type (sample_hdr 1 true true) = SYNCH_MSG)), n') ∧
      n'.state = NODE_SYNCHING) :=
  ⟨(check_state_synching sample_synching (sample_tunnel_hdr SYNCH_MSG 1 10 1) 0 1
      { sample_link 0 5 with up := true, exec_mode := .TIPC_LINK_TUNNEL }
      { sample_link 1 5 with up := true, rcv_nxt := 50 }
      rfl rfl rfl rfl rfl (by decide) (by decide)).1 (by rfl),
   (check_state_synching sample_synching (sample_hdr 1 true true) 0 1
      { sample_link 0 5 with up := true, exec_mode := .TIPC_LINK_TUNNEL }
      { sample_link 1 5 with up := true, rcv_nxt := 50 }
      rfl rfl rfl rfl rfl (by decide) (by decide)).2 (by rfl)⟩


/-! ## Two failover packets in a row -/

theorem link_core_of_links (m m' : tipc_node) (h : m'.links = m.links) (j : Nat) :
    link_core m' j = link_core m j := by
  unfold link_core
  rw [node_link_eq_of_links m m' h]

theorem link_core_update_link (m : tipc_node) (i j : Nat) (f : tipc_link → tipc_link)
    (hf : ∀ q, ({ f q with exec_mode := .TIPC_LINK_OPEN } : tipc_link) =
      { q with exec_mode := .TIPC_LINK_OPEN }) :
    link_core (node_update_link m i f) j = link_core m j := by
  unfold link_core
  rw [node_link_update_link]
  split_ifs with hj
  · subst hj
    cases node_link m j with
    | none => rfl
    | some q => exact congrArg some (hf q)
  · rfl

theorem link_core_some (m m' : tipc_node) (j : Nat) (q : tipc_link)
    (h : link_core m' j = link_core m j) (hq : node_link m j = some q) :
    ∃ q', node_link m' j = some q' ∧ q'.up = q.up ∧ q'.rcv_nxt = q.rcv_nxt ∧
      q'.priority = q.priority ∧ q'.inputq_len = q.inputq_len ∧
      q'.bearer_id = q.bearer_id := by
  unfold link_core at h
  rw [hq] at h
  cases hq' : node_link m' j with
  | none =>
    rw [hq'] at h
    cases h
  | some q' =>
    rw [hq'] at h
    have h' := Option.some.inj h
    have h1 := congrArg tipc_link.up h'
    have h2 := congrArg tipc_link.rcv_nxt h'
    have h3 := congrArg tipc_link.priority h'
    have h4 := congrArg tipc_link.inputq_len h'
    have h5 := congrArg tipc_link.bearer_id h'
    exact ⟨q', rfl, h1, h2, h3, h4, h5⟩

theorem link_core_isSome (m m' : tipc_node) (j : Nat)
    (h : link_core m' j = link_core m j) :
    (node_link m' j).isSome = (node_link m j).isSome := by
  unfold link_core at h
  cases h1 : node_link m' j <;> cases h2 : node_link m j <;> simp [h1, h2] at h ⊢

theorem links_at_cons_succ (e : tipc_link_entry) (es : List tipc_link_entry) (j : Nat) :
    links_at (e :: es) (j + 1) = links_at es j := by
  unfold links_at
  simp

theorem link_core_exec_update (m : tipc_node) (i j : Nat) (em : link_exec_mode) :
    link_core (node_update_link m i fun q => { q with exec_mode := em }) j = link_core m j :=
  link_core_update_link m i j _ (fun _ => rfl)

theorem check_state_failover_down (n : tipc_node) (hdr : tipc_msg) (pl : Option Nat)
    (hf : msg_user hdr = TUNNEL_PROTOCOL ∧ msg_type hdr = FAILOVER_MSG)
    (hdown : ∀ i q, pl = some i → node_link n i = some q → q.up = false) :
    check_state_failover n hdr pl =
      some (if less (mod ((msg_seqno hdr : Int) + msg_msgcnt hdr - 1)) n.sync_point then
        { n with sync_point := mod ((msg_seqno hdr : Int) + msg_msgcnt hdr - 1) } else n) := by
  unfold check_state_failover
  rw [if_pos hf]
  dsimp only
  cases pl with
  | none => rfl
  | some i =>
    cases hq : node_link n i with
    | none =>
      simp only [Option.some_bind, hq, Option.map_none', Option.map_some']
    | some q =>
      have hqd := hdown i q rfl hq
      simp only [Option.some_bind, hq, Option.map_some', tipc_link_is_up, hqd,
        Bool.false_eq_true, if_false]

theorem sync_min_facts (m : tipc_node) (s : Nat) :
    ∃ n1 : tipc_node,
      (if less s m.sync_point then { m with sync_point := s } else m) = n1 ∧
      n1.sync_point = min_less s m.sync_point ∧ n1.state = m.state ∧ n1.links = m.links := by
  unfold min_less
  split_ifs
  · exact ⟨_, rfl, rfl, rfl, rfl⟩
  · exact ⟨_, rfl, rfl, rfl, rfl⟩

theorem fsm_switch_unlisted_outcome :
    ∀ S ∈ fsm_states, ∀ E ∈ fsm_events,
      (∀ t ∈ spec_fsm_table, ¬(t.1 = S ∧ t.2.1 = E)) →
      tipc_node_fsm_switch S E =
        if (S, E) ∈ spec_fsm_illegal_pairs then .illegal_evt else .next S := by
  decide

/-- C21 as stated fails: in SELF_UP_PEER_UP neither SELF_ESTABL_CONTACT nor
NODE_FAILOVER_END is a transition or a no-op of the table of section 4.2, and
yet the switch leaves through a bare break: tipc_node_fsm_evt hands back the
node as it was, with nothing written to the log. -/
theorem fsm_evt_unlisted_silently_accepted :
    (two_link_node 5 5).state = SELF_UP_PEER_UP ∧
    (∀ t ∈ spec_fsm_table, ¬(t.1 = SELF_UP_PEER_UP ∧ t.2.1 = SELF_ESTABL_CONTACT_EVT)) ∧
    (∀ t ∈ spec_fsm_table, ¬(t.1 = SELF_UP_PEER_UP ∧ t.2.1 = NODE_FAILOVER_END_EVT)) ∧
    tipc_node_fsm_switch SELF_UP_PEER_UP SELF_ESTABL_CONTACT_EVT = .next SELF_UP_PEER_UP ∧
    tipc_node_fsm_switch SELF_UP_PEER_UP NODE_FAILOVER_END_EVT = .next SELF_UP_PEER_UP ∧
    tipc_node_fsm_evt (two_link_node 5 5) SELF_ESTABL_CONTACT_EVT = two_link_node 5 5 ∧
    tipc_node_fsm_evt (two_link_node 5 5) NODE_FAILOVER_END_EVT = two_link_node 5 5 ∧
    (tipc_node_fsm_evt (two_link_node 5 5) SELF_ESTABL_CONTACT_EVT).klog = [] := by
  decide

/-- C21, amended: for each of the 8 states S and each of the 8 events E such
that (S, E) is neither a transition nor a no-op of the table of section 4.2,
tipc_node_fsm_evt takes the illegal-event path (one line logged, nothing else
changed) exactly when E is a failover or synch event and S is none of
SELF_UP_PEER_UP, NODE_FAILINGOVER and NODE_SYNCHING, or E is a synch event and
S is NODE_FAILINGOVER, or E is NODE_FAILOVER_END and S is NODE_SYNCHING; for
every other such pair the event is accepted silently and the node is left as
it was. -/
theorem fsm_evt_unlisted_illegal_iff (n : tipc_node) (S E : Int)
    (hS : S ∈ fsm_states) (hE : E ∈ fsm_events)
    (hun : ∀ t ∈ spec_fsm_table, ¬(t.1 = S ∧ t.2.1 = E))
    (hs : n.state = S) :
    ((S, E) ∈ spec_fsm_illegal_pairs →
      tipc_node_fsm_evt n E = { n with klog := n.klog ++ [.illegal_fsm_evt E S] }) ∧
    ((S, E) ∉ spec_fsm_illegal_pairs → tipc_node_fsm_evt n E = n) := by
  have hsw := fsm_switch_unlisted_outcome S hS E hE hun
  subst hs
  constructor
  · intro hin
    rw [if_pos hin] at hsw
    unfold tipc_node_fsm_evt
    rw [hsw]
  · intro hnin
    rw [if_neg hnin] at hsw
    unfold tipc_node_fsm_evt
    rw [hsw]

theorem fsm_evt_unlisted_illegal_iff_witness :
    ((SELF_UP_PEER_COMING, NODE_SYNCH_BEGIN_EVT) ∈ spec_fsm_illegal_pairs →
      tipc_node_fsm_evt { sample_node with state := SELF_UP_PEER_COMING } NODE_SYNCH_BEGIN_EVT =
        { ({ sample_node with state := SELF_UP_PEER_COMING } : tipc_node) with
          klog := ({ sample_node with state := SELF_UP_PEER_COMING } : tipc_node).klog ++
            [.illegal_fsm_evt NODE_SYNCH_BEGIN_EVT SELF_UP_PEER_COMING] }) ∧
    ((SELF_UP_PEER_COMING, NODE_SYNCH_BEGIN_EVT) ∉ spec_fsm_illegal_pairs →
      tipc_node_fsm_evt { sample_node with state := SELF_UP_PEER_COMING } NODE_SYNCH_BEGIN_EVT =
        { sample_node with state := SELF_UP_PEER_COMING }) :=
  fsm_evt_unlisted_illegal_iff { sample_node with state := SELF_UP_PEER_COMING }
    SELF_UP_PEER_COMING NODE_SYNCH_BEGIN_EVT (by decide) (by decide) (by decide) rfl
/-! ## Notification of connected sockets on loss of contact -/

theorem fsm_evt_conn_fields (n : tipc_node) (evt : Int) :
    (tipc_node_fsm_evt n evt).conn_sks = n.conn_sks ∧
    (tipc_node_fsm_evt n evt).inputq = n.inputq ∧
    (tipc_node_fsm_evt n evt).net = n.net := by
  unfold tipc_node_fsm_evt
  split <;> exact ⟨rfl, rfl, rfl⟩

theorem skb_alloc_head_ok (alloc : List Bool) (k : Nat)
    (h : ∀ b ∈ alloc.take (k + 1), b = true) :
    alloc.headD true = true ∧ ∀ b ∈ alloc.tail.take k, b = true := by
  cases alloc with
  | nil => exact ⟨rfl, fun b hb => by simp at hb⟩
  | cons a as =>
    refine ⟨h a (by simp), fun b hb => h b ?_⟩
    simp only [List.take_succ_cons, List.mem_cons]
    exact Or.inr hb

theorem lost_contact_conns_notify (conns : List tipc_sock_conn) (n : tipc_node)
    (h : ∀ b ∈ n.net.skb_alloc.take conns.length, b = true) :
    (node_lost_contact_conns conns n).inputq =
      n.inputq ++ conns.map (fun conn =>
        { dnode := n.net.own_addr, onode := conn.peer_node, dport := conn.port,
          oport := conn.peer_port, errcode := TIPC_ERR_NO_NODE }) ∧
    (node_lost_contact_conns conns n).conn_sks = (if conns = [] then n.conn_sks else []) ∧
    (node_lost_contact_conns conns n).action_flags =
      (if conns = [] then n.action_flags else n.action_flags ||| TIPC_MSG_EVT) := by
  induction conns generalizing n with
  | nil =>
    refine ⟨?_, rfl, rfl⟩
    unfold node_lost_contact_conns
    simp
  | cons c cs ih =>
    obtain ⟨hhead, htail⟩ := skb_alloc_head_ok n.net.skb_alloc cs.length h
    unfold node_lost_contact_conns
    dsimp only
    rw [hhead, if_pos rfl]
    obtain ⟨h1, h2, h3⟩ := ih
      { n with
        net := { n.net with skb_alloc := n.net.skb_alloc.tail },
        inputq := n.inputq ++
          [{ dnode := n.net.own_addr, onode := c.peer_node, dport := c.port,
             oport := c.peer_port, errcode := TIPC_ERR_NO_NODE }],
        action_flags := n.action_flags ||| TIPC_MSG_EVT,
        conn_sks := cs } htail
    refine ⟨?_, ?_, ?_⟩
    · rw [h1]
      simp
    · rw [h2]
      simp
    · rw [h3]
      dsimp only
      rw [if_neg (List.cons_ne_nil c cs)]
      split_ifs
      · rfl
      · rw [Nat.or_assoc, Nat.or_self]

theorem node_lost_contact_decompose (n : tipc_node) :
    ∃ m, node_lost_contact n = node_lost_contact_conns m.conn_sks m ∧
      m.conn_sks = n.conn_sks ∧ m.inputq = n.inputq ∧ m.net = n.net ∧
      m.action_flags = n.action_flags ||| TIPC_NOTIFY_NODE_DOWN := by
  unfold node_lost_contact
  refine ⟨_, rfl, ?_, ?_, ?_, ?_⟩
  · dsimp only
    rw [(fsm_evt_conn_fields _ _).1]
    split_ifs <;> rfl
  · dsimp only
    rw [(fsm_evt_conn_fields _ _).2.1]
    split_ifs <;> rfl
  · dsimp only
    rw [(fsm_evt_conn_fields _ _).2.2]
    split_ifs <;> rfl
  · dsimp only
    rw [fsm_evt_action_flags]
    split_ifs <;> rfl

/-- C24: for every node with k recorded connections, when the k message
allocations succeed, node_lost_contact appends to the input queue of the node
exactly one TIPC_ERR_NO_NODE message per record, in list order, each built
from the own address and the record (peer_node, port, peer_port); it leaves the
connection list empty; and the action flags afterwards are the old ones with
TIPC_NOTIFY_NODE_DOWN added, and TIPC_MSG_EVT too when k > 0. -/
theorem node_lost_contact_notifies_conns (n_ptr : tipc_node)
    (halloc : ∀ b ∈ n_ptr.net.skb_alloc.take n_ptr.conn_sks.length, b = true) :
    (node_lost_contact n_ptr).inputq =
      n_ptr.inputq ++ n_ptr.conn_sks.map (fun conn =>
        { dnode := n_ptr.net.own_addr, onode := conn.peer_node, dport := conn.port,
          oport := conn.peer_port, errcode := TIPC_ERR_NO_NODE }) ∧
    (node_lost_contact n_ptr).inputq.length = n_ptr.inputq.length + n_ptr.conn_sks.length ∧
    (node_lost_contact n_ptr).conn_sks = [] ∧
    (node_lost_contact n_ptr).action_flags =
      if n_ptr.conn_sks.length > 0 then
        n_ptr.action_flags ||| TIPC_NOTIFY_NODE_DOWN ||| TIPC_MSG_EVT
      else n_ptr.action_flags ||| TIPC_NOTIFY_NODE_DOWN := by
  obtain ⟨m, hm, hc, hi, hn, hf⟩ := node_lost_contact_decompose n_ptr
  obtain ⟨h1, h2, h3⟩ := lost_contact_conns_notify m.conn_sks m (by
    rw [hn, hc]
    exact halloc)
  rw [hm]
  have hq : (node_lost_contact_conns m.conn_sks m).inputq =
      n_ptr.inputq ++ n_ptr.conn_sks.map (fun conn =>
        { dnode := n_ptr.net.own_addr, onode := conn.peer_node, dport := conn.port,
          oport := conn.peer_port, errcode := TIPC_ERR_NO_NODE }) := by
    rw [h1, hi, hn, hc]
  refine ⟨hq, ?_, ?_, ?_⟩
  · rw [hq, List.length_append, List.length_map]
  · rw [h2]
    split_ifs with he
    · exact he
    · rfl
  · rw [h3, hf, hc]
    cases n_ptr.conn_sks with
    | nil => rfl
    | cons c cs =>
      rw [if_neg (List.cons_ne_nil c cs), if_pos (by simp)]

theorem node_lost_contact_notifies_conns_witness :
    (node_lost_contact { two_link_node 5 5 with
        conn_sks := [{ port := 7, peer_port := 70, peer_node := 0x100042 },
                     { port := 8, peer_port := 80, peer_node := 0x100042 }] }).inputq =
      [{ dnode := 0x100001, onode := 0x100042, dport := 7, oport := 70,
         errcode := TIPC_ERR_NO_NODE },
       { dnode := 0x100001, onode := 0x100042, dport := 8, oport := 80,
         errcode := TIPC_ERR_NO_NODE }] ∧
    (node_lost_contact { two_link_node 5 5 with
        conn_sks := [{ port := 7, peer_port := 70, peer_node := 0x100042 },
                     { port := 8, peer_port := 80, peer_node := 0x100042 }] }).inputq.length =
      0 + 2 ∧
    (node_lost_contact { two_link_node 5 5 with
        conn_sks := [{ port := 7, peer_port := 70, peer_node := 0x100042 },
                     { port := 8, peer_port := 80, peer_node := 0x100042 }] }).conn_sks = [] ∧
    (node_lost_contact { two_link_node 5 5 with
        conn_sks := [{ port := 7, peer_port := 70, peer_node := 0x100042 },
                     { port := 8, peer_port := 80, peer_node := 0x100042 }] }).action_flags =
      0 ||| TIPC_NOTIFY_NODE_DOWN ||| TIPC_MSG_EVT :=
  node_lost_contact_notifies_conns { two_link_node 5 5 with
      conn_sks := [{ port := 7, peer_port := 70, peer_node := 0x100042 },
                   { port := 8, peer_port := 80, peer_node := 0x100042 }] }
    (by decide)
/-! ## A single link coming up and going down -/

theorem find_parallel_link_single (b : Nat) :
    ∀ (es : List tipc_link_entry) (k : Nat),
      (∀ j, j + k ≠ b → (links_at es j).isSome = false) →
      find_parallel_link b es k = none := by
  intro es
  induction es with
  | nil => exact fun _ _ => rfl
  | cons e es ih =>
    intro k h
    unfold find_parallel_link
    have hneg : ¬ (k ≠ b ∧ e.link.isSome = true) := by
      rintro ⟨hk, hs⟩
      have h0 : e.link.isSome = false := by
        simpa [links_at] using h 0 (by rw [Nat.zero_add]; exact hk)
      rw [h0] at hs
      exact absurd hs (by decide)
    rw [if_neg hneg]
    exact ih (k + 1) fun j hj => by
      rw [← links_at_cons_succ e es j]
      exact h (j + 1) (by omega)

theorem find_parallel_link_alone (n : tipc_node) (b : Nat)
    (h : ∀ j, j ≠ b → node_link n j = none) :
    find_parallel_link b n.links 0 = none := by
  apply find_parallel_link_single
  intro j hj
  have hj' := h j (by simpa using hj)
  have : links_at n.links j = node_link n j := rfl
  rw [this, hj']
  rfl

theorem node_lost_contact_state (n : tipc_node) :
    (node_lost_contact n).state = (tipc_node_fsm_evt n SELF_LOST_CONTACT_EVT).state := by
  unfold node_lost_contact
  dsimp only
  rw [(lost_contact_conns_state _ _).1]
  apply fsm_evt_state_congr
  split_ifs <;> rfl

/-- The last link of a node goes down: tipc_node_link_down returns, both slots
are invalid, the node is no longer up, one working link less is counted and
the FSM has received SELF_LOST_CONTACT. -/
theorem link_down_last_link (n : tipc_node) (b : Nat) (l : tipc_link)
    (hl : node_link n b = some l) (hup : l.up = true)
    (hsingle : ∀ j, j ≠ b → node_link n j = none) :
    ∃ n', tipc_node_link_down n b = some n' ∧
      n'.active_links = (INVALID_BEARER_ID, INVALID_BEARER_ID) ∧
      tipc_node_is_up n' = false ∧
      n'.working_links = n.working_links - 1 ∧
      n'.state = (tipc_node_fsm_evt n SELF_LOST_CONTACT_EVT).state := by
  obtain ⟨-, hs0, hs1, -⟩ := link_down_select_node n b
  have hno : ∀ j q, ¬ select_candidate n.links b j q := by
    intro j q hc
    obtain ⟨hjb, l', hl', -, -⟩ := (select_candidate_iff n b j q).1 hc
    rw [hsingle j hjb] at hl'
    cases hl'
  have hv0 : (link_down_select b n.links 0 (0, INVALID_BEARER_ID, INVALID_BEARER_ID)).2.1 =
      INVALID_BEARER_ID := by
    by_contra hne
    obtain ⟨j, -, hc⟩ := hs0 hne
    exact hno j _ hc
  have hv1 : (link_down_select b n.links 0 (0, INVALID_BEARER_ID, INVALID_BEARER_ID)).2.2 =
      INVALID_BEARER_ID := by
    by_contra hne
    obtain ⟨j, -, hc⟩ := hs1 hne
    exact hno j _ hc
  obtain ⟨n', hn', hact, hwl, -, -⟩ := link_down_effective n b l hl hup
  rw [hv0, hv1] at hact
  refine ⟨n', hn', hact, ?_, hwl, ?_⟩
  · unfold tipc_node_is_up
    rw [hact]
    rfl
  · have hst : ∃ m' : tipc_node, m'.state = n.state ∧
        tipc_node_link_down n b = some (node_lost_contact m') := by
      have hnu : (!tipc_node_is_up { n with
            working_links := n.working_links - 1,
            action_flags := n.action_flags ||| TIPC_NOTIFY_LINK_DOWN,
            link_id := (l.peer_bearer_id <<< 16 ||| b) % 2 ^ 32,
            active_links :=
              ((link_down_select b n.links 0 (0, INVALID_BEARER_ID, INVALID_BEARER_ID)).2.1,
               (link_down_select b n.links 0 (0, INVALID_BEARER_ID, INVALID_BEARER_ID)).2.2) })
            = true := by
        simp [tipc_node_is_up, hv0]
      refine ⟨node_set_link { n with
          working_links := n.working_links - 1,
          action_flags := n.action_flags ||| TIPC_NOTIFY_LINK_DOWN,
          link_id := (l.peer_bearer_id <<< 16 ||| b) % 2 ^ 32,
          active_links :=
            ((link_down_select b n.links 0 (0, INVALID_BEARER_ID, INVALID_BEARER_ID)).2.1,
             (link_down_select b n.links 0 (0, INVALID_BEARER_ID, INVALID_BEARER_ID)).2.2) }
          b (tipc_link_reset l), node_set_link_state _ _ _, ?_⟩
      unfold tipc_node_link_down
      simp only [hl, tipc_link_is_up, hup, Bool.not_true, Bool.false_eq_true, if_false]
      rw [if_pos hnu]
    obtain ⟨m', hm', hd'⟩ := hst
    rw [hn'] at hd'
    rw [Option.some.inj hd', node_lost_contact_state]
    exact fsm_evt_state_congr m' n _ hm'
theorem check_state_failover_alone (n : tipc_node) (hdr : tipc_msg) :
    ∃ m, check_state_failover n hdr none = some m ∧ m.state = n.state ∧ m.links = n.links := by
  by_cases hf : msg_user hdr = TUNNEL_PROTOCOL ∧ msg_type hdr = FAILOVER_MSG
  · rw [check_state_failover_down n hdr none hf (fun i q h => by cases h)]
    obtain ⟨n1, he, -, hst, hlk⟩ :=
      sync_min_facts n (mod ((msg_seqno hdr : Int) + msg_msgcnt hdr - 1))
    rw [he]
    exact ⟨n1, rfl, hst, hlk⟩
  · rw [check_state_failover_skip n hdr none hf]
    exact ⟨n, rfl, rfl, rfl⟩

/-- The synch block and the last block of tipc_node_check_state on a node in
SELF_UP_PEER_UP that has no parallel link: whatever the packet, the verdict is
true and the state afterwards is SELF_UP_PEER_UP again. -/
theorem check_state_synch_alone (m : tipc_node) (hdr : tipc_msg) (b : Nat) (l : tipc_link)
    (hs : m.state = SELF_UP_PEER_UP) (hl : node_link m b = some l) :
    ∃ n', check_state_open_tunnel (check_state_synch m hdr b) hdr b none = (true, n') ∧
      n'.state = SELF_UP_PEER_UP ∧ ∀ j, link_core n' j = link_core m j := by
  by_cases hsy : msg_user hdr = TUNNEL_PROTOCOL ∧ msg_type hdr = SYNCH_MSG
  · have hcs : check_state_synch m hdr b =
        node_update_link (tipc_node_fsm_evt
          { m with sync_point := mod ((msg_wrapped_seqno hdr : Int) + msg_msgcnt hdr - 1) }
          NODE_SYNCH_BEGIN_EVT) b fun q => { q with exec_mode := .TIPC_LINK_TUNNEL } := by
      unfold check_state_synch
      rw [if_pos hsy]
      dsimp only
      rw [if_pos hs, node_update_link_sync_point, fsm_evt_sync_point]
      dsimp only
      rw [less_irrefl]
      rfl
    have hst : (check_state_synch m hdr b).state = NODE_SYNCHING := by
      rw [hcs, node_update_link_state, fsm_evt_state]
      show (match tipc_node_fsm_switch m.state NODE_SYNCH_BEGIN_EVT with
        | .next s => s
        | _ => m.state) = NODE_SYNCHING
      rw [hs]
      rfl
    have hlk : node_link (check_state_synch m hdr b) b =
        some { l with exec_mode := .TIPC_LINK_TUNNEL } := by
      rw [hcs, node_link_update_link, if_pos rfl,
        node_link_eq_of_links _ _ (fsm_evt_links _ _)]
      have : node_link { m with
          sync_point := mod ((msg_wrapped_seqno hdr : Int) + msg_msgcnt hdr - 1) } b =
          node_link m b := rfl
      rw [this, hl]
      rfl
    have hcore : ∀ j, link_core (check_state_synch m hdr b) j = link_core m j := by
      intro j
      rw [hcs, link_core_exec_update, link_core_of_links _ _ (fsm_evt_links _ _)]
      exact link_core_of_links m _ rfl j
    have hot : check_state_open_tunnel (check_state_synch m hdr b) hdr b none =
        (true, node_update_link
          (tipc_node_fsm_evt (check_state_synch m hdr b) NODE_SYNCH_END_EVT) b
          fun q => { q with exec_mode := .TIPC_LINK_OPEN }) := by
      unfold check_state_open_tunnel
      rw [if_pos ⟨hst, by rw [hlk]; rfl⟩]
      dsimp only
      rw [if_pos (Or.inl rfl)]
    refine ⟨_, hot, ?_, fun j => ?_⟩
    · rw [node_update_link_state, fsm_evt_state, hst]
      rfl
    · rw [link_core_exec_update, link_core_of_links _ _ (fsm_evt_links _ _)]
      exact hcore j
  · rw [check_state_synch_skip m hdr b hsy,
      check_state_open_tunnel_skip m hdr b none (by rw [hs]; decide)]
    exact ⟨m, rfl, hs, fun _ => rfl⟩

/-- The per-packet check on a node in SELF_UP_PEER_COMING whose only link is
the up link of the receiving bearer, for a packet that asserts that the peer
has the link up: the packet is admitted and the state becomes
SELF_UP_PEER_UP. -/
theorem check_state_coming_alone (n : tipc_node) (hdr : tipc_msg) (b : Nat) (l : tipc_link)
    (hs : n.state = SELF_UP_PEER_COMING)
    (hl : node_link n b = some l) (hup : l.up = true)
    (hsingle : ∀ j, j ≠ b → node_link n j = none)
    (hpeer : msg_peer_link_is_up hdr = true) :
    ∃ n', tipc_node_check_state n hdr b = some (true, n') ∧
      n'.state = SELF_UP_PEER_UP ∧ ∀ j, link_core n' j = link_core n j := by
  have hnu : n.state ≠ SELF_UP_PEER_UP := fun h => absurd (hs.symm.trans h) (by decide)
  have hnd : n.state ≠ SELF_DOWN_PEER_LEAVING := fun h => absurd (hs.symm.trans h) (by decide)
  have hpl := find_parallel_link_alone n b hsingle
  have hst1 := fsm_peer_establ_coming n hs
  have hcore1 : ∀ j, link_core (tipc_node_fsm_evt n PEER_ESTABL_CONTACT_EVT) j =
      link_core n j := fun j => link_core_of_links _ _ (fsm_evt_links _ _) j
  unfold tipc_node_check_state
  simp only [hl, hnu, hnd, hpl, false_and, if_false, if_true]
  simp only [hs, tipc_link_is_up, hup, hpeer, Bool.not_true, Bool.false_eq_true, and_false,
    if_false, if_true, and_self]
  split_ifs with hdup
  · exact ⟨_, rfl, hst1, hcore1⟩
  · obtain ⟨m, hm, hmst, hmlk⟩ :=
      check_state_failover_alone (tipc_node_fsm_evt n PEER_ESTABL_CONTACT_EVT) hdr
    rw [hm]
    dsimp only
    have hmu : m.state = SELF_UP_PEER_UP := hmst.trans hst1
    rw [if_neg (fun h => absurd (hmu.symm.trans h.1) (by decide))]
    have hlm : node_link m b = some l := by
      rw [node_link_eq_of_links _ _ hmlk, node_link_eq_of_links _ _ (fsm_evt_links _ _)]
      exact hl
    obtain ⟨n', hn', hst', hcore'⟩ := check_state_synch_alone m hdr b l hmu hlm
    refine ⟨n', congrArg some hn', hst', fun j => ?_⟩
    rw [hcore' j, link_core_of_links _ _ hmlk]
    exact hcore1 j

/-- C23: a node in SELF_DOWN_PEER_DOWN with no active link (both slots invalid,
fewer than two working links counted) has one link, on bearer B, which the
link layer has brought up. tipc_node_link_up on B yields SELF_UP_PEER_COMING;
a packet then received on B whose header asserts that the peer has the link up
is admitted by tipc_node_check_state and yields SELF_UP_PEER_UP; and
tipc_node_link_down on B then yields SELF_DOWN_PEER_LEAVING, with the node no
longer up. -/
theorem single_link_up_then_down (n : tipc_node) (hdr : tipc_msg) (bearer_id : Nat)
    (l : tipc_link)
    (hs : n.state = SELF_DOWN_PEER_DOWN)
    (hslots : n.active_links = (INVALID_BEARER_ID, INVALID_BEARER_ID))
    (hw : n.working_links < 2)
    (hl : node_link n bearer_id = some l) (hup : l.up = true)
    (hsingle : ∀ j, j ≠ bearer_id → node_link n j = none)
    (hpeer : msg_peer_link_is_up hdr = true) :
    ∃ n1 n2 n3, tipc_node_link_up n bearer_id = some n1 ∧
      n1.state = SELF_UP_PEER_COMING ∧
      tipc_node_check_state n1 hdr bearer_id = some (true, n2) ∧
      n2.state = SELF_UP_PEER_UP ∧
      tipc_node_link_down n2 bearer_id = some n3 ∧
      n3.state = SELF_DOWN_PEER_LEAVING ∧
      tipc_node_is_up n3 = false := by
  have hol : node_active_link n 0 = none := by
    unfold node_active_link
    simp [hslots]
  obtain ⟨n1, hn1, -, hl1, hst1, -, -⟩ := link_up_first_link n bearer_id l hw hol hl
  obtain ⟨n1', hn1', -, -, hsome1, -⟩ := link_up_accepted n bearer_id l (by omega) hl
  rw [hn1] at hn1'
  cases hn1'
  have hs1 : n1.state = SELF_UP_PEER_COMING := by
    rw [hst1, fsm_evt_state, hs]
    rfl
  have hsingle1 : ∀ j, j ≠ bearer_id → node_link n1 j = none := by
    intro j hj
    have := hsome1 j
    rw [hsingle j hj] at this
    cases h : node_link n1 j with
    | none => rfl
    | some q =>
      rw [h] at this
      cases this
  obtain ⟨n2, hn2, hs2, hcore2⟩ := check_state_coming_alone n1 hdr bearer_id
    { l with exec_mode := .TIPC_LINK_OPEN } hs1 hl1 hup hsingle1 hpeer
  obtain ⟨l2, hl2, hup2, -⟩ := link_core_some n1 n2 bearer_id _ (hcore2 bearer_id) hl1
  have hsingle2 : ∀ j, j ≠ bearer_id → node_link n2 j = none := by
    intro j hj
    have := link_core_isSome n1 n2 j (hcore2 j)
    rw [hsingle1 j hj] at this
    cases h : node_link n2 j with
    | none => rfl
    | some q =>
      rw [h] at this
      cases this
  obtain ⟨n3, hn3, -, hup3, -, hs3⟩ := link_down_last_link n2 bearer_id l2 hl2
    (hup2.trans hup) hsingle2
  refine ⟨n1, n2, n3, hn1, hs1, hn2, hs2, hn3, ?_, hup3⟩
  rw [hs3, fsm_evt_state, hs2]
  rfl

theorem single_link_up_then_down_witness :
    ∃ n1 n2 n3,
      tipc_node_link_up { sample_node with
          state := SELF_DOWN_PEER_DOWN,
          link_cnt := 1,
          links := [{ link := some { sample_link 0 5 with up := true }, mtu := 0 },
                    { link := none, mtu := 0 }, { link := none, mtu := 0 }] } 0 = some n1 ∧
      n1.state = SELF_UP_PEER_COMING ∧
      tipc_node_check_state n1 (sample_hdr 1 true true) 0 = some (true, n2) ∧
      n2.state = SELF_UP_PEER_UP ∧
      tipc_node_link_down n2 0 = some n3 ∧
      n3.state = SELF_DOWN_PEER_LEAVING ∧
      tipc_node_is_up n3 = false :=
  single_link_up_then_down { sample_node with
      state := SELF_DOWN_PEER_DOWN,
      link_cnt := 1,
      links := [{ link := some { sample_link 0 5 with up := true }, mtu := 0 },
                { link := none, mtu := 0 }, { link := none, mtu := 0 }] }
    (sample_hdr 1 true true) 0 { sample_link 0 5 with up := true }
    rfl rfl (by decide) rfl rfl
    (by
      intro j hj
      match j, hj with
      | 0, hj => exact absurd rfl hj
      | 1, _ => rfl
      | 2, _ => rfl
      | j + 3, _ => rfl)
    rfl
/-! ## Lookup and creation in the node registry -/

theorem node_htable_lookup_some (nodes : List tipc_node) (addr : Nat) :
    ∀ (chain : List Nat) (p : Nat), node_htable_lookup nodes addr chain = some p →
      p ∈ chain ∧ ∃ node, nodes[p]? = some node ∧ node.addr = addr := by
  intro chain
  induction chain with
  | nil =>
    intro p h
    simp [node_htable_lookup] at h
  | cons t ts ih =>
    intro p h
    unfold node_htable_lookup at h
    cases ht : nodes[t]? with
    | none =>
      rw [ht] at h
      obtain ⟨h1, h2⟩ := ih p h
      exact ⟨List.mem_cons_of_mem _ h1, h2⟩
    | some node =>
      rw [ht] at h
      dsimp only at h
      split_ifs at h with ha
      · cases h
        exact ⟨List.mem_cons_self _ _, node, ht, ha⟩
      · obtain ⟨h1, h2⟩ := ih p h
        exact ⟨List.mem_cons_of_mem _ h1, h2⟩

theorem node_htable_lookup_none (nodes : List tipc_node) (addr : Nat) :
    ∀ (chain : List Nat), node_htable_lookup nodes addr chain = none ↔
      ∀ p ∈ chain, node_has_addr nodes addr p = false := by
  intro chain
  induction chain with
  | nil => simp [node_htable_lookup]
  | cons t ts ih =>
    unfold node_htable_lookup
    cases ht : nodes[t]? with
    | none =>
      dsimp only
      rw [ih]
      simp [node_has_addr, ht]
    | some node =>
      dsimp only
      by_cases ha : node.addr = addr
      · rw [if_pos ha]
        simp [node_has_addr, ht, ha]
      · rw [if_neg ha, ih]
        simp [node_has_addr, ht, ha]

theorem node_has_addr_iff (nodes : List tipc_node) (addr p : Nat) :
    node_has_addr nodes addr p = true ↔ ∃ node, nodes[p]? = some node ∧ node.addr = addr := by
  unfold node_has_addr
  cases nodes[p]? with
  | none => simp
  | some node => simp

theorem node_find_outside (tn : tipc_net) (addr : Nat)
    (hc : tn.in_own_cluster_exact addr = false) : tipc_node_find tn addr = (none, tn) := by
  unfold tipc_node_find
  rw [hc]
  rfl

theorem node_find_inside (tn : tipc_net) (addr : Nat)
    (hc : tn.in_own_cluster_exact addr = true) :
    tipc_node_find tn addr =
      match node_htable_lookup tn.nodes addr
          (tn.node_htable.getD (tipc_hashfn tn.node_htable.length addr) []) with
      | some p => (some p, { tn with nodes := tn.nodes.modify tipc_node_get p })
      | none => (none, tn) := by
  unfold tipc_node_find
  rw [hc]
  rfl

theorem node_find_none (tn : tipc_net) (addr : Nat) (h : (tipc_node_find tn addr).1 = none) :
    tipc_node_find tn addr = (none, tn) := by
  cases hc : tn.in_own_cluster_exact addr with
  | false => exact node_find_outside tn addr hc
  | true =>
    rw [node_find_inside tn addr hc] at h ⊢
    cases hl : node_htable_lookup tn.nodes addr
        (tn.node_htable.getD (tipc_hashfn tn.node_htable.length addr) []) with
    | none => rfl
    | some p =>
      rw [hl] at h
      cases h

theorem node_find_some (tn : tipc_net) (addr p : Nat)
    (h : (tipc_node_find tn addr).1 = some p) :
    tn.in_own_cluster_exact addr = true ∧
    node_htable_lookup tn.nodes addr
      (tn.node_htable.getD (tipc_hashfn tn.node_htable.length addr) []) = some p ∧
    tipc_node_find tn addr = (some p, { tn with nodes := tn.nodes.modify tipc_node_get p }) := by
  cases hc : tn.in_own_cluster_exact addr with
  | false =>
    rw [node_find_outside tn addr hc] at h
    cases h
  | true =>
    rw [node_find_inside tn addr hc] at h ⊢
    cases hl : node_htable_lookup tn.nodes addr
        (tn.node_htable.getD (tipc_hashfn tn.node_htable.length addr) []) with
    | none =>
      rw [hl] at h
      cases h
    | some q =>
      rw [hl] at h
      have hq : q = p := Option.some.inj h
      subst hq
      exact ⟨rfl, rfl, rfl⟩

/-- C28: tipc_node_find(addr) returns a node exactly when addr lies in the own
cluster and the hash chain of index addr & (NODE_HTABLE_SIZE - 1) holds a node
with that address; the node returned has address addr, holds one reference
more than before and is otherwise as it was, and no other node is touched;
when nothing is returned no node is touched; and the hash table and the node
list are the same afterwards in every case. -/
theorem node_find_spec (tn : tipc_net) (addr : Nat) :
    ((tipc_node_find tn addr).1.isSome = true ↔
      tn.in_own_cluster_exact addr = true ∧
      ∃ p ∈ tn.node_htable.getD (addr &&& (tn.node_htable.length - 1)) [],
        node_has_addr tn.nodes addr p = true) ∧
    (∀ p, (tipc_node_find tn addr).1 = some p →
      ∃ node, tn.nodes[p]? = some node ∧ node.addr = addr ∧
        (tipc_node_find tn addr).2.nodes[p]? = some { node with kref := node.kref + 1 } ∧
        ∀ q, q ≠ p → (tipc_node_find tn addr).2.nodes[q]? = tn.nodes[q]?) ∧
    ((tipc_node_find tn addr).1 = none → (tipc_node_find tn addr).2.nodes = tn.nodes) ∧
    (tipc_node_find tn addr).2.node_htable = tn.node_htable ∧
    (tipc_node_find tn addr).2.node_list = tn.node_list := by
  refine ⟨?_, ?_, ?_, ?_, ?_⟩
  · constructor
    · intro h
      cases hp : (tipc_node_find tn addr).1 with
      | none =>
        rw [hp] at h
        cases h
      | some p =>
        obtain ⟨hc, hl, -⟩ := node_find_some tn addr p hp
        obtain ⟨hmem, hnode⟩ := node_htable_lookup_some tn.nodes addr _ p hl
        exact ⟨hc, p, hmem, (node_has_addr_iff _ _ _).2 hnode⟩
    · rintro ⟨hc, p, hmem, hp⟩
      cases hf : (tipc_node_find tn addr).1 with
      | some q => rfl
      | none =>
        have hn := node_find_none tn addr hf
        rw [node_find_inside tn addr hc] at hn
        cases hl : node_htable_lookup tn.nodes addr
            (tn.node_htable.getD (tipc_hashfn tn.node_htable.length addr) []) with
        | none =>
          have := (node_htable_lookup_none tn.nodes addr _).1 hl p hmem
          rw [this] at hp
          cases hp
        | some q =>
          rw [hl] at hn
          cases hn
  · intro p hp
    obtain ⟨-, hl, he⟩ := node_find_some tn addr p hp
    obtain ⟨-, node, hnode, ha⟩ := node_htable_lookup_some tn.nodes addr _ p hl
    refine ⟨node, hnode, ha, ?_, fun q hq => ?_⟩
    · rw [he]
      dsimp only
      rw [List.getElem?_modify, hnode]
      simp [tipc_node_get]
    · rw [he]
      dsimp only
      rw [List.getElem?_modify]
      simp [Ne.symm hq]
  · intro hn
    rw [node_find_none tn addr hn]
  · cases hp : (tipc_node_find tn addr).1 with
    | none => rw [node_find_none tn addr hp]
    | some p => rw [(node_find_some tn addr p hp).2.2]
  · cases hp : (tipc_node_find tn addr).1 with
    | none => rw [node_find_none tn addr hp]
    | some p => rw [(node_find_some tn addr p hp).2.2]

/-- The result of tipc_node_create for an address that tipc_node_find does not
find, when the allocation succeeds. -/
theorem node_create_new (tn : tipc_net) (addr : Nat)
    (hnew : (tipc_node_find tn addr).1 = none) (halloc : tn.kzalloc_ok.headD true = true) :
    tipc_node_create tn addr = (some tn.nodes.length, registry_add tn addr) := by
  unfold tipc_node_create
  rw [node_find_none tn addr hnew]
  dsimp only
  rw [halloc]
  rfl

/-- C29: for every address that tipc_node_find does not find, when the
allocation succeeds, tipc_node_create returns a new node object with that
address whose FSM state is SELF_DOWN_PEER_LEAVING, whose active slots are both
INVALID_BEARER_ID, so that tipc_node_is_up is false, whose keepalive interval
is U32_MAX, whose timer is not armed and whose reference count is 2. -/
theorem node_create_initial_node (tn : tipc_net) (addr : Nat)
    (hnew : (tipc_node_find tn addr).1 = none) (halloc : tn.kzalloc_ok.headD true = true) :
    ∃ p tn' node, tipc_node_create tn addr = (some p, tn') ∧
      tn.nodes[p]? = none ∧ tn'.nodes[p]? = some node ∧
      node.addr = addr ∧
      node.state = SELF_DOWN_PEER_LEAVING ∧
      node.active_links = (INVALID_BEARER_ID, INVALID_BEARER_ID) ∧
      tipc_node_is_up node = false ∧
      node.keepalive_intv = U32_MAX ∧
      node.timer_pending = false ∧
      node.kref = 2 := by
  refine ⟨_, _, tipc_node_alloc tn.max_bearers tn.env addr, node_create_new tn addr hnew halloc,
    ?_, ?_, rfl, rfl, rfl, rfl, rfl, rfl, rfl⟩
  · exact List.getElem?_eq_none (Nat.le_refl _)
  · exact List.getElem?_concat_length _ _

theorem node_create_initial_node_witness :
    ∃ p tn' node, tipc_node_create sample_registry 0x1001005 = (some p, tn') ∧
      sample_registry.nodes[p]? = none ∧ tn'.nodes[p]? = some node ∧
      node.addr = 0x1001005 ∧
      node.state = SELF_DOWN_PEER_LEAVING ∧
      node.active_links = (INVALID_BEARER_ID, INVALID_BEARER_ID) ∧
      tipc_node_is_up node = false ∧
      node.keepalive_intv = U32_MAX ∧
      node.timer_pending = false ∧
      node.kref = 2 :=
  node_create_initial_node sample_registry 0x1001005 rfl rfl
/-! ## Well-formed registries -/

theorem node_has_addr_modify_get (nodes : List tipc_node) (addr p q : Nat) :
    node_has_addr (nodes.modify tipc_node_get p) addr q = node_has_addr nodes addr q := by
  unfold node_has_addr
  rw [List.getElem?_modify]
  cases nodes[q]? with
  | none => rfl
  | some node =>
    by_cases h : p = q
    · simp [h, tipc_node_get]
    · simp [h]

theorem node_has_addr_append_old (nodes : List tipc_node) (new : tipc_node) (addr q : Nat)
    (hq : q < nodes.length) :
    node_has_addr (nodes ++ [new]) addr q = node_has_addr nodes addr q := by
  unfold node_has_addr
  rw [List.getElem?_append_left hq]

theorem node_has_addr_append_new (nodes : List tipc_node) (new : tipc_node) (addr : Nat) :
    node_has_addr (nodes ++ [new]) addr nodes.length = (new.addr == addr) := by
  unfold node_has_addr
  rw [List.getElem?_concat_length]

theorem node_has_addr_invalid (nodes : List tipc_node) (addr q : Nat)
    (hq : nodes.length ≤ q) : node_has_addr nodes addr q = false := by
  unfold node_has_addr
  rw [List.getElem?_eq_none hq]

theorem node_list_insert_perm (nodes : List tipc_node) (p addr : Nat) :
    ∀ L : List Nat, (node_list_insert nodes p addr L).Perm (p :: L) := by
  intro L
  induction L with
  | nil => exact List.Perm.refl _
  | cons t ts ih =>
    unfold node_list_insert
    cases nodes[t]? with
    | none => exact (List.Perm.cons t ih).trans (List.Perm.swap p t ts)
    | some temp_node =>
      dsimp only
      split_ifs
      · exact List.Perm.refl _
      · exact (List.Perm.cons t ih).trans (List.Perm.swap p t ts)

theorem htable_modify_sum (g : List Nat → Nat) (p c : Nat)
    (hg : ∀ chain, g (p :: chain) = g chain + c) :
    ∀ (H : List (List Nat)) (i : Nat), i < H.length →
      ((H.modify (fun chain => p :: chain) i).map g).sum = (H.map g).sum + c := by
  intro H
  induction H with
  | nil =>
    intro i hi
    simp at hi
  | cons ch H ih =>
    intro i hi
    cases i with
    | zero =>
      rw [List.modify_zero_cons, List.map_cons, List.sum_cons, List.map_cons, List.sum_cons, hg]
      omega
    | succ i =>
      rw [List.modify_succ_cons, List.map_cons, List.sum_cons, List.map_cons, List.sum_cons,
        ih i (by simpa using hi)]
      omega

theorem htable_modify_getD (H : List (List Nat)) (p i j : Nat) :
    (H.modify (fun chain => p :: chain) i).getD j [] =
      if i = j ∧ j < H.length then p :: H.getD j [] else H.getD j [] := by
  rw [List.getD_eq_getElem?_getD, List.getD_eq_getElem?_getD, List.getElem?_modify]
  by_cases hj : j < H.length
  · rw [List.getElem?_eq_getElem hj]
    by_cases hij : i = j
    · simp [hij, hj]
    · simp [hij]
  · rw [List.getElem?_eq_none (by omega)]
    simp [hj]

theorem tipc_hashfn_lt (size addr : Nat) (h : 0 < size) : tipc_hashfn size addr < size := by
  unfold tipc_hashfn
  have := @Nat.and_le_right addr (size - 1)
  omega

theorem countP_congr_count (P Q : Nat → Bool) (L : List Nat) (h : ∀ x ∈ L, P x = Q x) :
    L.countP P = L.countP Q :=
  List.countP_congr fun x hx => by rw [h x hx]
theorem node_has_addr_modify_get_fun (nodes : List tipc_node) (addr p : Nat) :
    node_has_addr (nodes.modify tipc_node_get p) addr = node_has_addr nodes addr :=
  funext fun q => node_has_addr_modify_get nodes addr p q

theorem registry_wf_get (tn : tipc_net) (p : Nat) (h : registry_wf tn) :
    registry_wf { tn with nodes := tn.nodes.modify tipc_node_get p } ∧
    ∀ addr, node_list_count { tn with nodes := tn.nodes.modify tipc_node_get p } addr =
        node_list_count tn addr ∧
      node_htable_count { tn with nodes := tn.nodes.modify tipc_node_get p } addr =
        node_htable_count tn addr := by
  have hc : ∀ addr, node_list_count { tn with nodes := tn.nodes.modify tipc_node_get p } addr =
        node_list_count tn addr ∧
      node_htable_count { tn with nodes := tn.nodes.modify tipc_node_get p } addr =
        node_htable_count tn addr := by
    intro addr
    unfold node_list_count node_htable_count
    dsimp only
    rw [node_has_addr_modify_get_fun]
    exact ⟨rfl, rfl⟩
  refine ⟨?_, hc⟩
  obtain ⟨h1, h2, h3, h4⟩ := h
  refine ⟨h1, ?_, ?_, ?_⟩
  · intro q hq
    dsimp only
    rw [List.length_modify]
    exact h2 q hq
  · intro chain hch q hq
    dsimp only
    rw [List.length_modify]
    exact h3 chain hch q hq
  · intro addr ha
    obtain ⟨g1, g2, g3⟩ := h4 addr ha
    rw [(hc addr).1, (hc addr).2]
    refine ⟨g1, g2, ?_⟩
    dsimp only
    rw [node_has_addr_modify_get_fun]
    exact g3

theorem htable_getD_mem (H : List (List Nat)) (j q : Nat) (hq : q ∈ H.getD j []) :
    H.getD j [] ∈ H := by
  rw [List.getD_eq_getElem?_getD] at hq ⊢
  by_cases hj : j < H.length
  · rw [List.getElem?_eq_getElem hj] at hq ⊢
    exact List.getElem_mem hj
  · rw [List.getElem?_eq_none (by omega)] at hq
    simp at hq

/-- How the counts of an address change when a node is allocated and linked
in. -/
theorem registry_add_counts (tn : tipc_net) (addr : Nat) (h : registry_wf tn) (a : Nat) :
    node_list_count (registry_add tn addr) a =
      node_list_count tn a + (if addr = a then 1 else 0) ∧
    node_htable_count (registry_add tn addr) a =
      node_htable_count tn a + (if addr = a then 1 else 0) ∧
    ((registry_add tn addr).node_htable.getD
        (tipc_hashfn (registry_add tn addr).node_htable.length a) []).countP
        (node_has_addr (registry_add tn addr).nodes a) =
      (tn.node_htable.getD (tipc_hashfn tn.node_htable.length a) []).countP
        (node_has_addr tn.nodes a) +
      (if tipc_hashfn tn.node_htable.length addr = tipc_hashfn tn.node_htable.length a ∧
          addr = a then 1 else 0) := by
  obtain ⟨h1, h2, h3, -⟩ := h
  have hnew : node_has_addr (tn.nodes ++ [tipc_node_alloc tn.max_bearers tn.env addr]) a
      tn.nodes.length = decide (addr = a) := by
    rw [node_has_addr_append_new]
    rfl
  have hflag : (if node_has_addr (tn.nodes ++ [tipc_node_alloc tn.max_bearers tn.env addr]) a
      tn.nodes.length = true then 1 else 0) = (if addr = a then 1 else 0) := by
    rw [hnew]
    simp
  have hold : ∀ chain : List Nat, (∀ q ∈ chain, q < tn.nodes.length) →
      chain.countP (node_has_addr (tn.nodes ++ [tipc_node_alloc tn.max_bearers tn.env addr]) a) =
        chain.countP (node_has_addr tn.nodes a) := fun chain hv =>
    countP_congr_count _ _ chain fun q hq => node_has_addr_append_old _ _ _ _ (hv q hq)
  refine ⟨?_, ?_, ?_⟩
  · unfold node_list_count registry_add
    dsimp only
    rw [(node_list_insert_perm tn.nodes tn.nodes.length addr tn.node_list).countP_eq,
      List.countP_cons, hflag, hold tn.node_list h2]
  · unfold node_htable_count registry_add
    dsimp only
    rw [htable_modify_sum _ tn.nodes.length (if addr = a then 1 else 0)
      (fun chain => by rw [List.countP_cons, hflag]) tn.node_htable _
      (tipc_hashfn_lt _ _ h1)]
    congr 2
    apply List.map_congr_left
    intro chain hch
    exact hold chain (h3 chain hch)
  · unfold registry_add
    dsimp only
    rw [List.length_modify, htable_modify_getD]
    have hvalid : ∀ q ∈ tn.node_htable.getD (tipc_hashfn tn.node_htable.length a) [],
        q < tn.nodes.length := fun q hq =>
      h3 _ (htable_getD_mem _ _ q hq) q hq
    by_cases hh : tipc_hashfn tn.node_htable.length addr = tipc_hashfn tn.node_htable.length a
    · rw [if_pos ⟨hh, tipc_hashfn_lt _ _ h1⟩, List.countP_cons, hflag, hold _ hvalid]
      by_cases ha : addr = a
      · rw [if_pos ha, if_pos ⟨hh, ha⟩]
      · rw [if_neg ha, if_neg (fun h => ha h.2)]
    · rw [if_neg (fun h => hh h.1), if_neg (fun h => hh h.1), hold _ hvalid]
      rfl
theorem htable_modify_mem (p : Nat) :
    ∀ (H : List (List Nat)) (i : Nat) (chain : List Nat),
      chain ∈ H.modify (fun c => p :: c) i → chain ∈ H ∨ ∃ c ∈ H, chain = p :: c := by
  intro H
  induction H with
  | nil =>
    intro i chain h
    simp at h
  | cons ch H ih =>
    intro i chain h
    cases i with
    | zero =>
      rw [List.modify_zero_cons, List.mem_cons] at h
      rcases h with h | h
      · exact Or.inr ⟨ch, List.mem_cons_self _ _, h⟩
      · exact Or.inl (List.mem_cons_of_mem _ h)
    | succ i =>
      rw [List.modify_succ_cons, List.mem_cons] at h
      rcases h with h | h
      · exact Or.inl (h ▸ List.mem_cons_self _ _)
      · rcases ih i chain h with h' | ⟨c, hc, he⟩
        · exact Or.inl (List.mem_cons_of_mem _ h')
        · exact Or.inr ⟨c, List.mem_cons_of_mem _ hc, he⟩

theorem node_find_none_lookup (tn : tipc_net) (addr : Nat)
    (hc : tn.in_own_cluster_exact addr = true) (h : (tipc_node_find tn addr).1 = none) :
    node_htable_lookup tn.nodes addr
      (tn.node_htable.getD (tipc_hashfn tn.node_htable.length addr) []) = none := by
  rw [node_find_inside tn addr hc] at h
  cases hl : node_htable_lookup tn.nodes addr
      (tn.node_htable.getD (tipc_hashfn tn.node_htable.length addr) []) with
  | none => rfl
  | some p =>
    rw [hl] at h
    cases h

theorem node_find_none_count (tn : tipc_net) (addr : Nat) (hwf : registry_wf tn)
    (hc : tn.in_own_cluster_exact addr = true) (h : (tipc_node_find tn addr).1 = none) :
    node_list_count tn addr = 0 := by
  have hl := node_find_none_lookup tn addr hc h
  rw [node_htable_lookup_none] at hl
  rw [← (hwf.2.2.2 addr hc).2.2, List.countP_eq_zero]
  intro q hq
  rw [hl q hq]
  decide

theorem registry_wf_add (tn : tipc_net) (addr : Nat) (hwf : registry_wf tn)
    (hnew : (tipc_node_find tn addr).1 = none) : registry_wf (registry_add tn addr) := by
  have hcnt := registry_add_counts tn addr hwf
  obtain ⟨h1, h2, h3, h4⟩ := hwf
  refine ⟨?_, ?_, ?_, ?_⟩
  · unfold registry_add
    dsimp only
    rw [List.length_modify]
    exact h1
  · intro q hq
    unfold registry_add at hq ⊢
    dsimp only at hq ⊢
    rw [(node_list_insert_perm _ _ _ _).mem_iff, List.mem_cons] at hq
    rw [List.length_append, List.length_singleton]
    rcases hq with hq | hq
    · omega
    · have := h2 q hq
      omega
  · intro chain hch q hq
    unfold registry_add at hch ⊢
    dsimp only at hch ⊢
    rw [List.length_append, List.length_singleton]
    rcases htable_modify_mem _ _ _ _ hch with h | ⟨c, hc, he⟩
    · have := h3 chain h q hq
      omega
    · rw [he, List.mem_cons] at hq
      rcases hq with hq | hq
      · omega
      · have := h3 c hc q hq
        omega
  · intro a ha
    have ha' : tn.in_own_cluster_exact a = true := ha
    obtain ⟨g1, g2, g3⟩ := h4 a ha'
    obtain ⟨c1, c2, c3⟩ := hcnt a
    rw [c1, c2, c3, g2, g3]
    by_cases hae : addr = a
    · subst hae
      have hz := node_find_none_count tn addr ⟨h1, h2, h3, h4⟩ ha' hnew
      rw [hz, if_pos rfl, if_pos ⟨rfl, rfl⟩]
      exact ⟨Nat.le_refl _, rfl, rfl⟩
    · rw [if_neg hae, if_neg (fun h => hae h.2)]
      exact ⟨g1, rfl, rfl⟩

theorem node_create_found (tn : tipc_net) (addr p : Nat)
    (h : (tipc_node_find tn addr).1 = some p) :
    tipc_node_create tn addr =
      (some p, { tn with nodes := tn.nodes.modify tipc_node_get p }) := by
  unfold tipc_node_create
  rw [(node_find_some tn addr p h).2.2]

theorem node_create_failed (tn : tipc_net) (addr : Nat)
    (hnew : (tipc_node_find tn addr).1 = none) (halloc : tn.kzalloc_ok.headD true = false) :
    tipc_node_create tn addr =
      (none, { tn with kzalloc_ok := tn.kzalloc_ok.tail,
                       klog := tn.klog ++ [.node_creation_failed] }) := by
  unfold tipc_node_create
  rw [node_find_none tn addr hnew]
  dsimp only
  rw [halloc]
  rfl

/-- Every call of tipc_node_create leaves a well-formed registry well-formed. -/
theorem registry_wf_create (tn : tipc_net) (addr : Nat) (hwf : registry_wf tn) :
    registry_wf (tipc_node_create tn addr).2 := by
  cases hf : (tipc_node_find tn addr).1 with
  | some p =>
    rw [node_create_found tn addr p hf]
    exact (registry_wf_get tn p hwf).1
  | none =>
    cases ha : tn.kzalloc_ok.headD true with
    | true =>
      rw [node_create_new tn addr hf ha]
      exact registry_wf_add tn addr hwf hf
    | false =>
      rw [node_create_failed tn addr hf ha]
      exact hwf

theorem empty_registry_wf (env : tipc_net_env) (cl : Nat → Bool) (mb size : Nat)
    (kz : List Bool) (hsize : 0 < size) : registry_wf (empty_registry env cl mb size kz) := by
  refine ⟨?_, ?_, ?_, ?_⟩
  · unfold empty_registry
    dsimp only
    rw [List.length_replicate]
    exact hsize
  · intro p hp
    cases hp
  · intro chain hch p hp
    unfold empty_registry at hch
    dsimp only at hch
    rw [List.mem_replicate] at hch
    rw [hch.2] at hp
    cases hp
  · intro addr _
    have hl : node_list_count (empty_registry env cl mb size kz) addr = 0 := rfl
    rw [hl]
    refine ⟨Nat.zero_le _, ?_, ?_⟩
    · unfold node_htable_count empty_registry
      dsimp only
      rw [List.map_replicate]
      simp
    · rw [List.countP_eq_zero]
      intro q hq
      have hm := htable_getD_mem _ _ q hq
      have he : (empty_registry env cl mb size kz).node_htable.getD
          (tipc_hashfn (empty_registry env cl mb size kz).node_htable.length addr) [] = [] :=
        (List.mem_replicate.1 hm).2
      rw [he] at hq
      cases hq

theorem registry_wf_creates (addrs : List Nat) :
    ∀ tn, registry_wf tn → registry_wf (exec_creates tn addrs) := by
  induction addrs with
  | nil => exact fun tn h => h
  | cons a as ih =>
    intro tn h
    unfold exec_creates
    exact ih _ (registry_wf_create tn a h)
/-! ## Creating a node twice -/

theorem node_htable_lookup_modify_get (nodes : List tipc_node) (addr p : Nat) :
    ∀ chain : List Nat, node_htable_lookup (nodes.modify tipc_node_get p) addr chain =
      node_htable_lookup nodes addr chain := by
  intro chain
  induction chain with
  | nil => rfl
  | cons t ts ih =>
    unfold node_htable_lookup
    rw [List.getElem?_modify, ih]
    cases nodes[t]? with
    | none => rfl
    | some node =>
      by_cases h : p = t
      · simp [h, tipc_node_get]
      · simp [h]

theorem node_find_hit_again (tn : tipc_net) (addr p : Nat)
    (h : (tipc_node_find tn addr).1 = some p) :
    (tipc_node_find { tn with nodes := tn.nodes.modify tipc_node_get p } addr).1 = some p := by
  obtain ⟨hc, hl, -⟩ := node_find_some tn addr p h
  rw [node_find_inside { tn with nodes := tn.nodes.modify tipc_node_get p } addr hc]
  dsimp only
  rw [node_htable_lookup_modify_get, hl]

theorem node_find_after_add (tn : tipc_net) (addr : Nat)
    (hc : tn.in_own_cluster_exact addr = true) (hsize : 0 < tn.node_htable.length) :
    (tipc_node_find (registry_add tn addr) addr).1 = some tn.nodes.length := by
  rw [node_find_inside (registry_add tn addr) addr hc]
  have hch : (registry_add tn addr).node_htable.getD
      (tipc_hashfn (registry_add tn addr).node_htable.length addr) [] =
      tn.nodes.length :: tn.node_htable.getD (tipc_hashfn tn.node_htable.length addr) [] := by
    unfold registry_add
    dsimp only
    rw [List.length_modify, htable_modify_getD, if_pos ⟨rfl, tipc_hashfn_lt _ _ hsize⟩]
  rw [hch]
  have hn : (registry_add tn addr).nodes[tn.nodes.length]? =
      some (tipc_node_alloc tn.max_bearers tn.env addr) :=
    List.getElem?_concat_length _ _
  have hlk : node_htable_lookup (registry_add tn addr).nodes addr
      (tn.nodes.length :: tn.node_htable.getD (tipc_hashfn tn.node_htable.length addr) []) =
      some tn.nodes.length := by
    unfold node_htable_lookup
    rw [hn]
    exact if_pos rfl
  rw [hlk]

theorem node_find_hit_counts (tn : tipc_net) (addr p : Nat) (hwf : registry_wf tn)
    (h : (tipc_node_find tn addr).1 = some p) :
    node_list_count tn addr = 1 ∧ node_htable_count tn addr = 1 := by
  obtain ⟨hc, hl, -⟩ := node_find_some tn addr p h
  obtain ⟨hmem, hnode⟩ := node_htable_lookup_some tn.nodes addr _ p hl
  obtain ⟨g1, g2, g3⟩ := hwf.2.2.2 addr hc
  have hpos : 0 < (tn.node_htable.getD (tipc_hashfn tn.node_htable.length addr) []).countP
      (node_has_addr tn.nodes addr) :=
    List.countP_pos_iff.2 ⟨p, hmem, (node_has_addr_iff _ _ _).2 hnode⟩
  rw [g3] at hpos
  have h1 : node_list_count tn addr = 1 := by omega
  exact ⟨h1, g2.trans h1⟩

/-- A call of tipc_node_create for an address that tipc_node_find finds: the
node found is returned, the registry stays well-formed with one node of that
address, and the next lookup finds the same node. -/
theorem node_create_hit (tn : tipc_net) (addr p : Nat) (hwf : registry_wf tn)
    (h : (tipc_node_find tn addr).1 = some p) :
    ∃ tn', tipc_node_create tn addr = (some p, tn') ∧ registry_wf tn' ∧
      (tipc_node_find tn' addr).1 = some p ∧
      node_list_count tn' addr = 1 ∧ node_htable_count tn' addr = 1 := by
  obtain ⟨c1, c2⟩ := node_find_hit_counts tn addr p hwf h
  obtain ⟨w, hcnt⟩ := registry_wf_get tn p hwf
  refine ⟨_, node_create_found tn addr p h, w, node_find_hit_again tn addr p h, ?_, ?_⟩
  · rw [(hcnt addr).1]
    exact c1
  · rw [(hcnt addr).2]
    exact c2

/-- C27 as stated fails: for an address outside the own cluster (1.2.5 seen
from 1.1.1) tipc_node_find never finds a node, so the second tipc_node_create
allocates a second node: the calls return the pointers 0 and 1, and the node
list and the hash table then hold two nodes with that address. And when the
allocation fails, both calls return NULL and no node is registered. -/
theorem node_create_twice_outside_cluster :
    sample_registry.in_own_cluster_exact 0x1002005 = false ∧
    (tipc_node_create sample_registry 0x1002005).1 = some 0 ∧
    (tipc_node_create (tipc_node_create sample_registry 0x1002005).2 0x1002005).1 = some 1 ∧
    node_list_count
      (tipc_node_create (tipc_node_create sample_registry 0x1002005).2 0x1002005).2
      0x1002005 = 2 ∧
    node_htable_count
      (tipc_node_create (tipc_node_create sample_registry 0x1002005).2 0x1002005).2
      0x1002005 = 2 ∧
    (tipc_node_create { sample_registry with kzalloc_ok := [false, false] } 0x1001005).1 =
      none ∧
    (tipc_node_create
      (tipc_node_create { sample_registry with kzalloc_ok := [false, false] } 0x1001005).2
      0x1001005).1 = none ∧
    node_list_count
      (tipc_node_create
        (tipc_node_create { sample_registry with kzalloc_ok := [false, false] } 0x1001005).2
        0x1001005).2 0x1001005 = 0 := by
  refine ⟨rfl, rfl, rfl, rfl, rfl, rfl, rfl, rfl⟩

/-- C27, amended: in a well-formed registry, for every address of the own
cluster, when the allocation succeeds in case the node has to be allocated,
two calls of tipc_node_create with that address return the same node, and
afterwards the node list and the hash table each hold exactly one node with
that address. -/
theorem node_create_idempotent (tn : tipc_net) (addr : Nat) (hwf : registry_wf tn)
    (hc : tn.in_own_cluster_exact addr = true)
    (halloc : (tipc_node_find tn addr).1 = none → tn.kzalloc_ok.headD true = true) :
    ∃ p tn1 tn2, tipc_node_create tn addr = (some p, tn1) ∧
      tipc_node_create tn1 addr = (some p, tn2) ∧
      node_list_count tn2 addr = 1 ∧ node_htable_count tn2 addr = 1 := by
  cases hf : (tipc_node_find tn addr).1 with
  | some p =>
    obtain ⟨tn1, h1, w1, f1, -, -⟩ := node_create_hit tn addr p hwf hf
    obtain ⟨tn2, h2, -, -, c1, c2⟩ := node_create_hit tn1 addr p w1 f1
    exact ⟨p, tn1, tn2, h1, h2, c1, c2⟩
  | none =>
    have h1 := node_create_new tn addr hf (halloc hf)
    have w1 := registry_wf_add tn addr hwf hf
    have f1 := node_find_after_add tn addr hc hwf.1
    obtain ⟨tn2, h2, -, -, c1, c2⟩ := node_create_hit _ addr _ w1 f1
    exact ⟨_, _, tn2, h1, h2, c1, c2⟩

theorem node_create_idempotent_witness :
    ∃ p tn1 tn2, tipc_node_create sample_registry 0x1001005 = (some p, tn1) ∧
      tipc_node_create tn1 0x1001005 = (some p, tn2) ∧
      node_list_count tn2 0x1001005 = 1 ∧ node_htable_count tn2 0x1001005 = 1 :=
  node_create_idempotent sample_registry 0x1001005
    (empty_registry_wf _ _ _ _ _ (by decide)) rfl (fun _ => rfl)
/-! ## The address order of the node list -/

theorem node_list_insert_split (nodes : List tipc_node) (p addr : Nat) :
    ∀ L : List Nat, ∃ pre post, node_list_insert nodes p addr L = pre ++ p :: post ∧
      L = pre ++ post ∧
      (∀ q ∈ pre, ∀ node, nodes[q]? = some node → node.addr ≤ addr) ∧
      (∀ t, post.head? = some t → ∃ node, nodes[t]? = some node ∧ addr < node.addr) := by
  intro L
  induction L with
  | nil =>
    exact ⟨[], [], rfl, rfl, (fun q hq => by cases hq), (fun t ht => by cases ht)⟩
  | cons t ts ih =>
    obtain ⟨pre, post, h1, h2, h3, h4⟩ := ih
    unfold node_list_insert
    cases ht : nodes[t]? with
    | none =>
      refine ⟨t :: pre, post, ?_, ?_, ?_, h4⟩
      · dsimp only
        rw [h1]
        rfl
      · rw [h2]
        rfl
      · intro q hq node hn
        rw [List.mem_cons] at hq
        rcases hq with hq | hq
        · rw [hq, ht] at hn
          cases hn
        · exact h3 q hq node hn
    | some temp_node =>
      dsimp only
      by_cases hlt : addr < temp_node.addr
      · rw [if_pos hlt]
        refine ⟨[], t :: ts, rfl, rfl, (fun q hq => by cases hq), fun t' ht' => ?_⟩
        have : t = t' := Option.some.inj ht'
        subst this
        exact ⟨temp_node, ht, hlt⟩
      · rw [if_neg hlt]
        refine ⟨t :: pre, post, ?_, ?_, ?_, h4⟩
        · rw [h1]
          rfl
        · rw [h2]
          rfl
        · intro q hq node hn
          rw [List.mem_cons] at hq
          rcases hq with hq | hq
          · rw [hq, ht] at hn
            have : temp_node = node := Option.some.inj hn
            subst this
            omega
          · exact h3 q hq node hn

theorem registry_addrs_get (tn : tipc_net) (p : Nat) :
    registry_addrs { tn with nodes := tn.nodes.modify tipc_node_get p } = registry_addrs tn := by
  unfold registry_addrs
  dsimp only
  apply List.filterMap_congr
  intro q _
  rw [List.getElem?_modify]
  cases tn.nodes[q]? with
  | none => rfl
  | some node =>
    by_cases h : p = q
    · simp [h, tipc_node_get]
    · simp [h]

theorem filterMap_addr_append_old (nodes : List tipc_node) (new : tipc_node) (L : List Nat)
    (hv : ∀ q ∈ L, q < nodes.length) :
    L.filterMap (fun q => ((nodes ++ [new])[q]?).map (·.addr)) =
      L.filterMap (fun q => (nodes[q]?).map (·.addr)) := by
  apply List.filterMap_congr
  intro q hq
  rw [List.getElem?_append_left (hv q hq)]

theorem registry_add_split (tn : tipc_net) (addr : Nat)
    (hv : ∀ p ∈ tn.node_list, p < tn.nodes.length) :
    ∃ pre post, (registry_add tn addr).node_list = pre ++ tn.nodes.length :: post ∧
      tn.node_list = pre ++ post ∧
      (∀ q ∈ pre, ∀ node, tn.nodes[q]? = some node → node.addr ≤ addr) ∧
      (∀ t, post.head? = some t → ∃ node, tn.nodes[t]? = some node ∧ addr < node.addr) ∧
      registry_addrs (registry_add tn addr) =
        pre.filterMap (fun q => (tn.nodes[q]?).map (·.addr)) ++
          addr :: post.filterMap (fun q => (tn.nodes[q]?).map (·.addr)) := by
  obtain ⟨pre, post, h1, h2, h3, h4⟩ :=
    node_list_insert_split tn.nodes tn.nodes.length addr tn.node_list
  refine ⟨pre, post, h1, h2, h3, h4, ?_⟩
  have hvpre : ∀ q ∈ pre, q < tn.nodes.length := fun q hq =>
    hv q (by rw [h2]; exact List.mem_append_left _ hq)
  have hvpost : ∀ q ∈ post, q < tn.nodes.length := fun q hq =>
    hv q (by rw [h2]; exact List.mem_append_right _ hq)
  have hl : (registry_add tn addr).node_list = pre ++ tn.nodes.length :: post := h1
  unfold registry_addrs
  rw [hl, List.filterMap_append, List.filterMap_cons]
  have hn : (registry_add tn addr).nodes =
      tn.nodes ++ [tipc_node_alloc tn.max_bearers tn.env addr] := rfl
  rw [hn, List.getElem?_concat_length, filterMap_addr_append_old _ _ pre hvpre,
    filterMap_addr_append_old _ _ post hvpost]
  rfl

theorem registry_add_sorted (tn : tipc_net) (addr : Nat)
    (hv : ∀ p ∈ tn.node_list, p < tn.nodes.length) (hs : node_list_sorted tn) :
    node_list_sorted (registry_add tn addr) := by
  obtain ⟨pre, post, -, h2, h3, h4, h5⟩ := registry_add_split tn addr hv
  unfold node_list_sorted at hs ⊢
  rw [h5]
  unfold registry_addrs at hs
  rw [h2, List.filterMap_append, List.pairwise_append] at hs
  obtain ⟨s1, s2, s3⟩ := hs
  have hpre : ∀ a ∈ pre.filterMap (fun q => (tn.nodes[q]?).map (·.addr)), a ≤ addr := by
    intro a ha
    rw [List.mem_filterMap] at ha
    obtain ⟨q, hq, hqa⟩ := ha
    cases hn : tn.nodes[q]? with
    | none =>
      rw [hn] at hqa
      cases hqa
    | some node =>
      rw [hn] at hqa
      have := h3 q hq node hn
      have hqa' : node.addr = a := Option.some.inj hqa
      omega
  have hpost : ∀ b ∈ post.filterMap (fun q => (tn.nodes[q]?).map (·.addr)), addr ≤ b := by
    cases post with
    | nil =>
      intro b hb
      cases hb
    | cons t ts =>
      obtain ⟨node, hn, hlt⟩ := h4 t rfl
      rw [List.filterMap_cons, hn] at s2 ⊢
      dsimp only [Option.map_some'] at s2 ⊢
      rw [List.pairwise_cons] at s2
      intro b hb
      rw [List.mem_cons] at hb
      rcases hb with hb | hb
      · omega
      · have := s2.1 b hb
        omega
  rw [List.pairwise_append]
  refine ⟨s1, ?_, ?_⟩
  · rw [List.pairwise_cons]
    exact ⟨hpost, s2⟩
  · intro a ha b hb
    rw [List.mem_cons] at hb
    rcases hb with hb | hb
    · rw [hb]
      exact hpre a ha
    · exact s3 a ha b hb

/-- Every call of tipc_node_create leaves the pointers of the node list valid
and an address-ordered node list address-ordered. -/
theorem node_create_sorted (tn : tipc_net) (addr : Nat)
    (hv : ∀ p ∈ tn.node_list, p < tn.nodes.length) (hs : node_list_sorted tn) :
    (∀ p ∈ (tipc_node_create tn addr).2.node_list, p < (tipc_node_create tn addr).2.nodes.length) ∧
    node_list_sorted (tipc_node_create tn addr).2 := by
  cases hf : (tipc_node_find tn addr).1 with
  | some p =>
    rw [node_create_found tn addr p hf]
    dsimp only
    refine ⟨fun q hq => ?_, ?_⟩
    · rw [List.length_modify]
      exact hv q hq
    · unfold node_list_sorted
      rw [registry_addrs_get]
      exact hs
  | none =>
    cases ha : tn.kzalloc_ok.headD true with
    | true =>
      rw [node_create_new tn addr hf ha]
      dsimp only
      refine ⟨fun q hq => ?_, registry_add_sorted tn addr hv hs⟩
      have hl : (registry_add tn addr).node_list =
          node_list_insert tn.nodes tn.nodes.length addr tn.node_list := rfl
      have hn : (registry_add tn addr).nodes =
          tn.nodes ++ [tipc_node_alloc tn.max_bearers tn.env addr] := rfl
      rw [hl, (node_list_insert_perm _ _ _ _).mem_iff, List.mem_cons] at hq
      rw [hn, List.length_append, List.length_singleton]
      rcases hq with hq | hq
      · omega
      · have := hv q hq
        omega
    | false =>
      rw [node_create_failed tn addr hf ha]
      exact ⟨hv, hs⟩

theorem exec_creates_sorted (addrs : List Nat) :
    ∀ tn : tipc_net, (∀ p ∈ tn.node_list, p < tn.nodes.length) → node_list_sorted tn →
      node_list_sorted (exec_creates tn addrs) := by
  induction addrs with
  | nil => exact fun tn _ h => h
  | cons a as ih =>
    intro tn hv hs
    unfold exec_creates
    obtain ⟨hv', hs'⟩ := node_create_sorted tn a hv hs
    exact ih _ hv' hs'

/-- C30: if every pointer on the node list refers to a node object and the
list is in ascending order of address before tipc_node_create, then it is in
ascending order afterwards; when the call allocates a node, the new list is
the old one with the new node put in, after nodes whose addresses are not
greater and right before the first node with a greater address, or at the
tail; and the list stays ordered through every run of creates, in particular
through every run that starts from an empty registry. -/
theorem node_create_keeps_list_sorted (tn : tipc_net) (addr : Nat)
    (hv : ∀ p ∈ tn.node_list, p < tn.nodes.length) (hs : node_list_sorted tn) :
    node_list_sorted (tipc_node_create tn addr).2 ∧
    (∀ p, (tipc_node_create tn addr).1 = some p → tn.nodes[p]? = none →
      ∃ pre post, (tipc_node_create tn addr).2.node_list = pre ++ p :: post ∧
        tn.node_list = pre ++ post ∧
        (∀ q ∈ pre, ∀ node, tn.nodes[q]? = some node → node.addr ≤ addr) ∧
        (∀ t, post.head? = some t → ∃ node, tn.nodes[t]? = some node ∧ addr < node.addr)) ∧
    (∀ addrs, node_list_sorted (exec_creates tn addrs)) ∧
    (∀ env cl mb size kz addrs,
      node_list_sorted (exec_creates (empty_registry env cl mb size kz) addrs)) := by
  refine ⟨(node_create_sorted tn addr hv hs).2, ?_, fun addrs => exec_creates_sorted addrs tn hv hs,
    fun env cl mb size kz addrs => exec_creates_sorted addrs _ (fun p hp => by cases hp)
      List.Pairwise.nil⟩
  intro p hp hnew
  cases hf : (tipc_node_find tn addr).1 with
  | some q =>
    rw [node_create_found tn addr q hf] at hp
    have hq : q = p := Option.some.inj hp
    subst hq
    obtain ⟨-, hl, -⟩ := node_find_some tn addr q hf
    obtain ⟨-, node, hnode, -⟩ := node_htable_lookup_some tn.nodes addr _ q hl
    rw [hnode] at hnew
    cases hnew
  | none =>
    cases ha : tn.kzalloc_ok.headD true with
    | false =>
      rw [node_create_failed tn addr hf ha] at hp
      cases hp
    | true =>
      rw [node_create_new tn addr hf ha] at hp ⊢
      have hq : tn.nodes.length = p := Option.some.inj hp
      subst hq
      obtain ⟨pre, post, h1, h2, h3, h4, -⟩ := registry_add_split tn addr hv
      exact ⟨pre, post, h1, h2, h3, h4⟩

theorem node_create_keeps_list_sorted_witness :
    node_list_sorted
      (tipc_node_create (exec_creates sample_registry [0x1001005, 0x1001003]) 0x1001004).2 ∧
    (∀ p, (tipc_node_create (exec_creates sample_registry [0x1001005, 0x1001003])
        0x1001004).1 = some p →
      (exec_creates sample_registry [0x1001005, 0x1001003]).nodes[p]? = none →
      ∃ pre post, (tipc_node_create (exec_creates sample_registry [0x1001005, 0x1001003])
          0x1001004).2.node_list = pre ++ p :: post ∧
        (exec_creates sample_registry [0x1001005, 0x1001003]).node_list = pre ++ post ∧
        (∀ q ∈ pre, ∀ node,
          (exec_creates sample_registry [0x1001005, 0x1001003]).nodes[q]? = some node →
          node.addr ≤ 0x1001004) ∧
        (∀ t, post.head? = some t → ∃ node,
          (exec_creates sample_registry [0x1001005, 0x1001003]).nodes[t]? = some node ∧
          0x1001004 < node.addr)) ∧
    (∀ addrs, node_list_sorted
      (exec_creates (exec_creates sample_registry [0x1001005, 0x1001003]) addrs)) ∧
    (∀ env cl mb size kz addrs,
      node_list_sorted (exec_creates (empty_registry env cl mb size kz) addrs)) :=
  node_create_keeps_list_sorted (exec_creates sample_registry [0x1001005, 0x1001003]) 0x1001004
    (by decide) (by decide)
/-! ## Round trip of a newly created node -/

theorem alloc_attach (mb : Nat) (net : tipc_net_env) (addr : Nat) (l : tipc_link)
    (hb : l.bearer_id < mb) :
    ∃ n1, tipc_node_attach_link (tipc_node_alloc mb net addr) l = some n1 ∧
      node_link n1 l.bearer_id = some l ∧
      (∀ j, j ≠ l.bearer_id → node_link n1 j = none) ∧
      n1.working_links = 0 ∧
      n1.active_links = (INVALID_BEARER_ID, INVALID_BEARER_ID) := by
  have hlinks : (tipc_node_alloc mb net addr).links =
      List.replicate mb { link := none, mtu := 0 } := rfl
  have he : (tipc_node_alloc mb net addr).links[l.bearer_id]? =
      some { link := none, mtu := 0 } := by
    rw [hlinks, List.getElem?_replicate, if_pos hb]
  unfold tipc_node_attach_link
  rw [he]
  refine ⟨_, rfl, ?_, fun j hj => ?_, rfl, rfl⟩
  · unfold node_link
    dsimp only
    rw [List.getElem?_set, if_pos rfl, hlinks, List.length_replicate, if_pos hb]
  · unfold node_link
    dsimp only
    rw [List.getElem?_set, if_neg (fun h => hj h.symm), hlinks, List.getElem?_replicate]
    split_ifs <;> rfl

/-- C22: for every address that tipc_node_find does not find, when the
allocation succeeds: tipc_node_create returns a new node; after a link for a
bearer B of the table has been attached to it, the link layer has brought that
link up and tipc_node_link_up has run for B, and tipc_node_link_down has then
run for B, tipc_node_is_up is false, both active slots are INVALID_BEARER_ID
and working_links is 0 again. -/
theorem node_create_link_round_trip (tn : tipc_net) (addr : Nat) (l : tipc_link)
    (hnew : (tipc_node_find tn addr).1 = none) (halloc : tn.kzalloc_ok.headD true = true)
    (hb : l.bearer_id < tn.max_bearers) :
    ∃ p tn' n0 n3, tipc_node_create tn addr = (some p, tn') ∧
      tn'.nodes[p]? = some n0 ∧
      exec_events n0 [.attach l, .link_up l.bearer_id, .link_down l.bearer_id] = some n3 ∧
      tipc_node_is_up n3 = false ∧
      n3.active_links = (INVALID_BEARER_ID, INVALID_BEARER_ID) ∧
      n3.working_links = 0 := by
  obtain ⟨n1, hn1, hl1, hs1, hw1, ha1⟩ := alloc_attach tn.max_bearers tn.env addr l hb
  have hl1' : node_link (node_set_link n1 l.bearer_id { l with up := true }) l.bearer_id =
      some { l with up := true } := by
    rw [node_link_set_link n1 l.bearer_id l.bearer_id _ l hl1, if_pos rfl]
  have hs1' : ∀ j, j ≠ l.bearer_id →
      node_link (node_set_link n1 l.bearer_id { l with up := true }) j = none := by
    intro j hj
    rw [node_link_set_link n1 l.bearer_id j _ l hl1, if_neg hj]
    exact hs1 j hj
  have hol : node_active_link (node_set_link n1 l.bearer_id { l with up := true }) 0 = none := by
    unfold node_active_link
    simp [node_set_link_active_links, ha1]
  have hw1' : (node_set_link n1 l.bearer_id { l with up := true }).working_links = 0 := by
    rw [node_set_link_working_links]
    exact hw1
  obtain ⟨n2, hn2, -, hl2, -, hw2, -⟩ := link_up_first_link _ l.bearer_id _
    (by rw [hw1']; decide) hol hl1'
  obtain ⟨n2', hn2', -, -, hsome2, -⟩ := link_up_accepted _ l.bearer_id _
    (by rw [hw1']; decide) hl1'
  rw [hn2] at hn2'
  cases hn2'
  have hs2 : ∀ j, j ≠ l.bearer_id → node_link n2 j = none := by
    intro j hj
    have := hsome2 j
    rw [hs1' j hj] at this
    cases h : node_link n2 j with
    | none => rfl
    | some q =>
      rw [h] at this
      cases this
  obtain ⟨n3, hn3, ha3, hu3, hw3, -⟩ := link_down_last_link n2 l.bearer_id _ hl2 rfl hs2
  refine ⟨_, _, tipc_node_alloc tn.max_bearers tn.env addr, n3,
    node_create_new tn addr hnew halloc, List.getElem?_concat_length _ _, ?_, hu3, ha3, ?_⟩
  · simp only [exec_events, exec_event, hn1, hl1, hn2, hn3]
  · rw [hw3, hw2, hw1']
    rfl

theorem node_create_link_round_trip_witness :
    ∃ p tn' n0 n3, tipc_node_create sample_registry 0x1001005 = (some p, tn') ∧
      tn'.nodes[p]? = some n0 ∧
      exec_events n0 [.attach (sample_link 1 5), .link_up (sample_link 1 5).bearer_id,
        .link_down (sample_link 1 5).bearer_id] = some n3 ∧
      tipc_node_is_up n3 = false ∧
      n3.active_links = (INVALID_BEARER_ID, INVALID_BEARER_ID) ∧
      n3.working_links = 0 :=
  node_create_link_round_trip sample_registry 0x1001005 (sample_link 1 5) rfl rfl (by decide)
/-! ## Release of the node lock -/

theorem unlock_fuel_zero : tipc_node_unlock 0 = tipc_node_unlock_body fun _ => none := rfl

theorem unlock_fuel_succ (fuel : Nat) :
    tipc_node_unlock (fuel + 1) =
      tipc_node_unlock_body (tipc_node_reset_links (tipc_node_unlock fuel)) :=
  Function.iterate_succ_apply' _ _ _

theorem flags_or_and (x y B : Nat) (h : y &&& B = 0) : (x ||| y) &&& B = x &&& B := by
  rw [Nat.and_comm, Nat.and_or_distrib_left, Nat.and_comm B y, h, Nat.or_zero, Nat.and_comm]

theorem flags_cleared_and (x bit : Nat) (h : (U32_MAX ^^^ unlock_flag_mask) &&& bit = 0) :
    (x &&& (U32_MAX ^^^ unlock_flag_mask)) &&& bit = 0 := by
  rw [Nat.and_assoc, h, Nat.and_zero]

theorem unlock_mask_clears :
    ∀ bit ∈ spec_unlock_flags, (U32_MAX ^^^ unlock_flag_mask) &&& bit = 0 := by
  decide

theorem filterMap_flag_cons (flags bit : Nat) (e : node_effect)
    (rest : List (Nat × node_effect)) :
    ((bit, e) :: rest).filterMap (fun be => if flags &&& be.1 ≠ 0 then some be.2 else none) =
      (if flags &&& bit ≠ 0 then [e] else []) ++
        rest.filterMap (fun be => if flags &&& be.1 ≠ 0 then some be.2 else none) := by
  rw [List.filterMap_cons]
  by_cases h : flags &&& bit ≠ 0
  · rw [if_pos h, if_pos h]
    rfl
  · rw [if_neg h, if_neg h]
    rfl

theorem spec_unlock_effects_eq (flags addr link_id : Nat) :
    spec_unlock_effects flags addr link_id =
      (if flags &&& TIPC_NOTIFY_NODE_DOWN ≠ 0 then [.tipc_publ_notify addr] else []) ++
      ((if flags &&& TIPC_WAKEUP_BCAST_USERS ≠ 0 then [.tipc_bclink_wakeup_users] else []) ++
      ((if flags &&& TIPC_NOTIFY_NODE_UP ≠ 0 then [.tipc_named_node_up addr] else []) ++
      ((if flags &&& TIPC_NOTIFY_LINK_UP ≠ 0 then [.tipc_nametbl_publish addr link_id]
        else []) ++
      ((if flags &&& TIPC_NOTIFY_LINK_DOWN ≠ 0 then [.tipc_nametbl_withdraw addr link_id]
        else []) ++
      ((if flags &&& TIPC_MSG_EVT ≠ 0 then [.tipc_sk_rcv] else []) ++
      ((if flags &&& TIPC_NAMED_MSG_EVT ≠ 0 then [.tipc_named_rcv] else []) ++
      ((if flags &&& TIPC_BCAST_MSG_EVT ≠ 0 then [.tipc_bclink_input] else []) ++
      (if flags &&& TIPC_BCAST_RESET ≠ 0 then [.tipc_node_reset_links addr] else [])))))))) := by
  unfold spec_unlock_effects spec_unlock_table
  simp only [filterMap_flag_cons, List.filterMap_nil, List.append_nil]

theorem spec_unlock_effects_none (flags addr link_id : Nat)
    (h : ∀ bit ∈ spec_unlock_flags, flags &&& bit = 0) :
    spec_unlock_effects flags addr link_id = [] := by
  rw [spec_unlock_effects_eq]
  have h1 := h TIPC_NOTIFY_NODE_DOWN (by decide)
  have h2 := h TIPC_WAKEUP_BCAST_USERS (by decide)
  have h3 := h TIPC_NOTIFY_NODE_UP (by decide)
  have h4 := h TIPC_NOTIFY_LINK_UP (by decide)
  have h5 := h TIPC_NOTIFY_LINK_DOWN (by decide)
  have h6 := h TIPC_MSG_EVT (by decide)
  have h7 := h TIPC_NAMED_MSG_EVT (by decide)
  have h8 := h TIPC_BCAST_MSG_EVT (by decide)
  have h9 := h TIPC_BCAST_RESET (by decide)
  simp only [h1, h2, h3, h4, h5, h6, h7, h8, h9, ne_eq, not_true_eq_false, if_false,
    List.append_nil]

theorem spec_unlock_effects_msg_evt (addr link_id : Nat) :
    spec_unlock_effects TIPC_MSG_EVT addr link_id = [.tipc_sk_rcv] := by
  rw [spec_unlock_effects_eq, if_neg (by decide), if_neg (by decide), if_neg (by decide),
    if_neg (by decide), if_neg (by decide), if_pos (by decide), if_neg (by decide),
    if_neg (by decide), if_neg (by decide)]
  rfl

/-- The body of tipc_node_unlock when TIPC_BCAST_RESET is not pending: the calls
are those of the table whose flag is set, and none of the nine flags is set
afterwards. -/
theorem unlock_body_no_reset (rl : tipc_node → Option (List node_effect × tipc_node))
    (node : tipc_node) (h : node.action_flags &&& TIPC_BCAST_RESET = 0) :
    ∃ n', tipc_node_unlock_body rl node =
        some (spec_unlock_effects node.action_flags node.addr node.link_id, n') ∧
      (∀ bit ∈ spec_unlock_flags, n'.action_flags &&& bit = 0) ∧
      n'.addr = node.addr := by
  unfold tipc_node_unlock_body
  dsimp only
  by_cases hfast : node.action_flags = 0 ∨ node.action_flags = TIPC_MSG_EVT
  · rw [if_pos hfast]
    refine ⟨{ node with action_flags := 0, lock := node.lock - 1 }, ?_,
      fun bit _ => Nat.zero_and bit, rfl⟩
    rcases hfast with h0 | h1
    · rw [h0, spec_unlock_effects_none 0 _ _ (fun bit _ => Nat.zero_and bit),
        if_neg (by decide)]
    · rw [h1, spec_unlock_effects_msg_evt, if_pos rfl]
  · have hr : ¬ (node.action_flags &&& TIPC_BCAST_RESET ≠ 0) := fun hne => hne h
    rw [if_neg hfast, if_neg hr]
    refine ⟨{ node with
        action_flags := node.action_flags &&& (U32_MAX ^^^ unlock_flag_mask),
        lock := node.lock - 1 }, ?_,
      fun bit hbit => flags_cleared_and _ bit (unlock_mask_clears bit hbit), rfl⟩
    rw [spec_unlock_effects_eq, if_neg hr]
    simp only [List.append_assoc, List.append_nil]

/-- The body of tipc_node_unlock when TIPC_BCAST_RESET is pending: the calls of
the table whose flag is set, the link reset last among them, followed by
whatever the link reset dispatches itself. -/
theorem unlock_body_reset (rl : tipc_node → Option (List node_effect × tipc_node))
    (node : tipc_node) (h : node.action_flags &&& TIPC_BCAST_RESET ≠ 0) :
    tipc_node_unlock_body rl node =
      (rl { node with
          action_flags := node.action_flags &&& (U32_MAX ^^^ unlock_flag_mask),
          lock := node.lock - 1 }).map fun r =>
        (spec_unlock_effects node.action_flags node.addr node.link_id ++ r.1, r.2) := by
  have hfast : ¬ (node.action_flags = 0 ∨ node.action_flags = TIPC_MSG_EVT) := by
    rintro (h0 | h1)
    · rw [h0] at h
      exact h rfl
    · rw [h1] at h
      exact h rfl
  unfold tipc_node_unlock_body
  dsimp only
  rw [if_neg hfast, if_pos h, spec_unlock_effects_eq, if_pos h]
  congr 1
  funext r
  simp only [List.append_assoc, List.singleton_append]
theorem lost_contact_conns_flags_and (B : Nat) (hB : TIPC_MSG_EVT &&& B = 0) :
    ∀ (conns : List tipc_sock_conn) (n : tipc_node),
      (node_lost_contact_conns conns n).action_flags &&& B = n.action_flags &&& B ∧
      (node_lost_contact_conns conns n).addr = n.addr := by
  intro conns
  induction conns with
  | nil => exact fun n => ⟨rfl, rfl⟩
  | cons c cs ih =>
    intro n
    unfold node_lost_contact_conns
    dsimp only
    split_ifs
    · obtain ⟨h1, h2⟩ := ih
        { n with
          net := { n.net with skb_alloc := n.net.skb_alloc.tail },
          inputq := n.inputq ++
            [{ dnode := n.net.own_addr, onode := c.peer_node, dport := c.port,
               oport := c.peer_port, errcode := TIPC_ERR_NO_NODE }],
          action_flags := n.action_flags ||| TIPC_MSG_EVT,
          conn_sks := cs }
      exact ⟨h1.trans (flags_or_and _ _ B hB), h2⟩
    · exact ih { n with
          net := { n.net with skb_alloc := n.net.skb_alloc.tail },
          conn_sks := cs }

theorem fsm_evt_addr (n : tipc_node) (evt : Int) : (tipc_node_fsm_evt n evt).addr = n.addr := by
  unfold tipc_node_fsm_evt
  split <;> rfl

theorem node_set_link_addr (n : tipc_node) (i : Nat) (l : tipc_link) :
    (node_set_link n i l).addr = n.addr := by
  unfold node_set_link
  split <;> rfl

theorem node_lost_contact_flags_and (n : tipc_node) (B : Nat)
    (h1 : TIPC_MSG_EVT &&& B = 0) (h2 : TIPC_NOTIFY_NODE_DOWN &&& B = 0) :
    (node_lost_contact n).action_flags &&& B = n.action_flags &&& B ∧
    (node_lost_contact n).addr = n.addr := by
  have ha : ∃ m, node_lost_contact n = node_lost_contact_conns m.conn_sks m ∧
      m.action_flags = n.action_flags ||| TIPC_NOTIFY_NODE_DOWN ∧ m.addr = n.addr := by
    unfold node_lost_contact
    refine ⟨_, rfl, ?_, ?_⟩
    · dsimp only
      rw [fsm_evt_action_flags]
      split_ifs <;> rfl
    · dsimp only
      rw [fsm_evt_addr]
      split_ifs <;> rfl
  obtain ⟨m, hm, hf, hadr⟩ := ha
  obtain ⟨g1, g2⟩ := lost_contact_conns_flags_and B h1 m.conn_sks m
  rw [hm]
  exact ⟨by rw [g1, hf]; exact flags_or_and _ _ B h2, g2.trans hadr⟩

/-- What tipc_node_link_down does to the pending flags: it can only raise
TIPC_NOTIFY_LINK_DOWN, TIPC_NOTIFY_NODE_DOWN and TIPC_MSG_EVT; and it leaves the
address of the node alone. -/
theorem link_down_flags_and (n nd : tipc_node) (b B : Nat)
    (h : tipc_node_link_down n b = some nd)
    (h1 : TIPC_MSG_EVT &&& B = 0) (h2 : TIPC_NOTIFY_NODE_DOWN &&& B = 0)
    (h3 : TIPC_NOTIFY_LINK_DOWN &&& B = 0) :
    nd.action_flags &&& B = n.action_flags &&& B ∧ nd.addr = n.addr := by
  by_cases hup : ∃ l, node_link n b = some l ∧ l.up = true
  · obtain ⟨l, hl, hlu⟩ := hup
    by_cases hv : (link_down_select b n.links 0 (0, INVALID_BEARER_ID, INVALID_BEARER_ID)).2.1 =
        INVALID_BEARER_ID
    · have hnu : (!tipc_node_is_up { n with
            working_links := n.working_links - 1,
            action_flags := n.action_flags ||| TIPC_NOTIFY_LINK_DOWN,
            link_id := (l.peer_bearer_id <<< 16 ||| b) % 2 ^ 32,
            active_links :=
              ((link_down_select b n.links 0 (0, INVALID_BEARER_ID, INVALID_BEARER_ID)).2.1,
               (link_down_select b n.links 0 (0, INVALID_BEARER_ID, INVALID_BEARER_ID)).2.2) })
            = true := by
        simp [tipc_node_is_up, hv]
      have hd : ∃ m : tipc_node, m.action_flags = n.action_flags ||| TIPC_NOTIFY_LINK_DOWN ∧
          m.addr = n.addr ∧ tipc_node_link_down n b = some (node_lost_contact m) := by
        refine ⟨node_set_link { n with
            working_links := n.working_links - 1,
            action_flags := n.action_flags ||| TIPC_NOTIFY_LINK_DOWN,
            link_id := (l.peer_bearer_id <<< 16 ||| b) % 2 ^ 32,
            active_links :=
              ((link_down_select b n.links 0 (0, INVALID_BEARER_ID, INVALID_BEARER_ID)).2.1,
               (link_down_select b n.links 0 (0, INVALID_BEARER_ID, INVALID_BEARER_ID)).2.2) }
            b (tipc_link_reset l), node_set_link_action_flags _ _ _, node_set_link_addr _ _ _, ?_⟩
        unfold tipc_node_link_down
        simp only [hl, tipc_link_is_up, hlu, Bool.not_true, Bool.false_eq_true, if_false]
        rw [if_pos hnu]
      obtain ⟨m, hmf, hma, hmd⟩ := hd
      rw [h] at hmd
      rw [Option.some.inj hmd]
      obtain ⟨g1, g2⟩ := node_lost_contact_flags_and m B h1 h2
      exact ⟨by rw [g1, hmf]; exact flags_or_and _ _ B h3, g2.trans hma⟩
    · obtain ⟨n', k, tnl, hn', -, -, -, -, -, -, -, hf⟩ := link_down_survivor n b l hl hlu hv
      rw [h] at hn'
      have hnd : nd = n' := Option.some.inj hn'
      subst hnd
      refine ⟨by rw [hf]; exact flags_or_and _ _ B h3, ?_⟩
      have hnu : ¬ ((!tipc_node_is_up { n with
            working_links := n.working_links - 1,
            action_flags := n.action_flags ||| TIPC_NOTIFY_LINK_DOWN,
            link_id := (l.peer_bearer_id <<< 16 ||| b) % 2 ^ 32,
            active_links :=
              ((link_down_select b n.links 0 (0, INVALID_BEARER_ID, INVALID_BEARER_ID)).2.1,
               (link_down_select b n.links 0 (0, INVALID_BEARER_ID, INVALID_BEARER_ID)).2.2) })
            = true) := by
        simp [tipc_node_is_up, hv]
      unfold tipc_node_link_down at h
      simp only [hl, tipc_link_is_up, hlu, Bool.not_true, Bool.false_eq_true, if_false] at h
      rw [if_neg hnu] at h
      split at h
      · cases h
      · rw [← Option.some.inj h, node_set_link_addr]
        dsimp only
        rw [fsm_evt_addr]
  · have hno := link_down_noop n b (fun l hl => by
      cases hlu : l.up with
      | false => rfl
      | true => exact absurd ⟨l, hl, hlu⟩ hup)
    rw [h] at hno
    rw [Option.some.inj hno]
    exact ⟨rfl, rfl⟩

/-- The loop of tipc_node_reset_links always runs to its end, and of the
pending flags it can only raise TIPC_NOTIFY_LINK_DOWN, TIPC_NOTIFY_NODE_DOWN and
TIPC_MSG_EVT. -/
theorem reset_links_loop_total :
    ∀ (bearers : List Nat) (n : tipc_node), ∃ m, reset_links_loop n bearers = some m ∧
      (∀ B, TIPC_MSG_EVT &&& B = 0 → TIPC_NOTIFY_NODE_DOWN &&& B = 0 →
        TIPC_NOTIFY_LINK_DOWN &&& B = 0 → m.action_flags &&& B = n.action_flags &&& B) ∧
      m.addr = n.addr := by
  intro bearers
  induction bearers with
  | nil => exact fun n => ⟨n, rfl, fun _ _ _ _ => rfl, rfl⟩
  | cons i rest ih =>
    intro n
    unfold reset_links_loop
    cases node_link n i with
    | none => exact ih n
    | some l =>
      dsimp only
      obtain ⟨nd, hnd, -⟩ := link_down_total n i
      rw [hnd]
      dsimp only
      obtain ⟨m, hm, hf, ha⟩ := ih nd
      refine ⟨m, hm, fun B h1 h2 h3 => ?_, ?_⟩
      · exact (hf B h1 h2 h3).trans (link_down_flags_and n nd i B hnd h1 h2 h3).1
      · exact ha.trans (link_down_flags_and n nd i 0 hnd rfl rfl rfl).2

theorem reset_links_spec (unlock : tipc_node → Option (List node_effect × tipc_node))
    (n : tipc_node) :
    ∃ m, tipc_node_reset_links unlock n = unlock m ∧
      (∀ B, TIPC_MSG_EVT &&& B = 0 → TIPC_NOTIFY_NODE_DOWN &&& B = 0 →
        TIPC_NOTIFY_LINK_DOWN &&& B = 0 → m.action_flags &&& B = n.action_flags &&& B) ∧
      m.addr = n.addr := by
  have hdef : tipc_node_reset_links unlock n =
      match reset_links_loop
        { n with lock := n.lock + 1, klog := n.klog ++ [.resetting_links n.addr] }
        (List.range n.links.length) with
      | none => none
      | some n => unlock n := rfl
  obtain ⟨m, hm, hf, ha⟩ := reset_links_loop_total (List.range n.links.length)
    { n with lock := n.lock + 1, klog := n.klog ++ [.resetting_links n.addr] }
  rw [hdef, hm]
  exact ⟨m, rfl, hf, ha⟩

/-- An unlock that finds none of the nine flags pending dispatches nothing. -/
theorem unlock_idle (fuel : Nat) (n : tipc_node)
    (h : ∀ bit ∈ spec_unlock_flags, n.action_flags &&& bit = 0) :
    ∃ n', tipc_node_unlock fuel n = some ([], n') := by
  have hr : n.action_flags &&& TIPC_BCAST_RESET = 0 := h _ (by decide)
  cases fuel with
  | zero =>
    rw [unlock_fuel_zero]
    obtain ⟨n', hb, -, -⟩ := unlock_body_no_reset (fun _ => none) n hr
    rw [spec_unlock_effects_none _ _ _ h] at hb
    exact ⟨n', hb⟩
  | succ k =>
    rw [unlock_fuel_succ]
    obtain ⟨n', hb, -, -⟩ :=
      unlock_body_no_reset (tipc_node_reset_links (tipc_node_unlock k)) n hr
    rw [spec_unlock_effects_none _ _ _ h] at hb
    exact ⟨n', hb⟩

theorem filterMap_flag_sublist (flags : Nat) :
    ∀ t : List (Nat × node_effect),
      (t.filterMap fun be => if flags &&& be.1 ≠ 0 then some be.2 else none).Sublist
        (t.map (·.2)) := by
  intro t
  induction t with
  | nil => exact List.Sublist.slnil
  | cons be t ih =>
    obtain ⟨bit, e⟩ := be
    rw [filterMap_flag_cons, List.map_cons]
    by_cases h : flags &&& bit ≠ 0
    · rw [if_pos h]
      exact ih.cons₂ e
    · rw [if_neg h]
      exact ih.cons e

theorem spec_unlock_table_nodup (addr link_id : Nat) :
    ((spec_unlock_table addr link_id).map (·.2)).Nodup := by
  simp [spec_unlock_table]

theorem spec_unlock_effects_mem (flags addr link_id : Nat) :
    ∀ be ∈ spec_unlock_table addr link_id,
      (be.2 ∈ spec_unlock_effects flags addr link_id ↔ flags &&& be.1 ≠ 0) := by
  intro be hbe
  rw [spec_unlock_effects_eq]
  simp only [spec_unlock_table, List.mem_cons, List.mem_singleton, List.not_mem_nil,
    or_false] at hbe
  rcases hbe with rfl | rfl | rfl | rfl | rfl | rfl | rfl | rfl | rfl <;> simp

/-- A node with two up links whose only pending flag is TIPC_BCAST_RESET is
unlocked. The one call that this invocation of tipc_node_unlock makes is the
link reset; the two calls listed after it are made inside
tipc_node_reset_links, by the unlock that ends it, for the flags that the
link-downs have raised. The components are the calls according to the table
and all the calls made until tipc_node_unlock returns. -/
theorem unlock_reset_nested_calls :
    (spec_unlock_effects TIPC_BCAST_RESET 0x100042 0,
     (tipc_node_unlock 2 { two_link_node 5 5 with
        working_links := 2, action_flags := TIPC_BCAST_RESET }).map (·.1)) =
    ([.tipc_node_reset_links 0x100042],
     some [.tipc_node_reset_links 0x100042, .tipc_publ_notify 0x100042,
           .tipc_nametbl_withdraw 0x100042 65537]) := by
  rfl

/-- C25: for every value of the pending action flags, an invocation of
tipc_node_unlock returns after dispatching exactly the side effects whose flag
is set (an entry of the table is among the calls if and only if its flag is
set), each at most once and in the fixed order node-down notify, wakeup
broadcast users, node-up notify, link-up publish, link-down withdraw, message
delivery, named-message delivery, broadcast delivery, link reset. The calls
are those of the table followed by nested: nested is empty when the link reset
is not flagged, and when it is flagged nested is exactly what the one call of
tipc_node_reset_links, the last dispatch, reports for the calls made inside
it. After tipc_node_unlock returns none of the nine flag bits remains set in
the node, and an immediately following unlock dispatches nothing. -/
theorem node_unlock_dispatch (node : tipc_node) (fuel : Nat) (hfuel : 1 ≤ fuel) :
    (∃ nested n', tipc_node_unlock fuel node =
        some (spec_unlock_effects node.action_flags node.addr node.link_id ++ nested, n') ∧
      (node.action_flags &&& TIPC_BCAST_RESET = 0 →
        nested = [] ∧
        n' = { node with
          action_flags := node.action_flags &&& (U32_MAX ^^^ unlock_flag_mask),
          lock := node.lock - 1 }) ∧
      (node.action_flags &&& TIPC_BCAST_RESET ≠ 0 →
        tipc_node_reset_links (tipc_node_unlock (fuel - 1))
          { node with
            action_flags := node.action_flags &&& (U32_MAX ^^^ unlock_flag_mask),
            lock := node.lock - 1 } = some (nested, n')) ∧
      (∀ bit ∈ spec_unlock_flags, n'.action_flags &&& bit = 0) ∧
      ∃ n'', tipc_node_unlock fuel n' = some ([], n'')) ∧
    (∀ be ∈ spec_unlock_table node.addr node.link_id,
      (be.2 ∈ spec_unlock_effects node.action_flags node.addr node.link_id ↔
        node.action_flags &&& be.1 ≠ 0)) ∧
    (spec_unlock_effects node.action_flags node.addr node.link_id).Sublist
      ((spec_unlock_table node.addr node.link_id).map (·.2)) ∧
    ((spec_unlock_table node.addr node.link_id).map (·.2)).Nodup := by
  refine ⟨?_, spec_unlock_effects_mem _ _ _, filterMap_flag_sublist _ _,
    spec_unlock_table_nodup _ _⟩
  obtain ⟨k, rfl⟩ : ∃ k, fuel = k + 1 := ⟨fuel - 1, by omega⟩
  rw [unlock_fuel_succ k]
  by_cases hr : node.action_flags &&& TIPC_BCAST_RESET = 0
  · obtain ⟨n', hb', hclr, -⟩ :=
      unlock_body_no_reset (tipc_node_reset_links (tipc_node_unlock k)) node hr
    have hn' : n' = { node with
        action_flags := node.action_flags &&& (U32_MAX ^^^ unlock_flag_mask),
        lock := node.lock - 1 } := by
      have hnr : ¬ (node.action_flags &&& TIPC_BCAST_RESET ≠ 0) := fun hne => hne hr
      have hb2 := hb'
      unfold tipc_node_unlock_body at hb2
      dsimp only at hb2
      rw [if_neg hnr] at hb2
      by_cases hfast : node.action_flags = 0 ∨ node.action_flags = TIPC_MSG_EVT
      · rw [if_pos hfast] at hb2
        have hn := congrArg Prod.snd (Option.some.inj hb2)
        dsimp only at hn
        rw [← hn]
        have hz : node.action_flags &&& (U32_MAX ^^^ unlock_flag_mask) = 0 := by
          rcases hfast with h0 | h1
          · rw [h0]
            decide
          · rw [h1]
            decide
        rw [hz]
      · rw [if_neg hfast] at hb2
        have hn := congrArg Prod.snd (Option.some.inj hb2)
        dsimp only at hn
        rw [← hn]
    refine ⟨[], n', ?_, fun _ => ⟨rfl, hn'⟩, fun hne => absurd hr hne, hclr, ?_⟩
    · rw [hb', List.append_nil]
    · rw [← unlock_fuel_succ k]
      exact unlock_idle _ n' hclr
  · rw [unlock_body_reset _ node hr]
    obtain ⟨m, hm, hmf, -⟩ := reset_links_spec (tipc_node_unlock k)
      { node with
        action_flags := node.action_flags &&& (U32_MAX ^^^ unlock_flag_mask),
        lock := node.lock - 1 }
    have hbit : ∀ bit ∈ spec_unlock_flags, TIPC_MSG_EVT &&& bit = 0 →
        TIPC_NOTIFY_NODE_DOWN &&& bit = 0 → TIPC_NOTIFY_LINK_DOWN &&& bit = 0 →
        m.action_flags &&& bit = 0 := by
      intro bit hbit h1 h2 h3
      rw [hmf bit h1 h2 h3]
      exact flags_cleared_and _ bit (unlock_mask_clears bit hbit)
    have b6 := hbit TIPC_BCAST_RESET (by decide) rfl rfl rfl
    have hin : ∃ n', tipc_node_unlock k m =
        some (spec_unlock_effects m.action_flags m.addr m.link_id, n') ∧
        ∀ bit ∈ spec_unlock_flags, n'.action_flags &&& bit = 0 := by
      cases k with
      | zero =>
        rw [unlock_fuel_zero]
        obtain ⟨n', hb, hclr, -⟩ := unlock_body_no_reset (fun _ => none) m b6
        exact ⟨n', hb, hclr⟩
      | succ j =>
        rw [unlock_fuel_succ]
        obtain ⟨n', hb, hclr, -⟩ :=
          unlock_body_no_reset (tipc_node_reset_links (tipc_node_unlock j)) m b6
        exact ⟨n', hb, hclr⟩
    obtain ⟨n', hin', hclr⟩ := hin
    rw [hm, hin']
    refine ⟨spec_unlock_effects m.action_flags m.addr m.link_id, n', rfl,
      fun h0 => absurd h0 hr, fun _ => ?_, hclr, ?_⟩
    · show tipc_node_reset_links (tipc_node_unlock k) _ = _
      rw [hm, hin']
    · rw [← unlock_fuel_succ k]
      exact unlock_idle _ n' hclr

theorem node_unlock_dispatch_witness :
    ∃ nested n', tipc_node_unlock 2 { two_link_node 5 5 with
          working_links := 2, action_flags := TIPC_BCAST_RESET } =
        some (spec_unlock_effects TIPC_BCAST_RESET 0x100042 0 ++ nested, n') ∧
      tipc_node_reset_links (tipc_node_unlock 1)
        { two_link_node 5 5 with
          working_links := 2,
          action_flags := TIPC_BCAST_RESET &&& (U32_MAX ^^^ unlock_flag_mask),
          lock := -1 } = some (nested, n') ∧
      (∀ bit ∈ spec_unlock_flags, n'.action_flags &&& bit = 0) ∧
      ∃ n'', tipc_node_unlock 2 n' = some ([], n'') :=
  have h := (node_unlock_dispatch { two_link_node 5 5 with
      working_links := 2, action_flags := TIPC_BCAST_RESET } 2 (by decide)).1
  h.elim fun nested h1 => h1.elim fun n' h2 =>
    ⟨nested, n', h2.1, h2.2.2.1 (by decide), h2.2.2.2.1, h2.2.2.2.2⟩

/-! ## The keepalive timer -/

theorem timeout_step_sample_0 :
    node_timeout_step (fun ms => ms) (fun j => j) 2 (fun _ => false) 0 (timer_sample_node 0 0) =
      some ([], timer_sample_node 150 0) := by
  rfl

theorem timeout_step_sample_1 :
    node_timeout_step (fun ms => ms) (fun j => j) 2 (fun _ => false) 1
        (timer_sample_node 150 0) =
      some ([], timer_sample_node 150 150) := by
  rfl

theorem timeout_step_sample_2 :
    node_timeout_step (fun ms => ms) (fun j => j) 2 (fun _ => false) 2
        (timer_sample_node 150 150) =
      some ([], timer_sample_node 150 150) := by
  rfl

theorem timeout_loop_sample :
    node_timeout_loop (fun ms => ms) (fun j => j) 2 (fun _ => false) [0, 1, 2]
        (timer_sample_node 0 0) =
      some ([], timer_sample_node 150 150) := by
  unfold node_timeout_loop
  rw [timeout_step_sample_0]
  dsimp only
  unfold node_timeout_loop
  rw [timeout_step_sample_1]
  dsimp only
  unfold node_timeout_loop
  rw [timeout_step_sample_2]
  rfl

/-- C26 at the failing input: a node whose two links both have a tolerance of
1500 ms, while its keepalive interval still stands at 10 from a link of lower
tolerance, gets a keepalive timer fire (jiffies taken equal to milliseconds,
no link reported down). The minimum over the links of min(tolerance / 4, 500)
is 375, but tipc_node_timeout returns with the interval still at 10; the
components are the calls dispatched, the interval, the reference count and the
armed state of the timer afterwards, and the value the claim asks for. -/
theorem keepalive_interval_not_raised :
    ((tipc_node_timeout (fun ms => ms) (fun j => j) 2 (fun _ => false)
        (timer_sample_node 0 0)).map
        (fun r => (r.1, r.2.keepalive_intv, r.2.kref, r.2.timer_pending)),
     spec_keepalive_intv (fun ms => ms) (timer_sample_node 0 0)) =
    (some ([], 10, 2, true), some 375) := by
  have hr : List.range (timer_sample_node 0 0).links.length = [0, 1, 2] := rfl
  unfold tipc_node_timeout
  rw [hr, timeout_loop_sample]
  rfl


/-! ## The order on sequence numbers -/

/-- C34 as stated fails: the sequence numbers 0 and 32768 are different, and
neither is less than the other. The modular distance from 0 to 32768 equals
the distance from 32768 to 0, so every relation that is decided by the
distance from left to right gives the same answer both ways round. -/
theorem less_antipodal_neither :
    (0 : Nat) ≠ 32768 ∧ less 0 32768 = false ∧ less 32768 0 = false ∧
    ∀ P : Nat → Bool, P (mod ((32768 : Int) - 0)) = P (mod ((0 : Int) - 32768)) :=
  ⟨by decide, by decide, by decide, fun P => congrArg P (by decide)⟩

/-- C34, amended: on the 16-bit modular space less(a, a) is false; for a != b
that are not exactly 32768 apart exactly one of less(a, b) and less(b, a)
holds; and for a and b exactly 32768 apart neither holds. -/
theorem less_strict_off_antipodes (a b : Nat) (ha : a < 65536) (hb : b < 65536) :
    less a a = false ∧
    (a ≠ b → (a + 32768) % 65536 ≠ b → less a b = !less b a) ∧
    ((a + 32768) % 65536 = b → less a b = false ∧ less b a = false) := by
  have key : ∀ x y : Nat, x < 65536 → y < 65536 →
      (less x y = true ↔ (((y : Int) - x) % 65536 < 32768 ∧ y ≠ x)) := by
    intro x y hx hy
    unfold less less_eq mod
    simp only [Bool.and_eq_true, decide_eq_true_eq, bne_iff_ne, ne_eq]
    have h1 : ((x : Int) % 65536).toNat = x := by omega
    have h2 : ((y : Int) % 65536).toNat = y := by omega
    rw [h1, h2]
    constructor
    · rintro ⟨h, hne⟩
      exact ⟨by omega, hne⟩
    · rintro ⟨h, hne⟩
      exact ⟨by omega, hne⟩
  have kaa := key a a ha ha
  have kab := key a b ha hb
  have kba := key b a hb ha
  refine ⟨?_, fun hne hanti => ?_, fun hanti => ?_⟩
  · cases h : less a a with
    | false => rfl
    | true => exact absurd rfl (kaa.1 h).2
  · cases h1 : less a b with
    | true =>
      cases h2 : less b a with
      | false => rfl
      | true =>
        have := (kab.1 h1).1
        have := (kba.1 h2).1
        omega
    | false =>
      cases h2 : less b a with
      | true => rfl
      | false =>
        exfalso
        have n1 : ¬ ((((b : Int) - a) % 65536 < 32768) ∧ b ≠ a) := fun h =>
          absurd (kab.2 h) (by rw [h1]; decide)
        have n2 : ¬ ((((a : Int) - b) % 65536 < 32768) ∧ a ≠ b) := fun h =>
          absurd (kba.2 h) (by rw [h2]; decide)
        have e1 : ¬ (((b : Int) - a) % 65536 < 32768) := fun h => n1 ⟨h, fun e => hne e.symm⟩
        have e2 : ¬ (((a : Int) - b) % 65536 < 32768) := fun h => n2 ⟨h, hne⟩
        omega
  · constructor
    · cases h1 : less a b with
      | false => rfl
      | true =>
        have := (kab.1 h1).1
        omega
    · cases h2 : less b a with
      | false => rfl
      | true =>
        have := (kba.1 h2).1
        omega

theorem less_strict_off_antipodes_witness :
    less 65530 65530 = false ∧
    (65530 ≠ 5 → (65530 + 32768) % 65536 ≠ 5 → less 65530 5 = !less 5 65530) ∧
    ((65530 + 32768) % 65536 = 5 → less 65530 5 = false ∧ less 5 65530 = false) :=
  less_strict_off_antipodes 65530 5 (by decide) (by decide)

/-! ## Repeated events -/

theorem fsm_switch_idempotent :
    ∀ S ∈ fsm_states, ∀ E ∈ fsm_events,
      (match tipc_node_fsm_switch
          (match tipc_node_fsm_switch S E with
            | .next s => s
            | _ => S) E with
        | .next s => s
        | _ => (match tipc_node_fsm_switch S E with
            | .next s => s
            | _ => S)) =
        (match tipc_node_fsm_switch S E with
          | .next s => s
          | _ => S) ∧
      (match tipc_node_fsm_switch S E with
        | .next s => s
        | _ => S) ∈ fsm_states := by
  decide

/-- C35: for each of the 8 states S and each of the 8 events E, applying E
twice in succession through tipc_node_fsm_evt yields the same state as
applying it once; and the state after any event whatever, applied in one of
the 8 defined states, is again one of the 8 defined states. -/
theorem fsm_evt_idempotent (n : tipc_node) (E : Int)
    (hS : n.state ∈ fsm_states) (hE : E ∈ fsm_events) :
    (tipc_node_fsm_evt (tipc_node_fsm_evt n E) E).state = (tipc_node_fsm_evt n E).state ∧
    ∀ e : Int, (tipc_node_fsm_evt n e).state ∈ fsm_states := by
  constructor
  · rw [fsm_evt_state (tipc_node_fsm_evt n E) E, fsm_evt_state n E]
    exact (fsm_switch_idempotent n.state hS E hE).1
  · intro e
    rw [fsm_evt_state n e]
    by_cases he : e ∈ fsm_events
    · exact (fsm_switch_idempotent n.state hS e he).2
    · rw [fsm_switch_illegal n.state e hS he]
      exact hS

theorem fsm_evt_idempotent_witness :
    (tipc_node_fsm_evt (tipc_node_fsm_evt sample_node PEER_LOST_CONTACT_EVT)
      PEER_LOST_CONTACT_EVT).state =
      (tipc_node_fsm_evt sample_node PEER_LOST_CONTACT_EVT).state ∧
    ∀ e : Int, (tipc_node_fsm_evt sample_node e).state ∈ fsm_states :=
  fsm_evt_idempotent sample_node PEER_LOST_CONTACT_EVT (by decide) (by decide)

/-! ## The keepalive interval in milliseconds -/

theorem node_set_link_keepalive_intv (n : tipc_node) (i : Nat) (l : tipc_link) :
    (node_set_link n i l).keepalive_intv = n.keepalive_intv := by
  unfold node_set_link
  split <;> rfl

/-- C39: taking jiffies equal to milliseconds, for a link of tolerance tol >= 4
on the bearer and a prior keepalive interval k >= 1, tipc_node_calculate_timer
returns (no division by zero), the node's keepalive interval becomes
min(k, min(tol / 4, 500)), which is not larger than before and, being at most
min(tol / 4, 500), not above 500, the link's abort_limit becomes
tol / keepalive interval, and that abort_limit is at least 4. -/
theorem calculate_timer_ms (n : tipc_node) (bearer_id : Nat) (l : tipc_link)
    (hl : node_link n bearer_id = some l) (htol : 4 ≤ l.tolerance)
    (hk : 1 ≤ n.keepalive_intv) :
    ∃ n' : tipc_node,
      tipc_node_calculate_timer (fun ms => ms) (fun j => j) n bearer_id = some n' ∧
      n'.keepalive_intv = min n.keepalive_intv (min (l.tolerance / 4) 500) ∧
      n'.keepalive_intv ≤ n.keepalive_intv ∧
      n'.keepalive_intv ≤ 500 ∧
      n'.keepalive_intv ≠ 0 ∧
      node_link n' bearer_id =
        some { l with abort_limit := l.tolerance / n'.keepalive_intv } ∧
      4 ≤ l.tolerance / n'.keepalive_intv := by
  have hq : 1 ≤ l.tolerance / 4 := by omega
  have hk' : (if (if l.tolerance / 4 > 500 then 500 else l.tolerance / 4) < n.keepalive_intv
      then { n with keepalive_intv :=
        (if l.tolerance / 4 > 500 then 500 else l.tolerance / 4) } else n).keepalive_intv =
      min n.keepalive_intv (min (l.tolerance / 4) 500) := by
    split_ifs <;> first | omega | (dsimp only; omega)
  have hne : min n.keepalive_intv (min (l.tolerance / 4) 500) ≠ 0 := by omega
  have hlk : node_link (if (if l.tolerance / 4 > 500 then 500 else l.tolerance / 4) <
      n.keepalive_intv then { n with keepalive_intv :=
        (if l.tolerance / 4 > 500 then 500 else l.tolerance / 4) } else n) bearer_id =
      some l := by
    split_ifs <;> exact hl
  have h4 : 4 ≤ l.tolerance / min n.keepalive_intv (min (l.tolerance / 4) 500) := by
    rw [Nat.le_div_iff_mul_le (Nat.pos_of_ne_zero hne)]
    have : min n.keepalive_intv (min (l.tolerance / 4) 500) ≤ l.tolerance / 4 := by omega
    have := Nat.div_mul_le_self l.tolerance 4
    nlinarith
  refine ⟨node_set_link
    (if (if l.tolerance / 4 > 500 then 500 else l.tolerance / 4) < n.keepalive_intv
      then { n with keepalive_intv :=
        (if l.tolerance / 4 > 500 then 500 else l.tolerance / 4) } else n) bearer_id
    { l with abort_limit := l.tolerance / min n.keepalive_intv (min (l.tolerance / 4) 500) },
    ?_, ?_, ?_, ?_, ?_, ?_, ?_⟩
  · unfold tipc_node_calculate_timer
    rw [hl]
    dsimp only
    rw [hk', if_neg hne]
  · rw [node_set_link_keepalive_intv]
    exact hk'
  · rw [node_set_link_keepalive_intv, hk']
    omega
  · rw [node_set_link_keepalive_intv, hk']
    omega
  · rw [node_set_link_keepalive_intv, hk']
    exact hne
  · rw [node_link_set_link _ _ bearer_id _ l hlk, if_pos rfl, node_set_link_keepalive_intv, hk']
  · rw [node_set_link_keepalive_intv, hk']
    exact h4

theorem calculate_timer_ms_witness :
    ∃ n' : tipc_node,
      tipc_node_calculate_timer (fun ms => ms) (fun j => j) (timer_sample_node 0 0) 0 =
        some n' ∧
      n'.keepalive_intv =
        min (timer_sample_node 0 0).keepalive_intv (min (1500 / 4) 500) ∧
      n'.keepalive_intv ≤ (timer_sample_node 0 0).keepalive_intv ∧
      n'.keepalive_intv ≤ 500 ∧
      n'.keepalive_intv ≠ 0 ∧
      node_link n' 0 =
        some { sample_link 0 5 with up := true, abort_limit := 1500 / n'.keepalive_intv } ∧
      4 ≤ 1500 / n'.keepalive_intv :=
  calculate_timer_ms (timer_sample_node 0 0) 0
    { sample_link 0 5 with up := true, abort_limit := 0 } rfl (by decide) (by decide)
/-! ## Runs never enter the two half-open states -/

theorem run_states_closed :
    ∀ s ∈ run_states, ∀ e ∈ run_events,
      (match tipc_node_fsm_switch s e with
        | .next s' => s'
        | _ => s) ∈ run_states := by
  decide

theorem run_fsm_evt (n : tipc_node) (e : Int) (he : e ∈ run_events) (h : in_run_states n) :
    in_run_states (tipc_node_fsm_evt n e) := by
  unfold in_run_states
  rw [fsm_evt_state]
  exact run_states_closed n.state h e he

theorem run_peer_estab (n : tipc_node) (h : n.state = SELF_UP_PEER_COMING) :
    in_run_states (tipc_node_fsm_evt n PEER_ESTABL_CONTACT_EVT) := by
  unfold in_run_states
  rw [fsm_evt_state, h]
  decide

theorem run_peer_lost (n : tipc_node) (h : n.state = SELF_DOWN_PEER_LEAVING) :
    in_run_states (tipc_node_fsm_evt n PEER_LOST_CONTACT_EVT) := by
  unfold in_run_states
  rw [fsm_evt_state, h]
  decide

theorem run_of_state_eq (n m : tipc_node) (hs : m.state = n.state) (h : in_run_states n) :
    in_run_states m := by
  unfold in_run_states at h ⊢
  rw [hs]
  exact h

theorem run_link_down (n n' : tipc_node) (bearer_id : Nat) (h : in_run_states n)
    (hd : tipc_node_link_down n bearer_id = some n') : in_run_states n' := by
  unfold tipc_node_link_down at hd
  split at hd
  · cases hd
    exact h
  · dsimp only at hd
    split_ifs at hd with hup hnu
    · cases hd
      exact h
    · cases hd
      apply run_of_state_eq (tipc_node_fsm_evt n SELF_LOST_CONTACT_EVT) _ _
        (run_fsm_evt n _ (by decide) h)
      rw [node_lost_contact_state]
      exact fsm_evt_state_congr _ _ _ (node_set_link_state _ _ _)
    · split at hd
      · cases hd
      · cases hd
        apply run_of_state_eq (tipc_node_fsm_evt n NODE_FAILOVER_BEGIN_EVT) _ _
          (run_fsm_evt n _ (by decide) h)
        rw [node_set_link_state]
        dsimp only
        rw [fsm_evt_state, fsm_evt_state]

theorem run_link_up (n n' : tipc_node) (bearer_id : Nat) (h : in_run_states n)
    (hu : tipc_node_link_up n bearer_id = some n') : in_run_states n' := by
  unfold tipc_node_link_up at hu
  dsimp only at hu
  split_ifs at hu with hw
  · cases hu
    exact h
  · split at hu
    · cases hu
    · split at hu
      · cases hu
        apply run_of_state_eq (tipc_node_fsm_evt n SELF_ESTABL_CONTACT_EVT) _ _
          (run_fsm_evt n _ (by decide) h)
        unfold node_established_contact
        dsimp only
        exact fsm_evt_state_congr _ _ _ (node_set_link_state _ _ _)
      · split_ifs at hu <;> cases hu <;> exact h

theorem run_update_link (n : tipc_node) (i : Nat) (f : tipc_link → tipc_link)
    (h : in_run_states n) : in_run_states (node_update_link n i f) :=
  run_of_state_eq n _ (node_update_link_state n i f) h

theorem run_sync_point (n : tipc_node) (x : Nat) (h : in_run_states n) :
    in_run_states { n with sync_point := x } := h

theorem run_check_state_failover (n n' : tipc_node) (hdr : tipc_msg) (pl : Option Nat)
    (h : in_run_states n) (hf : check_state_failover n hdr pl = some n') :
    in_run_states n' := by
  unfold check_state_failover at hf
  dsimp only at hf
  split_ifs at hf with hc
  · obtain ⟨nd, hnd, rfl⟩ := Option.map_eq_some'.mp hf
    have hd : in_run_states nd := by
      split at hnd
      · split_ifs at hnd
        · obtain ⟨n1, hn1, rfl⟩ := Option.map_eq_some'.mp hnd
          exact run_update_link _ _ _ (run_link_down _ _ _ h hn1)
        · cases hnd
          exact h
      · cases hnd
        exact h
    split_ifs
    · exact run_sync_point _ _ hd
    · exact hd
  · cases hf
    exact h

theorem run_check_state_synch (n : tipc_node) (hdr : tipc_msg) (bearer_id : Nat)
    (h : in_run_states n) : in_run_states (check_state_synch n hdr bearer_id) := by
  unfold check_state_synch
  dsimp only
  split_ifs
  · exact run_sync_point _ _ (run_update_link _ _ _ (run_fsm_evt _ _ (by decide)
      (run_sync_point _ _ h)))
  · exact run_update_link _ _ _ (run_fsm_evt _ _ (by decide) (run_sync_point _ _ h))
  · exact run_sync_point _ _ (run_update_link _ _ _ h)
  · exact run_update_link _ _ _ h
  · exact h

theorem run_check_state_open_tunnel (n : tipc_node) (hdr : tipc_msg) (bearer_id : Nat)
    (pl : Option Nat) (h : in_run_states n) :
    in_run_states (check_state_open_tunnel n hdr bearer_id pl).2 := by
  unfold check_state_open_tunnel
  dsimp only
  split_ifs
  · exact run_update_link _ _ _ (run_fsm_evt _ _ (by decide) h)
  all_goals exact h

theorem run_check_state (n n' : tipc_node) (hdr : tipc_msg) (bearer_id : Nat) (r : Bool)
    (h : in_run_states n) (hc : tipc_node_check_state n hdr bearer_id = some (r, n')) :
    in_run_states n' := by
  have hA : n.state = SELF_UP_PEER_COMING →
      in_run_states (tipc_node_fsm_evt n PEER_ESTABL_CONTACT_EVT) := run_peer_estab n
  have hB : n.state = SELF_DOWN_PEER_LEAVING →
      in_run_states (tipc_node_fsm_evt n PEER_LOST_CONTACT_EVT) := run_peer_lost n
  have hC : n.state = SELF_UP_PEER_COMING → n.state = SELF_DOWN_PEER_LEAVING →
      in_run_states (tipc_node_fsm_evt (tipc_node_fsm_evt n PEER_ESTABL_CONTACT_EVT)
        PEER_LOST_CONTACT_EVT) :=
    fun h1 h2 => absurd (h1.symm.trans h2) (by decide)
  unfold tipc_node_check_state at hc
  dsimp only at hc
  split at hc
  · cases hc
    exact h
  · split_ifs at hc
    all_goals first
      | (cases hc; first | exact h | exact hA ‹n.state = SELF_UP_PEER_COMING› | exact hB ‹n.state = SELF_DOWN_PEER_LEAVING› | exact hC ‹n.state = SELF_UP_PEER_COMING› ‹n.state = SELF_DOWN_PEER_LEAVING›)
      | skip
    all_goals
      split at hc
      · cases hc
      · rename_i nf hnf
        have hf : in_run_states nf := by
          first
            | exact run_check_state_failover _ _ _ _ h hnf
            | exact run_check_state_failover _ _ _ _ (hA ‹n.state = SELF_UP_PEER_COMING›) hnf
            | exact run_check_state_failover _ _ _ _ (hB ‹n.state = SELF_DOWN_PEER_LEAVING›) hnf
            | exact run_check_state_failover _ _ _ _
                (hC ‹n.state = SELF_UP_PEER_COMING› ‹n.state = SELF_DOWN_PEER_LEAVING›) hnf
        split_ifs at hc
        · cases hc
          split
          · exact run_update_link _ _ _ (run_fsm_evt _ _ (by decide) hf)
          · exact run_fsm_evt _ _ (by decide) hf
        · have h3 := Option.some.inj hc
          have h4 : n' = (check_state_open_tunnel (check_state_synch nf hdr bearer_id) hdr
              bearer_id (find_parallel_link bearer_id n.links 0)).2 := by rw [h3]
          rw [h4]
          exact run_check_state_open_tunnel _ _ _ _ (run_check_state_synch _ _ _ hf)

theorem run_exec_event (n n' : tipc_node) (ev : node_event) (h : in_run_states n)
    (he : exec_event n ev = some n') : in_run_states n' := by
  cases ev with
  | attach l =>
    simp only [exec_event, tipc_node_attach_link] at he
    split at he
    · cases he
    · cases he
      exact h
  | link_up b =>
    simp only [exec_event] at he
    split at he
    · cases he
    · exact run_link_up _ _ _ (run_of_state_eq n _ (node_set_link_state _ _ _) h) he
  | link_down b => exact run_link_down _ _ _ h he
  | check_state hdr b =>
    simp only [exec_event] at he
    obtain ⟨⟨r, n1⟩, hc, rfl⟩ := Option.map_eq_some'.mp he
    exact run_check_state _ _ _ _ _ h hc
  | link_progress b rcv_nxt inputq_len =>
    simp only [exec_event] at he
    split at he
    · cases he
    · cases he
      exact run_of_state_eq n _ (node_set_link_state _ _ _) h

theorem run_exec_events (evs : List node_event) (n n' : tipc_node)
    (h : in_run_states n) (he : exec_events n evs = some n') : in_run_states n' := by
  induction evs generalizing n with
  | nil =>
    cases he
    exact h
  | cons ev evs ih =>
    simp only [exec_events] at he
    split at he
    · cases he
    · rename_i n1 h1
      exact ih n1 (run_exec_event n n1 ev h h1) he

theorem exec_events_append (evs1 evs2 : List node_event) (n : tipc_node) :
    exec_events n (evs1 ++ evs2) =
      match exec_events n evs1 with
      | none => none
      | some m => exec_events m evs2 := by
  induction evs1 generalizing n with
  | nil => rfl
  | cons ev evs ih =>
    simp only [List.cons_append, exec_events]
    cases exec_event n ev with
    | none => rfl
    | some n1 => exact ih n1

theorem filter_pkt_node (n : tipc_node) (hdr : tipc_msg) :
    (tipc_node_filter_pkt n hdr).2 = n := by
  unfold tipc_node_filter_pkt
  dsimp only
  split_ifs <;> rfl

/-- C36: in every run of node operations (links attached, tipc_node_link_up,
tipc_node_link_down, tipc_node_check_state, progress of the receive counters,
and tipc_node_filter_pkt, which leaves the node as it is) that starts from a
newly created node, the state after every prefix of the run is one of the six
states SELF_DOWN_PEER_LEAVING, SELF_DOWN_PEER_DOWN, SELF_UP_PEER_COMING,
SELF_UP_PEER_UP, NODE_FAILINGOVER and NODE_SYNCHING: it is never
SELF_COMING_PEER_UP and never SELF_LEAVING_PEER_DOWN. The six states are closed
under the self, failover and synch events, and tipc_node_check_state issues
PEER_ESTABL_CONTACT_EVT only in SELF_UP_PEER_COMING and PEER_LOST_CONTACT_EVT
only in SELF_DOWN_PEER_LEAVING. -/
theorem run_never_half_open (max_bearers : Nat) (net : tipc_net_env) (addr : Nat)
    (evs : List node_event) (n' : tipc_node)
    (h : exec_events (tipc_node_alloc max_bearers net addr) evs = some n') :
    ∀ k : Nat, ∃ m : tipc_node,
      exec_events (tipc_node_alloc max_bearers net addr) (evs.take k) = some m ∧
      m.state ≠ SELF_COMING_PEER_UP ∧ m.state ≠ SELF_LEAVING_PEER_DOWN ∧
      m.state ∈ run_states ∧
      ∀ hdr : tipc_msg, (tipc_node_filter_pkt m hdr).2 = m := by
  intro k
  have happ := exec_events_append (evs.take k) (evs.drop k)
    (tipc_node_alloc max_bearers net addr)
  rw [List.take_append_drop, h] at happ
  cases hm : exec_events (tipc_node_alloc max_bearers net addr) (evs.take k) with
  | none =>
    rw [hm] at happ
    cases happ
  | some m =>
    have h0 : in_run_states (tipc_node_alloc max_bearers net addr) := by
      show SELF_DOWN_PEER_LEAVING ∈ run_states
      decide
    have hr : in_run_states m :=
      run_exec_events (evs.take k) (tipc_node_alloc max_bearers net addr) m h0 hm
    have hmem : m.state ∈ run_states := hr
    refine ⟨m, rfl, ?_, ?_, hmem, fun hdr => filter_pkt_node m hdr⟩
    · intro hc
      rw [hc] at hmem
      revert hmem
      decide
    · intro hc
      rw [hc] at hmem
      revert hmem
      decide

theorem run_never_half_open_witness :
    ∃ m : tipc_node,
      exec_events (tipc_node_alloc 3 { own_addr := 0x100001, skb_alloc := [] } 0x100042)
        (sample_establish_events.take 5) = some m ∧
      m.state ≠ SELF_COMING_PEER_UP ∧ m.state ≠ SELF_LEAVING_PEER_DOWN ∧
      m.state ∈ run_states ∧
      ∀ hdr : tipc_msg, (tipc_node_filter_pkt m hdr).2 = m :=
  run_never_half_open 3 { own_addr := 0x100001, skb_alloc := [] } 0x100042
    sample_establish_events sample_established rfl 5

/-! ## Packets in SELF_DOWN_PEER_LEAVING -/

theorem link_down_state_cases (n n' : tipc_node) (bearer_id : Nat)
    (hd : tipc_node_link_down n bearer_id = some n') :
    n'.state = n.state ∨ n'.state = (tipc_node_fsm_evt n SELF_LOST_CONTACT_EVT).state ∨
      n'.state = (tipc_node_fsm_evt n NODE_FAILOVER_BEGIN_EVT).state := by
  unfold tipc_node_link_down at hd
  split at hd
  · cases hd
    exact Or.inl rfl
  · dsimp only at hd
    split_ifs at hd with hup hnu
    · cases hd
      exact Or.inl rfl
    · cases hd
      refine Or.inr (Or.inl ?_)
      rw [node_lost_contact_state]
      exact fsm_evt_state_congr _ _ _ (node_set_link_state _ _ _)
    · split at hd
      · cases hd
      · cases hd
        refine Or.inr (Or.inr ?_)
        rw [node_set_link_state]
        dsimp only
        rw [fsm_evt_state, fsm_evt_state]

theorem link_down_down_down (n n' : tipc_node) (bearer_id : Nat)
    (h : n.state = SELF_DOWN_PEER_DOWN)
    (hd : tipc_node_link_down n bearer_id = some n') : n'.state = SELF_DOWN_PEER_DOWN := by
  rcases link_down_state_cases n n' bearer_id hd with hs | hs | hs
  · exact hs.trans h
  · rw [hs, fsm_evt_state, h]
    rfl
  · rw [hs, fsm_evt_state, h]
    rfl

theorem check_state_failover_total (n : tipc_node) (hdr : tipc_msg) (pl : Option Nat) :
    ∃ n1, check_state_failover n hdr pl = some n1 := by
  unfold check_state_failover
  dsimp only
  split_ifs with hc
  · have hdown : ∃ nd, (match pl.bind fun i => (node_link n i).map fun q => (i, q) with
        | some (i, q) =>
          if tipc_link_is_up q then
            (tipc_node_link_down n q.bearer_id).map fun n =>
              node_update_link n i fun q => { q with exec_mode := .TIPC_LINK_BLOCKED }
          else some n
        | none => some n) = some nd := by
      split
      · rename_i i q hq
        split_ifs
        · obtain ⟨nd, hnd, -⟩ := link_down_total n q.bearer_id
          rw [hnd]
          exact ⟨_, rfl⟩
        · exact ⟨_, rfl⟩
      · exact ⟨_, rfl⟩
    obtain ⟨nd, hnd⟩ := hdown
    rw [hnd]
    exact ⟨_, rfl⟩
  · exact ⟨_, rfl⟩

theorem check_state_failover_down_down (n n' : tipc_node) (hdr : tipc_msg) (pl : Option Nat)
    (h : n.state = SELF_DOWN_PEER_DOWN) (hf : check_state_failover n hdr pl = some n') :
    n'.state = SELF_DOWN_PEER_DOWN := by
  unfold check_state_failover at hf
  dsimp only at hf
  split_ifs at hf with hc
  · obtain ⟨nd, hnd, rfl⟩ := Option.map_eq_some'.mp hf
    have hd : nd.state = SELF_DOWN_PEER_DOWN := by
      split at hnd
      · split_ifs at hnd
        · obtain ⟨n1, hn1, rfl⟩ := Option.map_eq_some'.mp hnd
          rw [node_update_link_state]
          exact link_down_down_down _ _ _ h hn1
        · cases hnd
          exact h
      · cases hnd
        exact h
    split_ifs
    · exact hd
    · exact hd
  · cases hf
    exact h

/-- C37: for a node in SELF_DOWN_PEER_LEAVING with a link on the receiving
bearer, tipc_node_check_state returns false and leaves the node (and so its
state) unchanged when the packet asserts that the peer node is up; otherwise it
returns true and the state afterwards is SELF_DOWN_PEER_DOWN, whatever the
user, type and sequence number of the packet. -/
theorem check_state_peer_leaving (n : tipc_node) (hdr : tipc_msg) (bearer_id : Nat)
    (l : tipc_link) (hs : n.state = SELF_DOWN_PEER_LEAVING)
    (hl : node_link n bearer_id = some l) :
    (msg_peer_node_is_up hdr = true →
      tipc_node_check_state n hdr bearer_id = some (false, n)) ∧
    (msg_peer_node_is_up hdr = false →
      ∃ n', tipc_node_check_state n hdr bearer_id = some (true, n') ∧
        n'.state = SELF_DOWN_PEER_DOWN) := by
  have hnu : n.state ≠ SELF_UP_PEER_UP := fun h => absurd (hs.symm.trans h) (by decide)
  have hnc : n.state ≠ SELF_UP_PEER_COMING := fun h => absurd (hs.symm.trans h) (by decide)
  have hdd := fsm_peer_lost_leaving n hs
  constructor
  · intro hp
    unfold tipc_node_check_state
    simp only [hl, hnu, hnc, false_and, if_false]
    simp only [hs, hp, and_self, if_true]
  · intro hp
    unfold tipc_node_check_state
    simp only [hl, hnu, hnc, false_and, if_false]
    simp only [hs, hp, Bool.false_eq_true, and_false, if_false, if_true]
    split_ifs with hdup
    · exact ⟨_, rfl, hdd⟩
    · obtain ⟨n1, hn1⟩ := check_state_failover_total
        (tipc_node_fsm_evt n PEER_LOST_CONTACT_EVT) hdr
        (find_parallel_link bearer_id n.links 0)
      have hs1 := check_state_failover_down_down _ _ _ _ hdd hn1
      rw [hn1]
      dsimp only
      rw [if_neg (fun h => absurd (hs1.symm.trans h.1) (by decide))]
      have hsy := (check_state_synch_facts n1 hdr bearer_id
        (fun h => absurd (hs1.symm.trans h) (by decide))).1
      rw [check_state_open_tunnel_skip _ _ _ _
        (fun h => absurd ((hsy.trans hs1).symm.trans h) (by decide))]
      exact ⟨_, rfl, hsy.trans hs1⟩

theorem check_state_peer_leaving_witness :
    (msg_peer_node_is_up (sample_hdr 1 true true) = true →
      tipc_node_check_state { sample_node with
          links := [{ link := some (sample_link 0 5), mtu := 0 }] }
        (sample_hdr 1 true true) 0 =
        some (false, { sample_node with
          links := [{ link := some (sample_link 0 5), mtu := 0 }] })) ∧
    (msg_peer_node_is_up (sample_hdr 1 true true) = false →
      ∃ n', tipc_node_check_state { sample_node with
          links := [{ link := some (sample_link 0 5), mtu := 0 }] }
        (sample_hdr 1 true true) 0 = some (true, n') ∧
        n'.state = SELF_DOWN_PEER_DOWN) :=
  check_state_peer_leaving
    { sample_node with links := [{ link := some (sample_link 0 5), mtu := 0 }] }
    (sample_hdr 1 true true) 0 (sample_link 0 5) rfl rfl
/-! ## The count of working links -/

/-- C38 fails on the code: three links are attached to a newly created node
and the link layer brings all three up. The link-up of the third link is
turned away (working_links stays 2) but the link itself stays up, so each of
the three link-downs that follow decrements the count: working_links is 2, 1,
0 and then -1. -/
theorem working_links_underflow :
    (List.range 10).map (fun k =>
      (exec_events (tipc_node_alloc 3 { own_addr := 0x100001, skb_alloc := [] } 0x100042)
        (List.take k
          [.attach (sample_link 0 5), .attach (sample_link 1 5), .attach (sample_link 2 5),
           .link_up 0, .link_up 1, .link_up 2,
           .link_down 0, .link_down 1, .link_down 2])).map (fun n => n.working_links)) =
      [some 0, some 0, some 0, some 0, some 1, some 2, some 2, some 1, some 0, some (-1)] := by
  rfl
/-! ## Reference counts and connection lists under the node operations -/

theorem fsm_evt_kref (n : tipc_node) (evt : Int) : (tipc_node_fsm_evt n evt).kref = n.kref := by
  unfold tipc_node_fsm_evt
  split <;> rfl

theorem node_set_link_kref (n : tipc_node) (i : Nat) (l : tipc_link) :
    (node_set_link n i l).kref = n.kref := by
  unfold node_set_link
  split <;> rfl

theorem lost_contact_conns_kref :
    ∀ (conns : List tipc_sock_conn) (n : tipc_node),
      (node_lost_contact_conns conns n).kref = n.kref := by
  intro conns
  induction conns with
  | nil => exact fun n => rfl
  | cons c cs ih =>
    intro n
    unfold node_lost_contact_conns
    dsimp only
    split_ifs
    · exact ih _
    · exact ih _

theorem node_lost_contact_kref (n : tipc_node) : (node_lost_contact n).kref = n.kref := by
  unfold node_lost_contact
  dsimp only
  rw [lost_contact_conns_kref]
  dsimp only
  rw [fsm_evt_kref]
  split_ifs <;> rfl

theorem link_down_kref (n n' : tipc_node) (bearer_id : Nat)
    (hd : tipc_node_link_down n bearer_id = some n') : n'.kref = n.kref := by
  unfold tipc_node_link_down at hd
  split at hd
  · cases hd
    rfl
  · dsimp only at hd
    split_ifs at hd with hup hnu
    · cases hd
      rfl
    · cases hd
      rw [node_lost_contact_kref, node_set_link_kref]
    · split at hd
      · cases hd
      · cases hd
        rw [node_set_link_kref]
        dsimp only
        rw [fsm_evt_kref]

theorem reset_links_loop_kref :
    ∀ (bearers : List Nat) (n m : tipc_node), reset_links_loop n bearers = some m →
      m.kref = n.kref := by
  intro bearers
  induction bearers with
  | nil =>
    intro n m h
    cases h
    rfl
  | cons i rest ih =>
    intro n m h
    unfold reset_links_loop at h
    split at h
    · exact ih n m h
    · split at h
      · cases h
      · rename_i nd hnd
        exact (ih nd m h).trans (link_down_kref n nd i hnd)

theorem reset_links_kref (unlock : tipc_node → Option (List node_effect × tipc_node))
    (hu : ∀ x r, unlock x = some r → r.2.kref = x.kref) :
    ∀ x r, tipc_node_reset_links unlock x = some r → r.2.kref = x.kref := by
  intro x r h
  have hdef : tipc_node_reset_links unlock x =
      match reset_links_loop
        { x with lock := x.lock + 1, klog := x.klog ++ [.resetting_links x.addr] }
        (List.range x.links.length) with
      | none => none
      | some n => unlock n := rfl
  rw [hdef] at h
  cases hm : reset_links_loop
      { x with lock := x.lock + 1, klog := x.klog ++ [.resetting_links x.addr] }
      (List.range x.links.length) with
  | none =>
    rw [hm] at h
    cases h
  | some m =>
    rw [hm] at h
    have h1 := reset_links_loop_kref _ _ m hm
    exact (hu m r h).trans h1

theorem unlock_body_kref (rl : tipc_node → Option (List node_effect × tipc_node))
    (hrl : ∀ x r, rl x = some r → r.2.kref = x.kref) :
    ∀ x r, tipc_node_unlock_body rl x = some r → r.2.kref = x.kref := by
  intro x r h
  unfold tipc_node_unlock_body at h
  dsimp only at h
  by_cases hfast : x.action_flags = 0 ∨ x.action_flags = TIPC_MSG_EVT
  · rw [if_pos hfast] at h
    rw [← Option.some.inj h]
  · rw [if_neg hfast] at h
    by_cases hr : x.action_flags &&& TIPC_BCAST_RESET ≠ 0
    · rw [if_pos hr] at h
      obtain ⟨r1, hr1, rfl⟩ := Option.map_eq_some'.mp h
      have h1 := hrl _ r1 hr1
      exact h1
    · rw [if_neg hr] at h
      rw [← Option.some.inj h]

theorem unlock_kref (fuel : Nat) :
    ∀ x r, tipc_node_unlock fuel x = some r → r.2.kref = x.kref := by
  induction fuel with
  | zero =>
    rw [unlock_fuel_zero]
    exact unlock_body_kref _ (fun x r h => by cases h)
  | succ k ih =>
    rw [unlock_fuel_succ]
    exact unlock_body_kref _ (reset_links_kref _ ih)

theorem unlock_total (fuel : Nat) (n : tipc_node) (hfuel : 1 ≤ fuel) :
    ∃ r, tipc_node_unlock fuel n = some r := by
  obtain ⟨k, rfl⟩ : ∃ k, fuel = k + 1 := ⟨fuel - 1, by omega⟩
  rw [unlock_fuel_succ k]
  by_cases hr : n.action_flags &&& TIPC_BCAST_RESET = 0
  · obtain ⟨n', hb, -, -⟩ :=
      unlock_body_no_reset (tipc_node_reset_links (tipc_node_unlock k)) n hr
    exact ⟨_, hb⟩
  · rw [unlock_body_reset _ n hr]
    obtain ⟨m, hm, hmf, -⟩ := reset_links_spec (tipc_node_unlock k)
      { n with
        action_flags := n.action_flags &&& (U32_MAX ^^^ unlock_flag_mask),
        lock := n.lock - 1 }
    have b6 : m.action_flags &&& TIPC_BCAST_RESET = 0 := by
      rw [hmf TIPC_BCAST_RESET rfl rfl rfl]
      exact flags_cleared_and _ _ (unlock_mask_clears _ (by decide))
    rw [hm]
    have hn : ∃ r, tipc_node_unlock k m = some r := by
      cases k with
      | zero =>
        rw [unlock_fuel_zero]
        obtain ⟨n', hb, -, -⟩ := unlock_body_no_reset (fun _ => none) m b6
        exact ⟨_, hb⟩
      | succ j =>
        rw [unlock_fuel_succ]
        obtain ⟨n', hb, -, -⟩ :=
          unlock_body_no_reset (tipc_node_reset_links (tipc_node_unlock j)) m b6
        exact ⟨_, hb⟩
    obtain ⟨r, hr'⟩ := hn
    rw [hr']
    exact ⟨_, rfl⟩

theorem node_find_hit_node (tn : tipc_net) (addr p : Nat)
    (h : (tipc_node_find tn addr).1 = some p) :
    ∃ node, tn.nodes[p]? = some node ∧ node.addr = addr ∧
      tipc_node_find tn addr =
        (some p, { tn with nodes := tn.nodes.modify tipc_node_get p }) ∧
      (tn.nodes.modify tipc_node_get p)[p]? = some (tipc_node_get node) := by
  obtain ⟨-, hlk, hfind⟩ := node_find_some tn addr p h
  obtain ⟨-, node, hnode, haddr⟩ := node_htable_lookup_some tn.nodes addr _ p hlk
  refine ⟨node, hnode, haddr, hfind, ?_⟩
  rw [List.getElem?_modify, hnode]
  simp

theorem node_put_nodes (tn : tipc_net) (p : Nat) (node : tipc_node)
    (h : tn.nodes[p]? = some node) :
    (tipc_node_put tn p).nodes = tn.nodes.set p { node with kref := node.kref - 1 } := by
  unfold tipc_node_put
  rw [h]
  dsimp only
  split_ifs <;> rfl

theorem krefs_after_update (tn tn2 : tipc_net) (p : Nat) (node node2 : tipc_node)
    (h : tn.nodes[p]? = some node) (hk : node2.kref = node.kref + 1)
    (h2 : tn2.nodes = (tn.nodes.modify tipc_node_get p).set p node2) :
    registry_krefs (tipc_node_put tn2 p) = registry_krefs tn := by
  have hp : p < tn.nodes.length := by
    by_contra hge
    rw [List.getElem?_eq_none (by omega)] at h
    cases h
  have h2p : tn2.nodes[p]? = some node2 := by
    rw [h2, List.getElem?_set]
    simp [List.length_modify, hp]
  unfold registry_krefs
  rw [node_put_nodes tn2 p node2 h2p, h2]
  apply List.ext_getElem?
  intro q
  simp only [List.getElem?_map, List.getElem?_set, List.length_set, List.length_modify,
    List.getElem?_modify]
  by_cases hq : p = q
  · subst hq
    simp [hp, h, hk]
  · simp [hq]

theorem krefs_after_find_put (tn tn2 : tipc_net) (p : Nat) (node : tipc_node)
    (h : tn.nodes[p]? = some node)
    (h2 : tn2.nodes = tn.nodes.modify tipc_node_get p) :
    registry_krefs (tipc_node_put tn2 p) = registry_krefs tn := by
  apply krefs_after_update tn tn2 p node (tipc_node_get node) h rfl
  rw [h2]
  apply List.ext_getElem?
  intro q
  simp only [List.getElem?_set, List.length_modify, List.getElem?_modify]
  by_cases hq : p = q
  · subst hq
    have hp : p < tn.nodes.length := by
      by_contra hge
      rw [List.getElem?_eq_none (by omega)] at h
      cases h
    simp [hp, h]
  · simp [hq]
theorem add_conn_krefs (in_own_node : Nat → Bool) (kmalloc_ok : Bool) (fuel : Nat)
    (tn : tipc_net) (dnode port peer_port : Nat) (hfuel : 1 ≤ fuel) :
    ∃ r, tipc_node_add_conn in_own_node kmalloc_ok fuel tn dnode port peer_port = some r ∧
      registry_krefs r.2.2 = registry_krefs tn := by
  unfold tipc_node_add_conn
  by_cases ho : in_own_node dnode = true
  · rw [if_pos ho]
    exact ⟨_, rfl, rfl⟩
  · rw [if_neg ho]
    cases hf : (tipc_node_find tn dnode).1 with
    | none =>
      rw [node_find_none tn dnode hf]
      exact ⟨_, rfl, rfl⟩
    | some p =>
      obtain ⟨node, hnode, -, hfind, hget⟩ := node_find_hit_node tn dnode p hf
      rw [hfind]
      dsimp only
      cases kmalloc_ok with
      | false =>
        simp only [Bool.not_false, if_true]
        exact ⟨_, rfl, krefs_after_find_put tn _ p node hnode rfl⟩
      | true =>
        simp only [Bool.not_true, Bool.false_eq_true, if_false]
        rw [hget]
        dsimp only
        split
        · rename_i heq
          obtain ⟨r, hr⟩ := unlock_total fuel _ hfuel
          rw [hr] at heq
          cases heq
        · rename_i calls node2 heq
          have hk := unlock_kref fuel _ _ heq
          exact ⟨_, rfl, krefs_after_update tn _ p node node2 hnode hk rfl⟩

theorem remove_conn_krefs (in_own_node : Nat → Bool) (fuel : Nat)
    (tn : tipc_net) (dnode port : Nat) (hfuel : 1 ≤ fuel) :
    ∃ r, tipc_node_remove_conn in_own_node fuel tn dnode port = some r ∧
      registry_krefs r.2 = registry_krefs tn := by
  unfold tipc_node_remove_conn
  by_cases ho : in_own_node dnode = true
  · rw [if_pos ho]
    exact ⟨_, rfl, rfl⟩
  · rw [if_neg ho]
    cases hf : (tipc_node_find tn dnode).1 with
    | none =>
      rw [node_find_none tn dnode hf]
      exact ⟨_, rfl, rfl⟩
    | some p =>
      obtain ⟨node, hnode, -, hfind, hget⟩ := node_find_hit_node tn dnode p hf
      rw [hfind]
      dsimp only
      rw [hget]
      dsimp only
      split
      · rename_i heq
        obtain ⟨r, hr⟩ := unlock_total fuel _ hfuel
        rw [hr] at heq
        cases heq
      · rename_i calls node2 heq
        have hk := unlock_kref fuel _ _ heq
        exact ⟨_, rfl, krefs_after_update tn _ p node node2 hnode hk rfl⟩

theorem get_linkname_krefs (fuel : Nat) (tn : tipc_net) (bearer_id addr : Nat)
    (hfuel : 1 ≤ fuel) :
    ∃ r, tipc_node_get_linkname fuel tn bearer_id addr = some r ∧
      registry_krefs r.2.2.2 = registry_krefs tn := by
  unfold tipc_node_get_linkname
  cases hf : (tipc_node_find tn addr).1 with
  | none =>
    rw [node_find_none tn addr hf]
    exact ⟨_, rfl, rfl⟩
  | some p =>
    obtain ⟨node, hnode, -, hfind, hget⟩ := node_find_hit_node tn addr p hf
    rw [hfind]
    dsimp only
    rw [hget]
    dsimp only
    have hlk : ∀ x : tipc_node × Int × Option tipc_link,
        (x = (if bearer_id ≥ tn.max_bearers then (tipc_node_get node, -EINVAL, none)
          else
            match node_link { tipc_node_get node with lock := (tipc_node_get node).lock + 1 }
                bearer_id with
            | some link =>
              ({ tipc_node_get node with lock := (tipc_node_get node).lock + 1 }, 0, some link)
            | none =>
              ({ tipc_node_get node with lock := (tipc_node_get node).lock + 1 },
                -EINVAL, none))) → x.1.kref = node.kref + 1 := by
      intro x hx
      rw [hx]
      split_ifs
      · rfl
      · split <;> rfl
    split
    · rename_i heq
      obtain ⟨r, hr⟩ := unlock_total fuel _ hfuel
      rw [hr] at heq
      cases heq
    · rename_i calls node2 heq
      have hk := unlock_kref fuel _ _ heq
      exact ⟨_, rfl, krefs_after_update tn _ p node node2 hnode (hk.trans (hlk _ rfl)) rfl⟩
theorem xmit_locked_no_slot (f : tipc_link → Int) (n : tipc_node) (sel : Int)
    (h : tipc_node_select_link n sel = none) :
    node_xmit_locked f n sel = some (-EHOSTUNREACH, none, n) := by
  unfold node_xmit_locked
  rw [h]
  rfl

theorem xmit_locked_no_link (f : tipc_link → Int) (n : tipc_node) (sel : Int) (b : Nat)
    (h : tipc_node_select_link n sel = some (b, none)) :
    node_xmit_locked f n sel = some (-EHOSTUNREACH, some b, n) := by
  unfold node_xmit_locked
  rw [h]
  rfl

theorem xmit_locked_link (f : tipc_link → Int) (n : tipc_node) (sel : Int) (b : Nat)
    (l : tipc_link) (h : tipc_node_select_link n sel = some (b, some l))
    (hrc : f l ≠ -ENOBUFS) :
    node_xmit_locked f n sel = some (f l, some b, n) := by
  unfold node_xmit_locked
  rw [h]
  exact if_neg hrc

theorem xmit_locked_enobufs (f : tipc_link → Int) (n : tipc_node) (sel : Int) (b : Nat)
    (l : tipc_link) (h : tipc_node_select_link n sel = some (b, some l))
    (hrc : f l = -ENOBUFS) :
    ∃ nd, tipc_node_link_down n b = some nd ∧
      node_xmit_locked f n sel = some (-ENOBUFS, some b, nd) := by
  obtain ⟨nd, hnd, -⟩ := link_down_total n b
  refine ⟨nd, hnd, ?_⟩
  unfold node_xmit_locked
  rw [h]
  show (if f l = -ENOBUFS then
      (tipc_node_link_down n b).map fun n => (f l, some b, n) else some (f l, some b, n)) = _
  rw [if_pos hrc, hnd, hrc]
  rfl

theorem xmit_locked_total (f : tipc_link → Int) (n : tipc_node) (sel : Int) :
    ∃ r, node_xmit_locked f n sel = some r ∧ r.2.2.kref = n.kref ∧
      (r.1 = 0 → r.2.1.isSome = true) := by
  cases h : tipc_node_select_link n sel with
  | none =>
    rw [xmit_locked_no_slot f n sel h]
    have hne : ¬ (-EHOSTUNREACH = (0 : Int)) := by decide
    exact ⟨_, rfl, rfl, fun hc => absurd hc hne⟩
  | some bl =>
    obtain ⟨b, ol⟩ := bl
    cases ol with
    | none =>
      rw [xmit_locked_no_link f n sel b h]
      exact ⟨_, rfl, rfl, fun _ => rfl⟩
    | some l =>
      by_cases hrc : f l = -ENOBUFS
      · obtain ⟨nd, hnd, hx⟩ := xmit_locked_enobufs f n sel b l h hrc
        rw [hx]
        exact ⟨_, rfl, link_down_kref n nd b hnd, fun _ => rfl⟩
      · rw [xmit_locked_link f n sel b l h hrc]
        exact ⟨_, rfl, rfl, fun _ => rfl⟩

theorem xmit_krefs (in_own_node : Nat → Bool) (f : tipc_link → Int) (fuel : Nat)
    (tn : tipc_net) (dnode : Nat) (selector : Int) (hfuel : 1 ≤ fuel) :
    ∃ r, tipc_node_xmit in_own_node f fuel tn dnode selector = some r ∧
      registry_krefs r.2.2.2 = registry_krefs tn := by
  unfold tipc_node_xmit
  cases hf : (tipc_node_find tn dnode).1 with
  | none =>
    rw [node_find_none tn dnode hf]
    dsimp only
    rw [if_neg (by decide)]
    split_ifs
    · exact ⟨_, rfl, rfl⟩
    · exact ⟨_, rfl, rfl⟩
  | some p =>
    obtain ⟨node, hnode, -, hfind, hget⟩ := node_find_hit_node tn dnode p hf
    obtain ⟨r1, hr1, hk1, hb1⟩ :=
      xmit_locked_total f { tipc_node_get node with lock := (tipc_node_get node).lock + 1 }
        selector
    obtain ⟨r2, hr2⟩ := unlock_total fuel r1.2.2 hfuel
    have hk2 := unlock_kref fuel _ _ hr2
    have hkr : registry_krefs (tipc_node_put
        { ({ tn with nodes := tn.nodes.modify tipc_node_get p } : tipc_net) with
          nodes := (tn.nodes.modify tipc_node_get p).set p r2.2 } p) = registry_krefs tn :=
      krefs_after_update tn _ p node r2.2 hnode (hk2.trans hk1) rfl
    obtain ⟨rc, bearer, n1⟩ := r1
    obtain ⟨calls, n2⟩ := r2
    rw [hfind]
    dsimp only
    rw [hget]
    dsimp only
    rw [hr1]
    dsimp only
    dsimp only at hr2
    rw [hr2]
    dsimp only
    by_cases hrc : rc = 0
    · rw [if_pos hrc]
      cases bearer with
      | none =>
        have hb2 : (none : Option Nat).isSome = true := hb1 hrc
        cases hb2
      | some bid => exact ⟨_, rfl, hkr⟩
    · rw [if_neg hrc]
      split_ifs
      · exact ⟨_, rfl, hkr⟩
      · exact ⟨_, rfl, hkr⟩
/-- C31: each of tipc_node_add_conn, tipc_node_remove_conn,
tipc_node_get_linkname and tipc_node_xmit returns, for every registry and
every argument (own node or not, node known or unknown, allocation of the
record failing or not, bearer identity inside or outside the table, link
present or missing, any result of the link layer), and the reference count of
every node after the call equals its count before the call: the reference
taken by the lookup is released on every path. -/
theorem lookup_releases_reference (in_own_node : Nat → Bool) (kmalloc_ok : Bool)
    (tipc_link_xmit : tipc_link → Int) (fuel : Nat) (tn : tipc_net)
    (dnode port peer_port bearer_id : Nat) (selector : Int) (hfuel : 1 ≤ fuel) :
    (∃ r, tipc_node_add_conn in_own_node kmalloc_ok fuel tn dnode port peer_port = some r ∧
      registry_krefs r.2.2 = registry_krefs tn) ∧
    (∃ r, tipc_node_remove_conn in_own_node fuel tn dnode port = some r ∧
      registry_krefs r.2 = registry_krefs tn) ∧
    (∃ r, tipc_node_get_linkname fuel tn bearer_id dnode = some r ∧
      registry_krefs r.2.2.2 = registry_krefs tn) ∧
    (∃ r, tipc_node_xmit in_own_node tipc_link_xmit fuel tn dnode selector = some r ∧
      registry_krefs r.2.2.2 = registry_krefs tn) :=
  ⟨add_conn_krefs in_own_node kmalloc_ok fuel tn dnode port peer_port hfuel,
   remove_conn_krefs in_own_node fuel tn dnode port hfuel,
   get_linkname_krefs fuel tn bearer_id dnode hfuel,
   xmit_krefs in_own_node tipc_link_xmit fuel tn dnode selector hfuel⟩

theorem lookup_releases_reference_witness :
    (∃ r, tipc_node_add_conn sample_in_own_node true 1 two_node_registry 0x1001002 7 9 =
        some r ∧
      registry_krefs r.2.2 = registry_krefs two_node_registry) ∧
    (∃ r, tipc_node_remove_conn sample_in_own_node 1 two_node_registry 0x1001002 7 = some r ∧
      registry_krefs r.2 = registry_krefs two_node_registry) ∧
    (∃ r, tipc_node_get_linkname 1 two_node_registry 3 0x1001002 = some r ∧
      registry_krefs r.2.2.2 = registry_krefs two_node_registry) ∧
    (∃ r, tipc_node_xmit sample_in_own_node (fun _ => -ELINKCONG) 1 two_node_registry
        0x1001002 0 = some r ∧
      registry_krefs r.2.2.2 = registry_krefs two_node_registry) :=
  lookup_releases_reference sample_in_own_node true (fun _ => -ELINKCONG) 1
    two_node_registry 0x1001002 7 9 3 0 (by decide)

/-! ## Connection records -/

theorem xmit_found (in_own_node : Nat → Bool) (f : tipc_link → Int) (fuel : Nat)
    (tn : tipc_net) (dnode : Nat) (selector : Int) (p : Nat) (node : tipc_node)
    (hf : (tipc_node_find tn dnode).1 = some p) (hnode : tn.nodes[p]? = some node)
    (rc : Int) (bearer : Option Nat) (n1 : tipc_node) (calls : List node_effect)
    (n2 : tipc_node)
    (hl : node_xmit_locked f { tipc_node_get node with lock := (tipc_node_get node).lock + 1 }
      selector = some (rc, bearer, n1))
    (hu : tipc_node_unlock fuel n1 = some (calls, n2)) :
    ∃ tn2 : tipc_net,
      tn2.nodes[p]? = some { n2 with kref := n2.kref - 1 } ∧
      tipc_node_xmit in_own_node f fuel tn dnode selector =
        if rc = 0 then
          match bearer with
          | some b => some ((0 : Int), some b, calls, tn2)
          | none => none
        else if in_own_node dnode then some (0, none, calls ++ [.tipc_sk_rcv], tn2)
        else some (rc, none, calls, tn2) := by
  obtain ⟨node1, hnode1, -, hfind, hget⟩ := node_find_hit_node tn dnode p hf
  have hn : node1 = node := Option.some.inj (hnode1.symm.trans hnode)
  subst hn
  have hp : p < tn.nodes.length := by
    by_contra hge
    rw [List.getElem?_eq_none (by omega)] at hnode
    cases hnode
  refine ⟨tipc_node_put
    { ({ tn with nodes := tn.nodes.modify tipc_node_get p } : tipc_net) with
      nodes := (tn.nodes.modify tipc_node_get p).set p n2 } p, ?_, ?_⟩
  · rw [node_put_nodes _ p n2 (by
      show ((tn.nodes.modify tipc_node_get p).set p n2)[p]? = some n2
      rw [List.getElem?_set]
      simp [List.length_modify, hp])]
    show (((tn.nodes.modify tipc_node_get p).set p n2).set p
      { n2 with kref := n2.kref - 1 })[p]? = _
    rw [List.getElem?_set]
    simp [List.length_modify, hp]
  · unfold tipc_node_xmit
    rw [hfind]
    dsimp only
    rw [hget]
    dsimp only
    rw [hl]
    dsimp only
    rw [hu]

theorem select_link_locked (node : tipc_node) (sel : Int) :
    tipc_node_select_link { tipc_node_get node with lock := (tipc_node_get node).lock + 1 }
      sel = tipc_node_select_link node sel := rfl

theorem select_link_none_iff (n : tipc_node) (sel : Int) :
    tipc_node_select_link n sel = none ↔
      (if sel % 2 = 0 then n.active_links.1 else n.active_links.2) < 0 := by
  unfold tipc_node_select_link
  dsimp only
  split_ifs <;> simp_all

theorem select_link_some (n : tipc_node) (sel : Int) (b : Nat) (ol : Option tipc_link)
    (h : tipc_node_select_link n sel = some (b, ol)) :
    (b : Int) = (if sel % 2 = 0 then n.active_links.1 else n.active_links.2) ∧
    node_link n b = ol := by
  unfold tipc_node_select_link at h
  dsimp only at h
  by_cases hneg : (if sel % 2 = 0 then n.active_links.1 else n.active_links.2) < 0
  · rw [if_pos hneg] at h
    cases h
  · rw [if_neg hneg] at h
    have h1 := Option.some.inj h
    have hb : (if sel % 2 = 0 then n.active_links.1 else n.active_links.2).toNat = b :=
      congrArg Prod.fst h1
    have hl := congrArg Prod.snd h1
    dsimp only at hl
    rw [hb] at hl
    refine ⟨?_, hl⟩
    rw [← hb]
    omega

/-- C33: for a destination that is not the own node, tipc_node_xmit returns
-EHOSTUNREACH, handing nothing to a bearer, when the destination node is
unknown or when active slot (selector & 1) is invalid (holds a negative value)
or references a bearer without a link; otherwise, for the link l of the
bearer b in slot (selector & 1), it returns exactly the result of
tipc_link_xmit for l: 0 on success, and then the packets are handed to bearer
b, or the error code, and then nothing is handed to a bearer. When that
result is -ENOBUFS the node that is unlocked and stored back is the one left
by tipc_node_link_down for bearer b; for every other result it is the node as
found. -/
theorem node_xmit_spec (in_own_node : Nat → Bool) (tipc_link_xmit : tipc_link → Int)
    (fuel : Nat) (tn : tipc_net) (dnode : Nat) (selector : Int) (hfuel : 1 ≤ fuel)
    (ho : in_own_node dnode = false) :
    ((tipc_node_find tn dnode).1 = none →
      ∃ r, tipc_node_xmit in_own_node tipc_link_xmit fuel tn dnode selector = some r ∧
        r.1 = -EHOSTUNREACH ∧ r.2.1 = none) ∧
    (∀ p node, (tipc_node_find tn dnode).1 = some p → tn.nodes[p]? = some node →
      (tipc_node_select_link node selector = none ↔
        (if selector % 2 = 0 then node.active_links.1 else node.active_links.2) < 0) ∧
      ((tipc_node_select_link node selector = none ∨
          ∃ b, tipc_node_select_link node selector = some (b, none)) →
        ∃ r, tipc_node_xmit in_own_node tipc_link_xmit fuel tn dnode selector = some r ∧
          r.1 = -EHOSTUNREACH ∧ r.2.1 = none) ∧
      (∀ b l, tipc_node_select_link node selector = some (b, some l) →
        ((b : Int) = (if selector % 2 = 0 then node.active_links.1
          else node.active_links.2) ∧ node_link node b = some l) ∧
        ∃ r, tipc_node_xmit in_own_node tipc_link_xmit fuel tn dnode selector = some r ∧
          r.1 = tipc_link_xmit l ∧
          (tipc_link_xmit l = 0 → r.2.1 = some b) ∧
          (tipc_link_xmit l ≠ 0 → r.2.1 = none) ∧
          ∃ n1 n2,
            (if tipc_link_xmit l = -ENOBUFS then
              tipc_node_link_down
                { tipc_node_get node with lock := (tipc_node_get node).lock + 1 } b = some n1
             else n1 = { tipc_node_get node with lock := (tipc_node_get node).lock + 1 }) ∧
            tipc_node_unlock fuel n1 = some (r.2.2.1, n2) ∧
            r.2.2.2.nodes[p]? = some { n2 with kref := n2.kref - 1 })) := by
  have ho' : ¬ (in_own_node dnode = true) := by
    rw [ho]
    decide
  have hne : ¬ (-EHOSTUNREACH = (0 : Int)) := by decide
  refine ⟨fun hf => ?_, fun p node hf hnode => ⟨select_link_none_iff node selector,
    fun hsel => ?_, fun b l hsel => ⟨select_link_some node selector b (some l) hsel, ?_⟩⟩⟩
  · unfold tipc_node_xmit
    rw [node_find_none tn dnode hf]
    dsimp only
    rw [if_neg hne, if_neg ho']
    exact ⟨_, rfl, rfl, rfl⟩
  · have hl : ∃ bearer, node_xmit_locked tipc_link_xmit
        { tipc_node_get node with lock := (tipc_node_get node).lock + 1 } selector =
        some (-EHOSTUNREACH, bearer,
          { tipc_node_get node with lock := (tipc_node_get node).lock + 1 }) := by
      rcases hsel with h | ⟨b, h⟩
      · exact ⟨none, xmit_locked_no_slot _ _ _ ((select_link_locked node selector).trans h)⟩
      · exact ⟨some b,
          xmit_locked_no_link _ _ _ b ((select_link_locked node selector).trans h)⟩
    obtain ⟨bearer, hl⟩ := hl
    obtain ⟨r2, hr2⟩ := unlock_total fuel
      { tipc_node_get node with lock := (tipc_node_get node).lock + 1 } hfuel
    obtain ⟨calls, n2⟩ := r2
    obtain ⟨tn2, -, hx⟩ := xmit_found in_own_node tipc_link_xmit fuel tn dnode selector p node
      hf hnode _ _ _ calls n2 hl hr2
    rw [hx, if_neg hne, if_neg ho']
    exact ⟨_, rfl, rfl, rfl⟩
  · have hsel' := (select_link_locked node selector).trans hsel
    by_cases hrc : tipc_link_xmit l = -ENOBUFS
    · obtain ⟨nd, hnd, hl⟩ := xmit_locked_enobufs tipc_link_xmit _ selector b l hsel' hrc
      obtain ⟨r2, hr2⟩ := unlock_total fuel nd hfuel
      obtain ⟨calls, n2⟩ := r2
      obtain ⟨tn2, hput, hx⟩ := xmit_found in_own_node tipc_link_xmit fuel tn dnode selector
        p node hf hnode _ _ _ calls n2 hl hr2
      have hnz : ¬ (-ENOBUFS = (0 : Int)) := by decide
      rw [hx, if_neg hnz, if_neg ho', hrc]
      refine ⟨_, rfl, rfl, fun h0 => absurd h0 hnz, fun _ => rfl, nd, n2, ?_, hr2, hput⟩
      rw [if_pos rfl]
      exact hnd
    · have hl := xmit_locked_link tipc_link_xmit _ selector b l hsel' hrc
      obtain ⟨r2, hr2⟩ := unlock_total fuel
        { tipc_node_get node with lock := (tipc_node_get node).lock + 1 } hfuel
      obtain ⟨calls, n2⟩ := r2
      obtain ⟨tn2, hput, hx⟩ := xmit_found in_own_node tipc_link_xmit fuel tn dnode selector
        p node hf hnode _ _ _ calls n2 hl hr2
      rw [hx]
      by_cases h0 : tipc_link_xmit l = 0
      · rw [if_pos h0, h0]
        refine ⟨_, rfl, rfl, fun _ => rfl, fun hc => absurd rfl hc, _, n2, ?_, hr2, hput⟩
        rw [if_neg (by decide)]
      · rw [if_neg h0, if_neg ho']
        refine ⟨_, rfl, rfl, fun hc => absurd hc h0, fun _ => rfl, _, n2, ?_, hr2, hput⟩
        rw [if_neg hrc]
theorem node_xmit_spec_witness :
    ∃ r, tipc_node_xmit sample_in_own_node (fun _ => -ELINKCONG) 1 linked_registry
        0x1001002 0 = some r ∧
      r.1 = -ELINKCONG ∧ r.2.1 = none :=
  have h := ((node_xmit_spec sample_in_own_node (fun _ => -ELINKCONG) 1 linked_registry
    0x1001002 0 (by decide) rfl).2 0
    { two_link_node 5 5 with
      addr := 0x1001002, net := { own_addr := 0x1001001, skb_alloc := [] },
      working_links := 2 } rfl rfl).2.2 0 { sample_link 0 5 with up := true } rfl
  h.2.elim fun r hr => ⟨r, hr.1, hr.2.1, hr.2.2.2.1 (by decide)⟩

/-! ## The node lock in tipc_node_get_linkname -/

/-- C40 fails on the code: in a registry whose nodes all have their lock free
(hold count 0) and whose link table has three bearers, tipc_node_get_linkname
for bearer_id 3 on the known node 1.1.2 returns -EINVAL, as claimed, but leaves
the hold count of the node lock at -1: the jump to exit reaches
tipc_node_unlock although tipc_node_lock was never called. For bearer_id 0
the lock is taken and released, and the count is 0 again. -/
theorem get_linkname_unlocks_unlocked :
    linked_registry.max_bearers = 3 ∧
    linked_registry.nodes.map (fun n => n.lock) = [0] ∧
    (tipc_node_get_linkname 1 linked_registry 3 0x1001002).map
      (fun r => (r.1, r.2.2.2.nodes.map fun n => n.lock)) = some (-EINVAL, [-1]) ∧
    (tipc_node_get_linkname 1 linked_registry 0 0x1001002).map
      (fun r => (r.1, r.2.2.2.nodes.map fun n => n.lock)) = some (0, [0]) := by
  refine ⟨rfl, rfl, ?_, ?_⟩ <;> rfl


end Tipc
